import Mathlib

/-!
# Train ticket service: a shallow embedding

The Go packages `internal/model`, `internal/store`, `internal/auth` and
`internal/service` are embedded as pure Lean functions.  A `*Store` receiver
becomes an explicit `Store` value that every operation takes and returns; a Go
`map[string]V` becomes an `AList` (a finite map with unique keys); `int32`
values become `Int` (the code does no arithmetic on them besides the loop
counter `1..10`); an `error` becomes a value of `store.Error` or `auth.Error`,
with `fmt.Errorf("%w: ...")` as the constructor `wrapped`; a gRPC status error
becomes `service.Reply.fail code message`.  The token parser of the library
`golang-jwt` and the constants of package `config` are parameters.
-/

namespace model

/-- The struct `model.User`. -/
structure User where
  FirstName : String
  LastName : String
  Email : String
deriving DecidableEq

/-- The struct `model.Seat`. -/
structure Seat where
  Section : String
  SeatNumber : Int
deriving DecidableEq

/-- The struct `model.Ticket`. -/
structure Ticket where
  From : String
  To : String
  User : model.User
  PricePaid : Int
  Seat : model.Seat
deriving DecidableEq

/-- The function `model.IsValidSection`. -/
def IsValidSection (sec : String) : Bool :=
  sec == "A" || sec == "B"

/-- The function `model.IsValidSeatNumber`. -/
def IsValidSeatNumber (seatNumber : Int) : Bool :=
  decide (seatNumber ≥ 1) && decide (seatNumber ≤ 10)

end model

namespace store

/-- The sentinel errors of package `store`, and `wrapped inner msg` for an
error built by `fmt.Errorf` with the verb `%w` around `inner`, whose
`Error()` text is `msg`. -/
inductive Error where
  | ErrTicketNotFound
  | ErrSeatAlreadyOccupied
  | ErrTrainFull
  | ErrInvalidSeat
  | ErrUserAlreadyHasTicket
  | wrapped (inner : Error) (msg : String)
deriving DecidableEq

/-- The method `Error()` of an error value. -/
def Error.text : Error → String
  | .ErrTicketNotFound => "ticket not found"
  | .ErrSeatAlreadyOccupied => "seat is already occupied"
  | .ErrTrainFull => "train is full"
  | .ErrInvalidSeat => "invalid seat"
  | .ErrUserAlreadyHasTicket => "user already has a ticket"
  | .wrapped _ msg => msg

/-- The library function `errors.Is`: the error itself or one it wraps. -/
def errorsIs : Error → Error → Bool
  | .wrapped inner msg, target =>
      decide (Error.wrapped inner msg = target) || errorsIs inner target
  | e, target => decide (e = target)

/-- The result of a call that returns `(value, error)`. -/
inductive Result (α : Type) where
  | ok (value : α)
  | err (e : Error)
deriving DecidableEq

/-- The struct `Store` (the mutex aside): the ticket of each email, and the
occupancy marker of each seat key. -/
structure Store where
  tickets : AList (fun _ : String => model.Ticket)
  seats : AList (fun _ : String => Bool)
deriving DecidableEq

/-- The function `NewStore`. -/
def NewStore : Store :=
  { tickets := ∅, seats := ∅ }

/-- The function `seatKey`, `fmt.Sprintf("%s-%d", section, seatNumber)`. -/
def seatKey (sec : String) (seatNumber : Int) : String :=
  sec ++ "-" ++ toString seatNumber

/-- The map read `s.seats[key]`, false for an absent key. -/
def Store.seatAt (s : Store) (key : String) : Bool :=
  (s.seats.lookup key).getD false

/-- The values `1, 2, ..., 10` that the loop counter `i` takes. -/
def seatNumbers : List Int := [1, 2, 3, 4, 5, 6, 7, 8, 9, 10]

/-- The method `findNextAvailableSeat`: the first free seat of section A,
else the first free seat of section B, else `ErrTrainFull`. -/
def findNextAvailableSeat (s : Store) : Result model.Seat :=
  match seatNumbers.find? (fun i => !s.seatAt (seatKey "A" i)) with
  | some i => .ok { Section := "A", SeatNumber := i }
  | none =>
    match seatNumbers.find? (fun i => !s.seatAt (seatKey "B" i)) with
    | some i => .ok { Section := "B", SeatNumber := i }
    | none => .err .ErrTrainFull

/-- The method `PurchaseTicket`: the returned pair and the store after it. -/
def PurchaseTicket (s : Store) (user : model.User) (src dst : String) (pricePaid : Int) :
    Result model.Ticket × Store :=
  if (s.tickets.lookup user.Email).isSome then
    (.err .ErrUserAlreadyHasTicket, s)
  else
    match findNextAvailableSeat s with
    | .err e => (.err e, s)
    | .ok seat =>
      let ticket : model.Ticket :=
        { From := src, To := dst, User := user, PricePaid := pricePaid, Seat := seat }
      (.ok ticket,
        { tickets := s.tickets.insert user.Email ticket,
          seats := s.seats.insert (seatKey seat.Section seat.SeatNumber) true })

/-- The method `GetTicketByEmail`. -/
def GetTicketByEmail (s : Store) (email : String) : Result model.Ticket × Store :=
  match s.tickets.lookup email with
  | none => (.err .ErrTicketNotFound, s)
  | some ticket => (.ok ticket, s)

/-- The method `GetAllAllocations`; the map is walked in the order of its
entries. -/
def GetAllAllocations (s : Store) (sectionFilter : String) : List model.Ticket × Store :=
  ((s.tickets.entries.map (fun e => e.2)).filter
      (fun ticket => sectionFilter == "" || ticket.Seat.Section == sectionFilter), s)

/-- The method `RemoveTicket`; `none` is the nil error. -/
def RemoveTicket (s : Store) (email : String) : Option Error × Store :=
  match s.tickets.lookup email with
  | none => (some .ErrTicketNotFound, s)
  | some ticket =>
    (none,
      { tickets := s.tickets.erase email,
        seats := s.seats.erase (seatKey ticket.Seat.Section ticket.Seat.SeatNumber) })

/-- The method `ModifySeat`. -/
def ModifySeat (s : Store) (email newSection : String) (newSeatNumber : Int) :
    Result model.Ticket × Store :=
  if !model.IsValidSection newSection then
    (.err (.wrapped .ErrInvalidSeat ("invalid seat: invalid section " ++ newSection)), s)
  else if !model.IsValidSeatNumber newSeatNumber then
    (.err (.wrapped .ErrInvalidSeat
      ("invalid seat: invalid seat number " ++ toString newSeatNumber)), s)
  else
    match s.tickets.lookup email with
    | none => (.err .ErrTicketNotFound, s)
    | some ticket =>
      let newSeatKey := seatKey newSection newSeatNumber
      if s.seatAt newSeatKey then
        (.err .ErrSeatAlreadyOccupied, s)
      else
        let oldSeatKey := seatKey ticket.Seat.Section ticket.Seat.SeatNumber
        let ticket' : model.Ticket :=
          { ticket with Seat := { Section := newSection, SeatNumber := newSeatNumber } }
        (.ok ticket',
          { tickets := s.tickets.insert email ticket',
            seats := (s.seats.erase oldSeatKey).insert newSeatKey true })

/-- One call on the store, with its arguments. -/
inductive Op where
  | purchase (user : model.User) (src dst : String) (pricePaid : Int)
  | get (email : String)
  | list (sectionFilter : String)
  | remove (email : String)
  | modify (email newSection : String) (newSeatNumber : Int)
deriving DecidableEq

/-- The store after one call, whether it succeeded or failed. -/
def step (s : Store) : Op → Store
  | .purchase user src dst pricePaid => (PurchaseTicket s user src dst pricePaid).2
  | .get email => (GetTicketByEmail s email).2
  | .list sectionFilter => (GetAllAllocations s sectionFilter).2
  | .remove email => (RemoveTicket s email).2
  | .modify email newSection newSeatNumber => (ModifySeat s email newSection newSeatNumber).2

/-- The store after a sequence of calls. -/
def run (s : Store) (ops : List Op) : Store :=
  ops.foldl step s

open model

/-- The key of a seat in the occupancy map. -/
def key (seat : Seat) : String :=
  seatKey seat.Section seat.SeatNumber

/-- The 20 seats of the train in the order A1, ..., A10, B1, ..., B10. -/
def allSeats : List Seat :=
  [⟨"A", 1⟩, ⟨"A", 2⟩, ⟨"A", 3⟩, ⟨"A", 4⟩, ⟨"A", 5⟩,
   ⟨"A", 6⟩, ⟨"A", 7⟩, ⟨"A", 8⟩, ⟨"A", 9⟩, ⟨"A", 10⟩,
   ⟨"B", 1⟩, ⟨"B", 2⟩, ⟨"B", 3⟩, ⟨"B", 4⟩, ⟨"B", 5⟩,
   ⟨"B", 6⟩, ⟨"B", 7⟩, ⟨"B", 8⟩, ⟨"B", 9⟩, ⟨"B", 10⟩]

/-- A seat of the data model: section A or B, seat number 1 to 10. -/
def validSeat (seat : Seat) : Bool :=
  IsValidSection seat.Section && IsValidSeatNumber seat.SeatNumber

/-- The position of a seat in the order A before B and, within a section,
ascending seat number: A1 is 1, A10 is 10, B1 is 11, B10 is 20. -/
def seatRank (seat : Seat) : Int :=
  (if seat.Section = "A" then 0 else 10) + seat.SeatNumber

/-- The arguments of one `PurchaseTicket` call. -/
structure PurchaseArgs where
  user : User
  src : String
  dst : String
  pricePaid : Int
deriving DecidableEq

/-- The ticket a successful purchase with these arguments creates at a seat. -/
def PurchaseArgs.ticketAt (a : PurchaseArgs) (seat : Seat) : Ticket :=
  { From := a.src, To := a.dst, User := a.user, PricePaid := a.pricePaid, Seat := seat }

/-- Successive `PurchaseTicket` calls: the value each one returns, in call
order, and the store after the last. -/
def purchaseEach (s : Store) : List PurchaseArgs → List (Result Ticket) × Store
  | [] => ([], s)
  | a :: rest =>
    let r := PurchaseTicket s a.user a.src a.dst a.pricePaid
    let rs := purchaseEach r.2 rest
    (r.1 :: rs.1, rs.2)

/-- The consistency of a store: every ticket is filed under its owner's
email and sits on one of the 20 seats, the marked keys are exactly the keys
of the seats of the tickets, and no seat carries two tickets. -/
structure Inv (s : Store) : Prop where
  owner : ∀ email t, s.tickets.lookup email = some t → t.User.Email = email
  valid : ∀ email t, s.tickets.lookup email = some t → t.Seat ∈ allSeats
  marked : ∀ k, s.seatAt k = true ↔ ∃ email t, s.tickets.lookup email = some t ∧ key t.Seat = k
  unique : ∀ e₁ e₂ t₁ t₂, s.tickets.lookup e₁ = some t₁ → s.tickets.lookup e₂ = some t₂ →
    t₁.Seat = t₂.Seat → e₁ = e₂

/-- Sample arguments for 21 purchases with pairwise distinct emails,
`user1@example.com` to `user21@example.com`. -/
def sampleArgs : List PurchaseArgs :=
  (List.range 21).map fun i =>
    { user := ⟨"User", toString (i + 1), "user" ++ toString (i + 1) ++ "@example.com"⟩,
      src := "London", dst := "France", pricePaid := 2000 }

/-- The calls that sell the 20 seats to the first 20 sample users. -/
def fillOps : List Op :=
  (sampleArgs.take 20).map fun a => Op.purchase a.user a.src a.dst a.pricePaid

/-- Sample users. -/
def alice : User := ⟨"Alice", "Ames", "alice@example.com"⟩

/-- Sample users. -/
def bob : User := ⟨"Bob", "Bell", "bob@example.com"⟩

/-- Sample users. -/
def carol : User := ⟨"Carol", "Cole", "carol@example.com"⟩

/-- Sample users: the holder of the administrator token. -/
def ann : User := ⟨"Ann", "Admin", "root@example.com"⟩

/-- Whether a call returned a value and no error. -/
def Result.isOk {α : Type} : Result α → Bool
  | .ok _ => true
  | .err _ => false

/-- The free seats of a store, those whose key is not marked, in the order
A1, ..., A10, B1, ..., B10. -/
def freeSeats (s : Store) : List Seat :=
  allSeats.filter fun seat => !s.seatAt (key seat)

end store

namespace auth

/-- The sentinel errors of package `auth`. -/
inductive Error where
  | ErrNoMetadata
  | ErrNoAuthHeader
  | ErrInvalidToken
  | ErrInvalidTokenFormat
deriving DecidableEq

/-- The method `Error()` of an error value of package `auth`. -/
def Error.text : Error → String
  | .ErrNoMetadata => "no metadata provided"
  | .ErrNoAuthHeader => "no authorization header"
  | .ErrInvalidToken => "invalid token"
  | .ErrInvalidTokenFormat => "invalid token format"

/-- The struct `UserClaims`. -/
structure UserClaims where
  Email : String
  FirstName : String
  LastName : String
  Role : String
deriving DecidableEq

/-- The method `IsAdmin`. -/
def UserClaims.IsAdmin (u : UserClaims) : Bool :=
  u.Role == "admin"

/-- The result of `ExtractUserFromContext`: the claims, or an error. -/
inductive Result where
  | ok (claims : UserClaims)
  | err (e : Error)
deriving DecidableEq

/-- A decoded claim value, a Go `interface{}`: a string, or a value of another
dynamic type. -/
inductive ClaimValue where
  | str (s : String)
  | other
deriving DecidableEq

/-- The type `jwt.MapClaims`, a `map[string]interface{}`. -/
abbrev MapClaims := AList (fun _ : String => ClaimValue)

/-- The type assertion `claims[k].(string)`: the string, when the claim is
present and is a string. -/
def stringClaim (claims : MapClaims) (k : String) : Option String :=
  match claims.lookup k with
  | some (.str v) => some v
  | _ => none

/-- The incoming context, as far as `metadata.FromIncomingContext` reads it: the
metadata, if any, a map from header name to values. -/
structure Context where
  md : Option (AList (fun _ : String => List String))

/-- The white space of `unicode.IsSpace`. -/
def isSpace (c : Char) : Bool :=
  let n := c.toNat
  (9 ≤ n && n ≤ 13) || n == 32 || n == 0x85 || n == 0xA0 || n == 0x1680 ||
    (0x2000 ≤ n && n ≤ 0x200A) || n == 0x2028 || n == 0x2029 || n == 0x202F ||
    n == 0x205F || n == 0x3000

/-- The library function `strings.TrimSpace`. -/
def TrimSpace (s : String) : String :=
  ⟨((s.data.dropWhile isSpace).reverse.dropWhile isSpace).reverse⟩

/-- The library function `strings.TrimPrefix`. -/
def TrimPrefix (s pre : String) : String :=
  if pre.data.isPrefixOf s.data then ⟨s.data.drop pre.data.length⟩ else s

/-- The function `ExtractUserFromContext`.  The parser of the library
`golang-jwt`, `jwt.NewParser().ParseUnverified`, is the parameter
`parseUnverified`: the claim set of a token, or nothing when it returns an
error. -/
def ExtractUserFromContext (parseUnverified : String → Option MapClaims) (ctx : Context) :
    Result :=
  match ctx.md with
  | none => .err .ErrNoMetadata
  | some md =>
    match (md.lookup "authorization").getD [] with
    | [] => .err .ErrNoAuthHeader
    | authHeader :: _ =>
      let tokenString := TrimSpace (TrimPrefix authHeader "Bearer ")
      if tokenString == "" then
        .err .ErrInvalidTokenFormat
      else
        match parseUnverified tokenString with
        | none => .err .ErrInvalidToken
        | some claims =>
          let userClaims : UserClaims :=
            { Email := (stringClaim claims "email").getD "",
              FirstName := (stringClaim claims "first_name").getD "",
              LastName := (stringClaim claims "last_name").getD "",
              Role := (stringClaim claims "role").getD "user" }
          if userClaims.Email == "" then .err .ErrInvalidToken else .ok userClaims

end auth

namespace service

/-- The gRPC status codes the service returns. -/
inductive Code where
  | InvalidArgument
  | NotFound
  | AlreadyExists
  | PermissionDenied
  | ResourceExhausted
  | Unauthenticated
  | Internal
deriving DecidableEq

/-- The outcome of a service call: the response, or `status.Error(code, message)`. -/
inductive Reply (α : Type) where
  | ok (resp : α)
  | fail (code : Code) (message : String)
deriving DecidableEq

/-- The constants of package `config` that the service reads; the package is not
among the sources, so their values are a parameter. -/
structure Config where
  RouteFrom : String
  RouteTo : String
  TicketPriceCents : Int
deriving DecidableEq

/-- Modelled from the spec: the message `ticket.User` of package `api`, whose
declaration is not among the sources; the fields are those the service sets. -/
structure User where
  FirstName : String
  LastName : String
  Email : String
deriving DecidableEq

/-- Modelled from the spec: the message `ticket.Seat` of package `api`, whose
declaration is not among the sources; the fields are those the service sets. -/
structure Seat where
  Section : String
  SeatNumber : Int
deriving DecidableEq

/-- Modelled from the spec: the message `ticket.Receipt` of package `api`, whose
declaration is not among the sources; the fields are those the service sets. -/
structure Receipt where
  From : String
  To : String
  User : service.User
  PricePaid : Int
  Seat : service.Seat
deriving DecidableEq

/-- Modelled from the spec: the message `ticket.Allocation` of package `api`, whose
declaration is not among the sources; the fields are those the service sets. -/
structure Allocation where
  Section : String
  SeatNumber : Int
  User : service.User
deriving DecidableEq

/-- Modelled from the spec: the message `ticket.PurchaseTicketRequest` of package `api`, whose
declaration is not among the sources; the fields are those the service reads. -/
structure PurchaseTicketRequest where
  FirstName : String
  LastName : String
  Email : String
deriving DecidableEq

/-- Modelled from the spec: the message `ticket.ViewAllocationsRequest` of package `api`, whose
declaration is not among the sources; the fields are those the service reads. -/
structure ViewAllocationsRequest where
  Section : String
deriving DecidableEq

/-- Modelled from the spec: the message `ticket.RemoveUserFromTrainRequest` of package `api`, whose
declaration is not among the sources; the fields are those the service reads. -/
structure RemoveUserFromTrainRequest where
  Email : String
deriving DecidableEq

/-- Modelled from the spec: the message `ticket.ModifyUserSeatRequest` of package `api`, whose
declaration is not among the sources; the fields are those the service reads. -/
structure ModifyUserSeatRequest where
  Email : String
  Section : String
  SeatNumber : Int
deriving DecidableEq

/-- Modelled from the spec: the message `ticket.RemoveUserFromTrainResponse` of
package `api`, whose declaration is not among the sources; the fields are those
the service sets. -/
structure RemoveUserFromTrainResponse where
  Success : Bool
  Message : String
deriving DecidableEq

/-- The function `convertTicketToReceipt`. -/
def convertTicketToReceipt (t : model.Ticket) : Receipt :=
  { From := t.From,
    To := t.To,
    User := { FirstName := t.User.FirstName, LastName := t.User.LastName, Email := t.User.Email },
    PricePaid := t.PricePaid,
    Seat := { Section := t.Seat.Section, SeatNumber := t.Seat.SeatNumber } }

/-- The method `PurchaseTicket` of the service; the response holds the receipt. -/
def PurchaseTicket (cfg : Config) (s : store.Store) (req : PurchaseTicketRequest) :
    Reply Receipt × store.Store :=
  if req.FirstName == "" || req.LastName == "" || req.Email == "" then
    (.fail .InvalidArgument "first_name, last_name, and email are required", s)
  else
    let user : model.User :=
      { FirstName := req.FirstName, LastName := req.LastName, Email := req.Email }
    match store.PurchaseTicket s user cfg.RouteFrom cfg.RouteTo cfg.TicketPriceCents with
    | (.err e, s') =>
      if e = .ErrUserAlreadyHasTicket then (.fail .AlreadyExists e.text, s')
      else if e = .ErrTrainFull then (.fail .ResourceExhausted e.text, s')
      else (.fail .Internal e.text, s')
    | (.ok t, s') => (.ok (convertTicketToReceipt t), s')

/-- The method `ViewUserReceipt`; its request message has no field. -/
def ViewUserReceipt (parseUnverified : String → Option auth.MapClaims) (s : store.Store)
    (ctx : auth.Context) : Reply Receipt × store.Store :=
  match auth.ExtractUserFromContext parseUnverified ctx with
  | .err e => (.fail .Unauthenticated e.text, s)
  | .ok userClaims =>
    match store.GetTicketByEmail s userClaims.Email with
    | (.err e, s') =>
      if e = .ErrTicketNotFound then (.fail .NotFound "ticket not found", s')
      else (.fail .Internal e.text, s')
    | (.ok t, s') => (.ok (convertTicketToReceipt t), s')

/-- The method `ViewAllocations`; the response holds the allocations. -/
def ViewAllocations (parseUnverified : String → Option auth.MapClaims) (s : store.Store)
    (ctx : auth.Context) (req : ViewAllocationsRequest) : Reply (List Allocation) × store.Store :=
  match auth.ExtractUserFromContext parseUnverified ctx with
  | .err e => (.fail .Unauthenticated e.text, s)
  | .ok userClaims =>
    if !userClaims.IsAdmin then
      (.fail .PermissionDenied "admin access required", s)
    else
      let r := store.GetAllAllocations s req.Section
      (.ok (r.1.map fun t =>
          { Section := t.Seat.Section,
            SeatNumber := t.Seat.SeatNumber,
            User :=
              { FirstName := t.User.FirstName, LastName := t.User.LastName,
                Email := t.User.Email } }),
        r.2)

/-- The end of `RemoveUserFromTrain`, from the call of the store on, once
`targetEmail` is settled. -/
def removeTarget (s : store.Store) (targetEmail : String) :
    Reply RemoveUserFromTrainResponse × store.Store :=
  match store.RemoveTicket s targetEmail with
  | (some e, s') =>
    if e = .ErrTicketNotFound then (.fail .NotFound e.text, s')
    else (.fail .Internal e.text, s')
  | (none, s') =>
    (.ok { Success := true, Message := "user removed from train successfully" }, s')

/-- The method `RemoveUserFromTrain`. -/
def RemoveUserFromTrain (parseUnverified : String → Option auth.MapClaims) (s : store.Store)
    (ctx : auth.Context) (req : RemoveUserFromTrainRequest) :
    Reply RemoveUserFromTrainResponse × store.Store :=
  match auth.ExtractUserFromContext parseUnverified ctx with
  | .err e => (.fail .Unauthenticated e.text, s)
  | .ok userClaims =>
    if req.Email != "" then
      if !userClaims.IsAdmin then
        (.fail .PermissionDenied "only admin can remove other users", s)
      else
        removeTarget s req.Email
    else
      removeTarget s userClaims.Email

/-- The end of `ModifyUserSeat`, from the call of the store on, once
`targetEmail` is settled. -/
def modifyTarget (s : store.Store) (targetEmail : String) (req : ModifyUserSeatRequest) :
    Reply Receipt × store.Store :=
  match store.ModifySeat s targetEmail req.Section req.SeatNumber with
  | (.err e, s') =>
    if e = .ErrTicketNotFound then (.fail .NotFound e.text, s')
    else if e = .ErrSeatAlreadyOccupied then (.fail .AlreadyExists e.text, s')
    else if e = .ErrInvalidSeat then (.fail .InvalidArgument e.text, s')
    else (.fail .Internal e.text, s')
  | (.ok t, s') => (.ok (convertTicketToReceipt t), s')

/-- The method `ModifyUserSeat`; the response holds the receipt. -/
def ModifyUserSeat (parseUnverified : String → Option auth.MapClaims) (s : store.Store)
    (ctx : auth.Context) (req : ModifyUserSeatRequest) : Reply Receipt × store.Store :=
  match auth.ExtractUserFromContext parseUnverified ctx with
  | .err e => (.fail .Unauthenticated e.text, s)
  | .ok userClaims =>
    if req.Section == "" || req.SeatNumber == 0 then
      (.fail .InvalidArgument "section and seat_number are required", s)
    else if req.Email != "" then
      if !userClaims.IsAdmin then
        (.fail .PermissionDenied "only admin can modify other users' seats", s)
      else
        modifyTarget s req.Email req
    else
      modifyTarget s userClaims.Email req

/-- Sample constants of package `config`. -/
def sampleConfig : Config :=
  { RouteFrom := "London", RouteTo := "France", TicketPriceCents := 2000 }

/-- A sample claim set with the four claims as strings. -/
def sampleClaims (email firstName lastName role : String) : auth.MapClaims :=
  (((((∅ : auth.MapClaims).insert "role" (.str role)).insert "last_name"
    (.str lastName)).insert "first_name" (.str firstName)).insert "email" (.str email))

/-- A sample token parser that knows three tokens: of alice and of bob, with
role "user", and of an administrator. -/
def sampleParse (token : String) : Option auth.MapClaims :=
  if token = "alice-token" then some (sampleClaims "alice@example.com" "Alice" "Ames" "user")
  else if token = "bob-token" then some (sampleClaims "bob@example.com" "Bob" "Bell" "user")
  else if token = "admin-token" then some (sampleClaims "root@example.com" "Ann" "Admin" "admin")
  else none

/-- The context of a call that carries the header `authorization: Bearer <token>`. -/
def bearer (token : String) : auth.Context :=
  { md := some ((∅ : AList (fun _ : String => List String)).insert "authorization"
      ["Bearer " ++ token]) }

/-- A sample store: the administrator ann on seat A1 and bob on seat A2. -/
def adminTickets : store.Store :=
  store.run store.NewStore
    [store.Op.purchase store.ann "London" "France" 2000,
     store.Op.purchase store.bob "London" "France" 2000]

/-- The context of a call that carries the header `authorization` with the given
value. -/
def withHeader (value : String) : auth.Context :=
  { md := some ((∅ : AList (fun _ : String => List String)).insert "authorization" [value]) }

/-- A sample token parser that decodes every token to a claim set with the email
claim only. -/
def emailOnlyParse (_token : String) : Option auth.MapClaims :=
  some ((∅ : auth.MapClaims).insert "email" (.str "test@example.com"))

/-- A sample store: alice on seat A1 and bob on seat A2. -/
def twoTickets : store.Store :=
  store.run store.NewStore
    [store.Op.purchase store.alice "London" "France" 2000,
     store.Op.purchase store.bob "London" "France" 2000]

end service

namespace store

open model

/-! ## The two maps -/

theorem lookup_insert_eq {β : Type} (m : AList (fun _ : String => β)) (k k' : String) (v : β) :
    (m.insert k v).lookup k' = if k' = k then some v else m.lookup k' := by
  by_cases h : k' = k
  · subst h
    simp
  · simp [h, AList.lookup_insert_ne h]

theorem lookup_erase_eq {β : Type} (m : AList (fun _ : String => β)) (k k' : String) :
    (m.erase k).lookup k' = if k' = k then none else m.lookup k' := by
  by_cases h : k' = k
  · subst h
    simp
  · simp [h, AList.lookup_erase_ne h]

theorem seatAt_newStore (k : String) : NewStore.seatAt k = false := by
  simp [Store.seatAt, NewStore]

/-! ## The 20 seats and their keys -/

theorem mem_allSeats_iff (seat : Seat) : seat ∈ allSeats ↔ validSeat seat = true := by
  obtain ⟨sec, n⟩ := seat
  constructor
  · intro h
    simp only [allSeats, List.mem_cons, Seat.mk.injEq, List.mem_singleton] at h
    rcases h with h | h | h | h | h | h | h | h | h | h | h | h | h | h | h | h | h | h | h | h |
      h <;> first | (obtain ⟨rfl, rfl⟩ := h; decide) | simp at h
  · intro h
    simp only [validSeat, IsValidSection, IsValidSeatNumber, Bool.and_eq_true, Bool.or_eq_true,
      beq_iff_eq, decide_eq_true_eq] at h
    obtain ⟨hs, h1, h10⟩ := h
    interval_cases n <;> rcases hs with rfl | rfl <;> decide

theorem keys_nodup : (allSeats.map key).Nodup := by decide

theorem key_inj {a b : Seat} (ha : a ∈ allSeats) (hb : b ∈ allSeats) (h : key a = key b) :
    a = b :=
  List.inj_on_of_nodup_map keys_nodup ha hb h

theorem allSeats_sorted : allSeats.Pairwise (fun a b => seatRank a < seatRank b) := by decide

/-! ## The seat scan -/

theorem findNext_eq (s : Store) :
    findNextAvailableSeat s =
      match allSeats.find? (fun seat => !s.seatAt (key seat)) with
      | some seat => .ok seat
      | none => .err .ErrTrainFull := by
  have hsplit : allSeats = seatNumbers.map (fun i => (⟨"A", i⟩ : Seat)) ++
      seatNumbers.map (fun i => (⟨"B", i⟩ : Seat)) := by decide
  have hA : (seatNumbers.map (fun i => (⟨"A", i⟩ : Seat))).find?
      (fun seat => !s.seatAt (key seat)) =
      (seatNumbers.find? (fun i => !s.seatAt (seatKey "A" i))).map (fun i => ⟨"A", i⟩) := by
    rw [List.find?_map]; rfl
  have hB : (seatNumbers.map (fun i => (⟨"B", i⟩ : Seat))).find?
      (fun seat => !s.seatAt (key seat)) =
      (seatNumbers.find? (fun i => !s.seatAt (seatKey "B" i))).map (fun i => ⟨"B", i⟩) := by
    rw [List.find?_map]; rfl
  rw [hsplit, List.find?_append, hA, hB]
  unfold findNextAvailableSeat
  cases seatNumbers.find? (fun i => !s.seatAt (seatKey "A" i)) with
  | some i => rfl
  | none =>
    cases seatNumbers.find? (fun i => !s.seatAt (seatKey "B" i)) with
    | some i => rfl
    | none => rfl

theorem findNext_ok {s : Store} {seat : Seat} (h : findNextAvailableSeat s = .ok seat) :
    seat ∈ allSeats ∧ s.seatAt (key seat) = false ∧
      ∀ seat' ∈ allSeats, s.seatAt (key seat') = false → seatRank seat ≤ seatRank seat' := by
  rw [findNext_eq] at h
  cases hf : allSeats.find? (fun seat => !s.seatAt (key seat)) with
  | none => rw [hf] at h; cases h
  | some x =>
    rw [hf] at h
    cases h
    rw [List.find?_eq_some] at hf
    obtain ⟨hp, as, bs, hsplit, has⟩ := hf
    have hsorted := allSeats_sorted
    rw [hsplit] at hsorted
    refine ⟨by rw [hsplit]; simp, by simpa using hp, ?_⟩
    intro seat' hmem hfree
    rw [hsplit, List.mem_append, List.mem_cons] at hmem
    rcases hmem with hmem | rfl | hmem
    · have := has seat' hmem
      simp [hfree] at this
    · exact le_refl _
    · have h2 := (List.pairwise_append.1 hsorted).2.1
      exact le_of_lt ((List.pairwise_cons.1 h2).1 seat' hmem)

theorem findNext_err {s : Store} {e : Error} (h : findNextAvailableSeat s = .err e) :
    e = .ErrTrainFull ∧ ∀ seat ∈ allSeats, s.seatAt (key seat) = true := by
  rw [findNext_eq] at h
  cases hf : allSeats.find? (fun seat => !s.seatAt (key seat)) with
  | some x => rw [hf] at h; cases h
  | none =>
    rw [hf] at h
    cases h
    refine ⟨rfl, ?_⟩
    intro seat hmem
    have := List.find?_eq_none.1 hf seat hmem
    simpa using this

theorem findNext_full {s : Store} (h : ∀ seat ∈ allSeats, s.seatAt (key seat) = true) :
    findNextAvailableSeat s = .err .ErrTrainFull := by
  cases hf : findNextAvailableSeat s with
  | ok seat =>
    obtain ⟨hm, hfree, -⟩ := findNext_ok hf
    rw [h seat hm] at hfree
    cases hfree
  | err e => rw [(findNext_err hf).1]

theorem findNext_of_split {s : Store} {done todo : List Seat} {t : Seat}
    (hsplit : done ++ t :: todo = allSeats)
    (hdone : ∀ x ∈ done, s.seatAt (key x) = true) (ht : s.seatAt (key t) = false) :
    findNextAvailableSeat s = .ok t := by
  rw [findNext_eq]
  have : allSeats.find? (fun seat => !s.seatAt (key seat)) = some t := by
    rw [List.find?_eq_some]
    refine ⟨by simp [ht], done, todo, hsplit.symm, ?_⟩
    intro a ha
    simp [hdone a ha]
  rw [this]

/-! ## The outcomes of each operation -/

theorem purchase_cases (s : Store) (user : User) (src dst : String) (pricePaid : Int) :
    ((s.tickets.lookup user.Email).isSome = true ∧
      PurchaseTicket s user src dst pricePaid = (.err .ErrUserAlreadyHasTicket, s)) ∨
    (s.tickets.lookup user.Email = none ∧ findNextAvailableSeat s = .err .ErrTrainFull ∧
      PurchaseTicket s user src dst pricePaid = (.err .ErrTrainFull, s)) ∨
    (s.tickets.lookup user.Email = none ∧ ∃ seat, findNextAvailableSeat s = .ok seat ∧
      PurchaseTicket s user src dst pricePaid =
        (.ok ⟨src, dst, user, pricePaid, seat⟩,
          { tickets := s.tickets.insert user.Email ⟨src, dst, user, pricePaid, seat⟩,
            seats := s.seats.insert (key seat) true })) := by
  unfold PurchaseTicket
  cases hl : s.tickets.lookup user.Email with
  | some t => left; simp
  | none =>
    right
    cases hf : findNextAvailableSeat s with
    | err e =>
      left
      obtain ⟨rfl, -⟩ := findNext_err hf
      simp
    | ok seat =>
      right
      exact ⟨rfl, seat, rfl, by simp [key]⟩

theorem remove_cases (s : Store) (email : String) :
    (s.tickets.lookup email = none ∧ RemoveTicket s email = (some .ErrTicketNotFound, s)) ∨
    (∃ t, s.tickets.lookup email = some t ∧
      RemoveTicket s email =
        (none, { tickets := s.tickets.erase email, seats := s.seats.erase (key t.Seat) })) := by
  unfold RemoveTicket
  cases hl : s.tickets.lookup email with
  | none => left; simp
  | some t => right; exact ⟨t, rfl, rfl⟩

theorem modify_cases (s : Store) (email newSection : String) (newSeatNumber : Int) :
    (IsValidSection newSection = false ∧
      ModifySeat s email newSection newSeatNumber =
        (.err (.wrapped .ErrInvalidSeat ("invalid seat: invalid section " ++ newSection)), s)) ∨
    (IsValidSection newSection = true ∧ IsValidSeatNumber newSeatNumber = false ∧
      ModifySeat s email newSection newSeatNumber =
        (.err (.wrapped .ErrInvalidSeat
          ("invalid seat: invalid seat number " ++ toString newSeatNumber)), s)) ∨
    (validSeat ⟨newSection, newSeatNumber⟩ = true ∧ s.tickets.lookup email = none ∧
      ModifySeat s email newSection newSeatNumber = (.err .ErrTicketNotFound, s)) ∨
    (validSeat ⟨newSection, newSeatNumber⟩ = true ∧ (∃ t, s.tickets.lookup email = some t) ∧
      s.seatAt (seatKey newSection newSeatNumber) = true ∧
      ModifySeat s email newSection newSeatNumber = (.err .ErrSeatAlreadyOccupied, s)) ∨
    (validSeat ⟨newSection, newSeatNumber⟩ = true ∧
      s.seatAt (seatKey newSection newSeatNumber) = false ∧
      ∃ t, s.tickets.lookup email = some t ∧
      ModifySeat s email newSection newSeatNumber =
        (.ok { t with Seat := ⟨newSection, newSeatNumber⟩ },
          { tickets := s.tickets.insert email { t with Seat := ⟨newSection, newSeatNumber⟩ },
            seats := (s.seats.erase (key t.Seat)).insert
              (seatKey newSection newSeatNumber) true })) := by
  unfold ModifySeat
  cases hs : IsValidSection newSection with
  | false => left; simp
  | true =>
    right
    cases hn : IsValidSeatNumber newSeatNumber with
    | false => left; simp
    | true =>
      right
      have hv : validSeat ⟨newSection, newSeatNumber⟩ = true := by simp [validSeat, hs, hn]
      cases hl : s.tickets.lookup email with
      | none => left; simp [hv]
      | some t =>
        right
        cases ho : s.seatAt (seatKey newSection newSeatNumber) with
        | true => left; simp [hv, ho]
        | false => right; exact ⟨hv, rfl, t, rfl, by simp [key, ho]⟩

/-! ## Reading the maps after a write -/

theorem lookup_insert_some {β : Type} {m : AList (fun _ : String => β)} {k k' : String}
    {v t : β} :
    (m.insert k v).lookup k' = some t ↔ (k' = k ∧ t = v) ∨ (k' ≠ k ∧ m.lookup k' = some t) := by
  rw [lookup_insert_eq]
  by_cases h : k' = k
  · simp [h, eq_comm]
  · simp [h]

theorem lookup_erase_some {β : Type} {m : AList (fun _ : String => β)} {k k' : String}
    {t : β} :
    (m.erase k).lookup k' = some t ↔ k' ≠ k ∧ m.lookup k' = some t := by
  rw [lookup_erase_eq]
  by_cases h : k' = k
  · simp [h]
  · simp [h]

theorem seatAt_insert (T : AList (fun _ : String => Ticket)) (S : AList (fun _ : String => Bool))
    (k k' : String) :
    (Store.mk T (S.insert k true)).seatAt k' = true ↔ k' = k ∨ (Store.mk T S).seatAt k' = true := by
  simp only [Store.seatAt, lookup_insert_eq]
  by_cases h : k' = k
  · simp [h]
  · simp [h]

theorem seatAt_erase (T : AList (fun _ : String => Ticket)) (S : AList (fun _ : String => Bool))
    (k k' : String) :
    (Store.mk T (S.erase k)).seatAt k' = true ↔ k' ≠ k ∧ (Store.mk T S).seatAt k' = true := by
  simp only [Store.seatAt, lookup_erase_eq]
  by_cases h : k' = k
  · simp [h]
  · simp [h]

theorem seatAt_tickets (T T' : AList (fun _ : String => Ticket))
    (S : AList (fun _ : String => Bool)) (k : String) :
    (Store.mk T S).seatAt k = (Store.mk T' S).seatAt k := rfl

/-! ## The consistency of every reachable store -/

theorem inv_newStore : Inv NewStore where
  owner := by intro email t h; simp [NewStore] at h
  valid := by intro email t h; simp [NewStore] at h
  marked := by
    intro k
    rw [seatAt_newStore]
    simp [NewStore]
  unique := by intro e₁ e₂ t₁ t₂ h; simp [NewStore] at h

theorem inv_purchase {s : Store} (h : Inv s) (user : User) (src dst : String) (pricePaid : Int) :
    Inv (PurchaseTicket s user src dst pricePaid).2 := by
  rcases purchase_cases s user src dst pricePaid with ⟨-, hr⟩ | ⟨-, -, hr⟩ | ⟨hnone, seat, hf, hr⟩
  · rw [hr]; exact h
  · rw [hr]; exact h
  · rw [hr]
    obtain ⟨hmem, hfree, -⟩ := findNext_ok hf
    obtain ⟨T, S⟩ := s
    have hold : ∀ email t, T.lookup email = some t → email ≠ user.Email := by
      intro email t hl he
      rw [he] at hl
      rw [hl] at hnone
      cases hnone
    have hne : ∀ email t, T.lookup email = some t → key t.Seat ≠ key seat := by
      intro email t hl hk
      have : (Store.mk T S).seatAt (key seat) = true := (h.marked _).2 ⟨email, t, hl, hk⟩
      rw [this] at hfree
      cases hfree
    constructor
    · intro email t hl
      rcases lookup_insert_some.1 hl with ⟨rfl, rfl⟩ | ⟨-, hl⟩
      · rfl
      · exact h.owner _ _ hl
    · intro email t hl
      rcases lookup_insert_some.1 hl with ⟨rfl, rfl⟩ | ⟨-, hl⟩
      · exact hmem
      · exact h.valid _ _ hl
    · intro k
      rw [seatAt_insert, seatAt_tickets _ T, h.marked k]
      constructor
      · rintro (rfl | ⟨email, t, hl, hk⟩)
        · exact ⟨user.Email, _, lookup_insert_some.2 (Or.inl ⟨rfl, rfl⟩), rfl⟩
        · exact ⟨email, t, lookup_insert_some.2 (Or.inr ⟨hold _ _ hl, hl⟩), hk⟩
      · rintro ⟨email, t, hl, hk⟩
        rcases lookup_insert_some.1 hl with ⟨rfl, rfl⟩ | ⟨-, hl⟩
        · exact Or.inl hk.symm
        · exact Or.inr ⟨email, t, hl, hk⟩
    · intro e₁ e₂ t₁ t₂ h₁ h₂ hseat
      rcases lookup_insert_some.1 h₁ with ⟨rfl, rfl⟩ | ⟨-, h₁⟩ <;>
        rcases lookup_insert_some.1 h₂ with ⟨rfl, rfl⟩ | ⟨-, h₂⟩
      · rfl
      · exact absurd (congrArg key hseat).symm (hne _ _ h₂)
      · exact absurd (congrArg key hseat) (hne _ _ h₁)
      · exact h.unique _ _ _ _ h₁ h₂ hseat

theorem inv_remove {s : Store} (h : Inv s) (email : String) : Inv (RemoveTicket s email).2 := by
  rcases remove_cases s email with ⟨-, hr⟩ | ⟨t₀, hl₀, hr⟩
  · rw [hr]; exact h
  · rw [hr]
    obtain ⟨T, S⟩ := s
    constructor
    · intro e t hl
      exact h.owner _ _ (lookup_erase_some.1 hl).2
    · intro e t hl
      exact h.valid _ _ (lookup_erase_some.1 hl).2
    · intro k
      rw [seatAt_erase, seatAt_tickets _ T, h.marked k]
      constructor
      · rintro ⟨hk, e, t, hl, rfl⟩
        refine ⟨e, t, lookup_erase_some.2 ⟨?_, hl⟩, rfl⟩
        rintro rfl
        rw [hl₀] at hl
        cases hl
        exact hk rfl
      · rintro ⟨e, t, hl, rfl⟩
        obtain ⟨hne, hl⟩ := lookup_erase_some.1 hl
        refine ⟨?_, e, t, hl, rfl⟩
        intro hk
        exact hne (h.unique _ _ _ _ hl hl₀
          (key_inj (h.valid _ _ hl) (h.valid _ _ hl₀) hk))
    · intro e₁ e₂ t₁ t₂ h₁ h₂ hseat
      exact h.unique _ _ _ _ (lookup_erase_some.1 h₁).2 (lookup_erase_some.1 h₂).2 hseat

theorem inv_modify {s : Store} (h : Inv s) (email newSection : String) (newSeatNumber : Int) :
    Inv (ModifySeat s email newSection newSeatNumber).2 := by
  rcases modify_cases s email newSection newSeatNumber with
    ⟨-, hr⟩ | ⟨-, -, hr⟩ | ⟨-, -, hr⟩ | ⟨-, -, -, hr⟩ | ⟨hv, hfree, t₀, hl₀, hr⟩
  · rw [hr]; exact h
  · rw [hr]; exact h
  · rw [hr]; exact h
  · rw [hr]; exact h
  · rw [hr]
    obtain ⟨T, S⟩ := s
    have hnew : ∀ e t, T.lookup e = some t → key t.Seat ≠ seatKey newSection newSeatNumber := by
      intro e t hl hk
      have : (Store.mk T S).seatAt (seatKey newSection newSeatNumber) = true :=
        (h.marked _).2 ⟨e, t, hl, hk⟩
      rw [this] at hfree
      cases hfree
    constructor
    · intro e t hl
      rcases lookup_insert_some.1 hl with ⟨rfl, rfl⟩ | ⟨-, hl⟩
      · exact h.owner e t₀ hl₀
      · exact h.owner _ _ hl
    · intro e t hl
      rcases lookup_insert_some.1 hl with ⟨rfl, rfl⟩ | ⟨-, hl⟩
      · exact (mem_allSeats_iff _).2 hv
      · exact h.valid _ _ hl
    · intro k
      rw [seatAt_insert, seatAt_erase, seatAt_tickets _ T, h.marked k]
      constructor
      · rintro (rfl | ⟨hk, e, t, hl, rfl⟩)
        · exact ⟨email, _, lookup_insert_some.2 (Or.inl ⟨rfl, rfl⟩), rfl⟩
        · refine ⟨e, t, lookup_insert_some.2 (Or.inr ⟨?_, hl⟩), rfl⟩
          rintro rfl
          rw [hl₀] at hl
          cases hl
          exact hk rfl
      · rintro ⟨e, t, hl, rfl⟩
        rcases lookup_insert_some.1 hl with ⟨rfl, rfl⟩ | ⟨hne, hl⟩
        · exact Or.inl rfl
        · refine Or.inr ⟨?_, e, t, hl, rfl⟩
          intro hk
          exact hne (h.unique _ _ _ _ hl hl₀
            (key_inj (h.valid _ _ hl) (h.valid _ _ hl₀) hk))
    · intro e₁ e₂ t₁ t₂ h₁ h₂ hseat
      rcases lookup_insert_some.1 h₁ with ⟨he₁, ht₁⟩ | ⟨-, h₁'⟩ <;>
        rcases lookup_insert_some.1 h₂ with ⟨he₂, ht₂⟩ | ⟨-, h₂'⟩
      · rw [he₁, he₂]
      · rw [ht₁] at hseat
        exact absurd (congrArg key hseat).symm (hnew _ _ h₂')
      · rw [ht₂] at hseat
        exact absurd (congrArg key hseat) (hnew _ _ h₁')
      · exact h.unique _ _ _ _ h₁' h₂' hseat

theorem inv_step {s : Store} (h : Inv s) (op : Op) : Inv (step s op) := by
  cases op with
  | purchase user src dst pricePaid => exact inv_purchase h user src dst pricePaid
  | get email =>
    show Inv (GetTicketByEmail s email).2
    unfold GetTicketByEmail
    cases s.tickets.lookup email <;> exact h
  | list sectionFilter => exact h
  | remove email => exact inv_remove h email
  | modify email newSection newSeatNumber => exact inv_modify h email newSection newSeatNumber

theorem inv_run {s : Store} (h : Inv s) (ops : List Op) : Inv (run s ops) := by
  induction ops generalizing s with
  | nil => exact h
  | cons op ops ih => exact ih (inv_step h op)

theorem inv_reachable (ops : List Op) : Inv (run NewStore ops) :=
  inv_run inv_newStore ops

/-! ## Successive purchases -/

theorem purchase_full {s : Store} (user : User) (src dst : String) (pricePaid : Int)
    (hnone : s.tickets.lookup user.Email = none)
    (hfull : ∀ seat ∈ allSeats, s.seatAt (key seat) = true) :
    PurchaseTicket s user src dst pricePaid = (.err .ErrTrainFull, s) := by
  rcases purchase_cases s user src dst pricePaid with ⟨hsome, -⟩ | ⟨-, -, hr⟩ | ⟨-, seat, hf, -⟩
  · rw [hnone] at hsome
    cases hsome
  · exact hr
  · rw [findNext_full hfull] at hf
    cases hf

theorem purchase_at {s : Store} (user : User) (src dst : String) (pricePaid : Int) {seat : Seat}
    (hnone : s.tickets.lookup user.Email = none) (hf : findNextAvailableSeat s = .ok seat) :
    PurchaseTicket s user src dst pricePaid =
      (.ok ⟨src, dst, user, pricePaid, seat⟩,
        { tickets := s.tickets.insert user.Email ⟨src, dst, user, pricePaid, seat⟩,
          seats := s.seats.insert (key seat) true }) := by
  rcases purchase_cases s user src dst pricePaid with
    ⟨hsome, -⟩ | ⟨-, hf', -⟩ | ⟨-, seat', hf', hr⟩
  · rw [hnone] at hsome
    cases hsome
  · rw [hf] at hf'
    cases hf'
  · rw [hf] at hf'
    cases hf'
    exact hr

theorem purchaseEach_fill (reqs : List PurchaseArgs) :
    ∀ (s : Store) (done todo : List Seat), done ++ todo = allSeats →
      (∀ k, s.seatAt k = true ↔ k ∈ done.map key) →
      (∀ a ∈ reqs, s.tickets.lookup a.user.Email = none) →
      (reqs.map (fun a => a.user.Email)).Nodup →
      (purchaseEach s reqs).1 =
        List.zipWith (fun a seat => Result.ok (a.ticketAt seat)) reqs todo ++
          List.replicate (reqs.length - todo.length) (.err .ErrTrainFull) := by
  induction reqs with
  | nil => intro s done todo _ _ _ _; simp [purchaseEach]
  | cons a rest ih =>
    intro s done todo hsplit hmarked hnone hnodup
    have hnone_a := hnone a (List.mem_cons_self _ _)
    rw [List.map_cons, List.nodup_cons] at hnodup
    cases todo with
    | nil =>
      have hfull : ∀ seat ∈ allSeats, s.seatAt (key seat) = true := by
        intro seat hmem
        rw [hmarked]
        rw [← hsplit, List.append_nil] at hmem
        exact List.mem_map_of_mem key hmem
      have hp := purchase_full a.user a.src a.dst a.pricePaid hnone_a hfull
      have hrest := ih s done [] hsplit hmarked
        (fun b hb => hnone b (List.mem_cons_of_mem _ hb)) hnodup.2
      simp only [purchaseEach, hp, hrest]
      simp [List.replicate_succ]
    | cons t todo =>
      have hkeys := keys_nodup
      rw [← hsplit, List.map_append, List.map_cons] at hkeys
      have htfree : s.seatAt (key t) = false := by
        cases hc : s.seatAt (key t) with
        | false => rfl
        | true =>
          have hin := (hmarked _).1 hc
          exact absurd (List.mem_cons_self _ _) ((List.nodup_append.1 hkeys).2.2 hin)
      have hf : findNextAvailableSeat s = .ok t :=
        findNext_of_split hsplit (fun x hx => (hmarked _).2 (List.mem_map_of_mem key hx)) htfree
      have hp := purchase_at a.user a.src a.dst a.pricePaid hnone_a hf
      obtain ⟨T, S⟩ := s
      have hrest := ih
        { tickets := T.insert a.user.Email ⟨a.src, a.dst, a.user, a.pricePaid, t⟩,
          seats := S.insert (key t) true }
        (done ++ [t]) todo (by simpa using hsplit)
        (by
          intro k
          rw [seatAt_insert, seatAt_tickets _ T, hmarked k]
          simp only [List.map_append, List.mem_append, List.map_cons, List.map_nil,
            List.mem_singleton]
          exact or_comm)
        (by
          intro b hb
          have hne : b.user.Email ≠ a.user.Email := by
            intro he
            exact hnodup.1 (he ▸ List.mem_map_of_mem (fun a => a.user.Email) hb)
          show AList.lookup b.user.Email (AList.insert _ _ T) = none
          rw [lookup_insert_eq, if_neg hne]
          exact hnone b (List.mem_cons_of_mem _ hb))
        hnodup.2
      simp only [purchaseEach, hp, hrest]
      simp [PurchaseArgs.ticketAt]

end store

open store model

/-- C1: from the empty store, 21 successive `PurchaseTicket` calls with pairwise
distinct emails return, in call order, a ticket on each of the seats A1, ..., A10,
B1, ..., B10 for the first 20 calls and `ErrTrainFull` for the 21st. -/
theorem C1_allocation_order (reqs : List PurchaseArgs) (hlen : reqs.length = 21)
    (hdistinct : (reqs.map (fun a => a.user.Email)).Nodup) :
    (purchaseEach NewStore reqs).1 =
      List.zipWith (fun a seat => Result.ok (a.ticketAt seat)) reqs allSeats ++
        [Result.err Error.ErrTrainFull] := by
  have h := purchaseEach_fill reqs NewStore [] allSeats rfl
    (by intro k; simp [seatAt_newStore])
    (by intro a _; simp [NewStore]) hdistinct
  rw [h, hlen]
  rfl

/-- The allocation order on the 21 sample purchases. -/
theorem C1_allocation_order_witness :
    sampleArgs.length = 21 ∧ (sampleArgs.map (fun a => a.user.Email)).Nodup ∧
      (purchaseEach NewStore sampleArgs).1 =
        List.zipWith (fun a seat => Result.ok (a.ticketAt seat)) sampleArgs allSeats ++
          [Result.err Error.ErrTrainFull] :=
  ⟨by decide, by decide, C1_allocation_order sampleArgs (by decide) (by decide)⟩

/-- C2: in every store reachable from the empty store, a purchase for an email
that holds no ticket succeeds whenever one of the 20 seats is unoccupied, and the
ticket it returns is on the unoccupied seat that comes first in the order
A1 < ... < A10 < B1 < ... < B10. -/
theorem C2_lowest_free_seat (ops : List Op) (user : User) (src dst : String) (pricePaid : Int)
    (hnone : (run NewStore ops).tickets.lookup user.Email = none)
    (hfree : ∃ seat ∈ allSeats, (run NewStore ops).seatAt (key seat) = false) :
    ∃ seat, (PurchaseTicket (run NewStore ops) user src dst pricePaid).1 =
        Result.ok ⟨src, dst, user, pricePaid, seat⟩ ∧
      seat ∈ allSeats ∧ (run NewStore ops).seatAt (key seat) = false ∧
      ∀ seat' ∈ allSeats, (run NewStore ops).seatAt (key seat') = false →
        seatRank seat ≤ seatRank seat' := by
  rcases purchase_cases (run NewStore ops) user src dst pricePaid with
    ⟨hsome, -⟩ | ⟨-, hf, -⟩ | ⟨-, seat, hf, hr⟩
  · rw [hnone] at hsome
    cases hsome
  · obtain ⟨seat, hmem, hs⟩ := hfree
    rw [(findNext_err hf).2 seat hmem] at hs
    cases hs
  · obtain ⟨hmem, hs, hmin⟩ := findNext_ok hf
    exact ⟨seat, by rw [hr], hmem, hs, hmin⟩

/-- After alice and bob buy and alice is removed, carol gets the lowest free seat. -/
theorem C2_lowest_free_seat_witness :
    (run NewStore [Op.purchase alice "London" "France" 2000,
        Op.purchase bob "London" "France" 2000, Op.remove "alice@example.com"]).tickets.lookup
        carol.Email = none ∧
    ∃ seat, (PurchaseTicket (run NewStore [Op.purchase alice "London" "France" 2000,
        Op.purchase bob "London" "France" 2000, Op.remove "alice@example.com"])
        carol "London" "France" 2000).1 = Result.ok ⟨"London", "France", carol, 2000, seat⟩ ∧
      seat ∈ allSeats ∧
      (run NewStore [Op.purchase alice "London" "France" 2000,
        Op.purchase bob "London" "France" 2000, Op.remove "alice@example.com"]).seatAt
        (key seat) = false ∧
      ∀ seat' ∈ allSeats,
        (run NewStore [Op.purchase alice "London" "France" 2000,
          Op.purchase bob "London" "France" 2000, Op.remove "alice@example.com"]).seatAt
          (key seat') = false → seatRank seat ≤ seatRank seat' :=
  ⟨by decide, C2_lowest_free_seat _ carol "London" "France" 2000 (by decide)
    ⟨⟨"A", 1⟩, by decide, by decide⟩⟩

/-- C3: in every store reachable from the empty store by any sequence of calls,
successful or failing, the marked keys of the occupancy map are exactly the keys
of the seats of the live tickets, each of the 20 seats is marked if and only if a
live ticket sits on it, every live ticket sits on one of the 20 seats, and two
live tickets of distinct emails never have the same section and seat number. -/
theorem C3_occupancy_invariant (ops : List Op) :
    (∀ k, (run NewStore ops).seatAt k = true ↔
      ∃ email t, (run NewStore ops).tickets.lookup email = some t ∧
        seatKey t.Seat.Section t.Seat.SeatNumber = k) ∧
    (∀ seat ∈ allSeats, (run NewStore ops).seatAt (seatKey seat.Section seat.SeatNumber) = true ↔
      ∃ email t, (run NewStore ops).tickets.lookup email = some t ∧ t.Seat = seat) ∧
    (∀ email t, (run NewStore ops).tickets.lookup email = some t → validSeat t.Seat = true) ∧
    (∀ e₁ e₂ t₁ t₂, (run NewStore ops).tickets.lookup e₁ = some t₁ →
      (run NewStore ops).tickets.lookup e₂ = some t₂ → e₁ ≠ e₂ →
      ¬ (t₁.Seat.Section = t₂.Seat.Section ∧ t₁.Seat.SeatNumber = t₂.Seat.SeatNumber)) := by
  have h := inv_reachable ops
  refine ⟨h.marked, ?_, ?_, ?_⟩
  · intro seat hmem
    constructor
    · intro hk
      obtain ⟨email, t, hl, hkey⟩ := (h.marked _).1 hk
      exact ⟨email, t, hl, key_inj (h.valid _ _ hl) hmem hkey⟩
    · rintro ⟨email, t, hl, rfl⟩
      exact (h.marked _).2 ⟨email, t, hl, rfl⟩
  · intro email t hl
    exact (mem_allSeats_iff _).1 (h.valid _ _ hl)
  · intro e₁ e₂ t₁ t₂ h₁ h₂ hne hsame
    apply hne
    apply h.unique _ _ _ _ h₁ h₂
    obtain ⟨a, b⟩ := hsame
    cases hs₁ : t₁.Seat
    cases hs₂ : t₂.Seat
    simp_all

/-- C4: in every store, a purchase for a user whose email already owns a ticket
fails with `ErrUserAlreadyHasTicket`, whatever the occupancy of the seats, and
leaves the ticket map and the occupancy map as they were; the email still files
exactly one ticket. -/
theorem C4_duplicate_purchase (s : Store) (user : User) (src dst : String) (pricePaid : Int)
    (hown : (s.tickets.lookup user.Email).isSome = true) :
    PurchaseTicket s user src dst pricePaid = (Result.err Error.ErrUserAlreadyHasTicket, s) ∧
      (PurchaseTicket s user src dst pricePaid).2.tickets.keys.count user.Email = 1 := by
  have hr : PurchaseTicket s user src dst pricePaid =
      (Result.err Error.ErrUserAlreadyHasTicket, s) := by
    unfold PurchaseTicket
    rw [if_pos hown]
  refine ⟨hr, ?_⟩
  rw [hr]
  exact List.count_eq_one_of_mem s.tickets.keys_nodup
    (AList.mem_keys.1 (AList.lookup_isSome.1 hown))

/-- On a full train that holds a ticket of alice, a second purchase for alice fails
with `ErrUserAlreadyHasTicket`. -/
theorem C4_duplicate_purchase_witness :
    ((run NewStore fillOps).tickets.lookup alice.Email).isSome = false ∧
    ((run NewStore (fillOps ++ [Op.remove "user7@example.com",
        Op.purchase alice "London" "France" 2000])).tickets.lookup alice.Email).isSome = true ∧
    PurchaseTicket (run NewStore (fillOps ++ [Op.remove "user7@example.com",
        Op.purchase alice "London" "France" 2000])) alice "Paris" "Rome" 1 =
      (Result.err Error.ErrUserAlreadyHasTicket,
        run NewStore (fillOps ++ [Op.remove "user7@example.com",
          Op.purchase alice "London" "France" 2000])) ∧
    (PurchaseTicket (run NewStore (fillOps ++ [Op.remove "user7@example.com",
        Op.purchase alice "London" "France" 2000])) alice "Paris" "Rome" 1).2.tickets.keys.count
        alice.Email = 1 :=
  ⟨by decide, by decide, C4_duplicate_purchase _ alice "Paris" "Rome" 1 (by decide)⟩

theorem allSeats_nodup : allSeats.Nodup := List.Nodup.of_map key keys_nodup

theorem mem_entries_iff {s : Store} {email : String} {t : Ticket} :
    (⟨email, t⟩ : Sigma fun _ : String => Ticket) ∈ s.tickets.entries ↔
      s.tickets.lookup email = some t := by
  rw [← AList.mem_lookup_iff, Option.mem_def]

theorem ticketSeats_nodup {s : Store} (h : Inv s) :
    (s.tickets.entries.map (fun e => e.2.Seat)).Nodup := by
  apply List.Nodup.map_on _ s.tickets.nodupKeys.nodup
  rintro ⟨e₁, t₁⟩ h₁ ⟨e₂, t₂⟩ h₂ hseat
  rw [mem_entries_iff] at h₁ h₂
  have he : e₁ = e₂ := h.unique _ _ _ _ h₁ h₂ hseat
  subst he
  rw [h₁] at h₂
  cases h₂
  rfl

theorem mem_ticketSeats_iff {s : Store} {seat : Seat} :
    seat ∈ s.tickets.entries.map (fun e => e.2.Seat) ↔
      ∃ email t, s.tickets.lookup email = some t ∧ t.Seat = seat := by
  rw [List.mem_map]
  constructor
  · rintro ⟨⟨e, t⟩, hmem, rfl⟩
    exact ⟨e, t, mem_entries_iff.1 hmem, rfl⟩
  · rintro ⟨e, t, hl, rfl⟩
    exact ⟨⟨e, t⟩, mem_entries_iff.2 hl, rfl⟩

theorem full_iff_twenty {s : Store} (h : Inv s) :
    (∀ seat ∈ allSeats, s.seatAt (key seat) = true) ↔ s.tickets.entries.length = 20 := by
  have hnd := ticketSeats_nodup h
  have hsub : s.tickets.entries.map (fun e => e.2.Seat) ⊆ allSeats := by
    intro seat hmem
    obtain ⟨e, t, hl, rfl⟩ := mem_ticketSeats_iff.1 hmem
    exact h.valid _ _ hl
  have hlen : (s.tickets.entries.map (fun e => e.2.Seat)).length = s.tickets.entries.length :=
    List.length_map _ _
  constructor
  · intro hfull
    have hperm : (s.tickets.entries.map (fun e => e.2.Seat)).Perm allSeats := by
      rw [List.perm_ext_iff_of_nodup hnd allSeats_nodup]
      intro seat
      constructor
      · exact fun hm => hsub hm
      · intro hm
        obtain ⟨e, t, hl, hk⟩ := (h.marked _).1 (hfull seat hm)
        exact mem_ticketSeats_iff.2 ⟨e, t, hl, key_inj (h.valid _ _ hl) hm hk⟩
    rw [← hlen, hperm.length_eq]
    rfl
  · intro h20 seat hm
    have hperm : (s.tickets.entries.map (fun e => e.2.Seat)).Perm allSeats :=
      (List.subperm_of_subset hnd hsub).perm_of_length_le (by rw [hlen, h20]; decide)
    obtain ⟨e, t, hl, rfl⟩ := mem_ticketSeats_iff.1 (hperm.mem_iff.2 hm)
    exact (h.marked _).2 ⟨e, t, hl, rfl⟩

/-- C5: in every store reachable from the empty store, a purchase for an email
that holds no ticket fails with `ErrTrainFull` if and only if all 20 seats
A1..A10, B1..B10 are occupied, which is the case exactly when 20 tickets are
live. -/
theorem C5_train_full_iff (ops : List Op) (user : User) (src dst : String) (pricePaid : Int)
    (hnone : (run NewStore ops).tickets.lookup user.Email = none) :
    ((PurchaseTicket (run NewStore ops) user src dst pricePaid).1 =
        Result.err Error.ErrTrainFull ↔
      ∀ seat ∈ allSeats,
        (run NewStore ops).seatAt (seatKey seat.Section seat.SeatNumber) = true) ∧
    ((∀ seat ∈ allSeats,
        (run NewStore ops).seatAt (seatKey seat.Section seat.SeatNumber) = true) ↔
      (run NewStore ops).tickets.entries.length = 20) := by
  refine ⟨?_, full_iff_twenty (inv_reachable ops)⟩
  rcases purchase_cases (run NewStore ops) user src dst pricePaid with
    ⟨hsome, -⟩ | ⟨-, hf, hr⟩ | ⟨-, seat, hf, hr⟩
  · rw [hnone] at hsome
    cases hsome
  · rw [hr]
    exact ⟨fun _ => (findNext_err hf).2, fun _ => rfl⟩
  · rw [hr]
    obtain ⟨hmem, hs, -⟩ := findNext_ok hf
    constructor
    · intro hc
      cases hc
    · intro hfull
      have := hfull seat hmem
      rw [show seatKey seat.Section seat.SeatNumber = key seat from rfl, hs] at this
      cases this

/-- After the 20 sample purchases the train is full: 20 tickets are live and a
purchase for alice fails with `ErrTrainFull`. -/
theorem C5_train_full_iff_witness :
    (run NewStore fillOps).tickets.lookup alice.Email = none ∧
    (PurchaseTicket (run NewStore fillOps) alice "London" "France" 2000).1 =
      Result.err Error.ErrTrainFull ∧
    (run NewStore fillOps).tickets.entries.length = 20 ∧
    ((PurchaseTicket (run NewStore fillOps) alice "London" "France" 2000).1 =
        Result.err Error.ErrTrainFull ↔
      ∀ seat ∈ allSeats,
        (run NewStore fillOps).seatAt (seatKey seat.Section seat.SeatNumber) = true) ∧
    ((∀ seat ∈ allSeats,
        (run NewStore fillOps).seatAt (seatKey seat.Section seat.SeatNumber) = true) ↔
      (run NewStore fillOps).tickets.entries.length = 20) :=
  ⟨by decide, by decide, by decide,
    C5_train_full_iff fillOps alice "London" "France" 2000 (by decide)⟩

/-- C6: in every store, for every email and target seat, `ModifySeat` fails with
an error that wraps `ErrInvalidSeat` if and only if the section is not exactly
"A" or "B" or the seat number is outside 1..10; the error names the section when
the section is invalid and the seat number otherwise, the store is left as it
was, and `ErrTicketNotFound` is returned only for a valid seat. -/
theorem C6_invalid_seat_first (s : Store) (email newSection : String) (newSeatNumber : Int) :
    ((∃ e, (ModifySeat s email newSection newSeatNumber).1 = Result.err e ∧
        errorsIs e Error.ErrInvalidSeat = true) ↔
      (¬ (newSection = "A" ∨ newSection = "B") ∨ ¬ (1 ≤ newSeatNumber ∧ newSeatNumber ≤ 10))) ∧
    (ModifySeat s email newSection newSeatNumber =
        (Result.err (Error.wrapped Error.ErrInvalidSeat
          ("invalid seat: invalid section " ++ newSection)), s) ↔
      ¬ (newSection = "A" ∨ newSection = "B")) ∧
    (ModifySeat s email newSection newSeatNumber =
        (Result.err (Error.wrapped Error.ErrInvalidSeat
          ("invalid seat: invalid seat number " ++ toString newSeatNumber)), s) ↔
      (newSection = "A" ∨ newSection = "B") ∧ ¬ (1 ≤ newSeatNumber ∧ newSeatNumber ≤ 10)) ∧
    ((ModifySeat s email newSection newSeatNumber).1 = Result.err Error.ErrTicketNotFound ↔
      ((newSection = "A" ∨ newSection = "B") ∧ (1 ≤ newSeatNumber ∧ newSeatNumber ≤ 10)) ∧
        s.tickets.lookup email = none) := by
  have hsec : IsValidSection newSection = true ↔ (newSection = "A" ∨ newSection = "B") := by
    simp [IsValidSection]
  have hnum : IsValidSeatNumber newSeatNumber = true ↔
      (1 ≤ newSeatNumber ∧ newSeatNumber ≤ 10) := by
    simp [IsValidSeatNumber]
  have hval : validSeat ⟨newSection, newSeatNumber⟩ = true ↔
      ((newSection = "A" ∨ newSection = "B") ∧ (1 ≤ newSeatNumber ∧ newSeatNumber ≤ 10)) := by
    simp [validSeat, hsec, hnum]
  have hmsg : ("invalid seat: invalid section " ++ newSection) ≠
      ("invalid seat: invalid seat number " ++ toString newSeatNumber) := by
    intro h
    have := congrArg String.data h
    simp [String.data_append] at this
  rcases modify_cases s email newSection newSeatNumber with
    ⟨h₁, hr⟩ | ⟨h₁, h₂, hr⟩ | ⟨hv, hl, hr⟩ | ⟨hv, ⟨t, hl⟩, -, hr⟩ | ⟨hv, -, t, hl, hr⟩
  · have hs : ¬ (newSection = "A" ∨ newSection = "B") := by
      rw [← hsec, h₁]; simp
    rw [hr]
    refine ⟨⟨fun _ => Or.inl hs, fun _ => ⟨_, rfl, by simp [errorsIs]⟩⟩,
      ⟨fun _ => hs, fun _ => rfl⟩, ⟨?_, fun h => absurd h.1 hs⟩, ⟨?_, fun h => absurd h.1.1 hs⟩⟩
    · intro h
      simp only [Prod.mk.injEq, Result.err.injEq, Error.wrapped.injEq] at h
      exact absurd h.1.2 hmsg
    · intro h
      cases h
  · have hs : (newSection = "A" ∨ newSection = "B") := hsec.1 h₁
    have hn : ¬ (1 ≤ newSeatNumber ∧ newSeatNumber ≤ 10) := by
      rw [← hnum, h₂]; simp
    rw [hr]
    refine ⟨⟨fun _ => Or.inr hn, fun _ => ⟨_, rfl, by simp [errorsIs]⟩⟩,
      ⟨?_, fun h => absurd hs h⟩, ⟨fun _ => ⟨hs, hn⟩, fun _ => rfl⟩,
      ⟨?_, fun h => absurd h.1.2 hn⟩⟩
    · intro h
      simp only [Prod.mk.injEq, Result.err.injEq, Error.wrapped.injEq] at h
      exact absurd h.1.2.symm hmsg
    · intro h
      cases h
  · have hv' := hval.1 hv
    rw [hr]
    refine ⟨⟨?_, ?_⟩, ⟨?_, fun h => absurd hv'.1 h⟩, ⟨?_, fun h => absurd hv'.2 h.2⟩,
      ⟨fun _ => ⟨hv', hl⟩, fun _ => rfl⟩⟩
    · rintro ⟨e, he, his⟩
      cases he
      simp [errorsIs] at his
    · rintro (h | h)
      · exact absurd hv'.1 h
      · exact absurd hv'.2 h
    · intro h; cases h
    · intro h; cases h
  · have hv' := hval.1 hv
    rw [hr]
    refine ⟨⟨?_, ?_⟩, ⟨?_, fun h => absurd hv'.1 h⟩, ⟨?_, fun h => absurd hv'.2 h.2⟩,
      ⟨?_, ?_⟩⟩
    · rintro ⟨e, he, his⟩
      cases he
      simp [errorsIs] at his
    · rintro (h | h)
      · exact absurd hv'.1 h
      · exact absurd hv'.2 h
    · intro h; cases h
    · intro h; cases h
    · intro h; cases h
    · intro h
      rw [hl] at h
      cases h.2
  · have hv' := hval.1 hv
    rw [hr]
    refine ⟨⟨?_, ?_⟩, ⟨?_, fun h => absurd hv'.1 h⟩, ⟨?_, fun h => absurd hv'.2 h.2⟩,
      ⟨?_, ?_⟩⟩
    · rintro ⟨e, he, -⟩
      cases he
    · rintro (h | h)
      · exact absurd hv'.1 h
      · exact absurd hv'.2 h
    · intro h; cases h
    · intro h; cases h
    · intro h; cases h
    · intro h
      rw [hl] at h
      cases h.2

theorem modify_onto_held {s : Store} (h : Inv s) {e e' : String} {t t' : Ticket}
    (hl : s.tickets.lookup e = some t) (hl' : s.tickets.lookup e' = some t') :
    ModifySeat s e t'.Seat.Section t'.Seat.SeatNumber =
      (Result.err Error.ErrSeatAlreadyOccupied, s) := by
  have hv : validSeat ⟨t'.Seat.Section, t'.Seat.SeatNumber⟩ = true :=
    (mem_allSeats_iff _).1 (h.valid _ _ hl')
  have hsec : IsValidSection t'.Seat.Section = true := by
    simp only [validSeat, Bool.and_eq_true] at hv
    exact hv.1
  have hnum : IsValidSeatNumber t'.Seat.SeatNumber = true := by
    simp only [validSeat, Bool.and_eq_true] at hv
    exact hv.2
  have hmark : s.seatAt (seatKey t'.Seat.Section t'.Seat.SeatNumber) = true :=
    (h.marked _).2 ⟨e', t', hl', rfl⟩
  rcases modify_cases s e t'.Seat.Section t'.Seat.SeatNumber with
    ⟨h₁, -⟩ | ⟨-, h₂, -⟩ | ⟨-, hn, -⟩ | ⟨-, -, -, hr⟩ | ⟨-, hfree, -⟩
  · rw [hsec] at h₁
    cases h₁
  · rw [hnum] at h₂
    cases h₂
  · rw [hl] at hn
    cases hn
  · exact hr
  · rw [hmark] at hfree
    cases hfree

/-- C7: in every store reachable from the empty store, when two distinct emails
each hold a ticket, `ModifySeat` of the first onto the seat of the second fails
with `ErrSeatAlreadyOccupied`, and both tickets and the occupancy map are as
before. -/
theorem C7_reseat_onto_other (ops : List Op) (e₁ e₂ : String) (t₁ t₂ : Ticket)
    (h₁ : (run NewStore ops).tickets.lookup e₁ = some t₁)
    (h₂ : (run NewStore ops).tickets.lookup e₂ = some t₂) (_hne : e₁ ≠ e₂) :
    (ModifySeat (run NewStore ops) e₁ t₂.Seat.Section t₂.Seat.SeatNumber).1 =
        Result.err Error.ErrSeatAlreadyOccupied ∧
      (ModifySeat (run NewStore ops) e₁ t₂.Seat.Section t₂.Seat.SeatNumber).2.tickets.lookup e₂ =
        some t₂ ∧
      (ModifySeat (run NewStore ops) e₁ t₂.Seat.Section t₂.Seat.SeatNumber).2.tickets.lookup e₁ =
        some t₁ ∧
      (ModifySeat (run NewStore ops) e₁ t₂.Seat.Section t₂.Seat.SeatNumber).2 =
        run NewStore ops := by
  rw [modify_onto_held (inv_reachable ops) h₁ h₂]
  exact ⟨rfl, h₂, h₁, rfl⟩

/-- With alice on A1 and bob on A2, reseating alice onto A2 is refused. -/
theorem C7_reseat_onto_other_witness :
    (run NewStore [Op.purchase alice "London" "France" 2000,
        Op.purchase bob "London" "France" 2000]).tickets.lookup "alice@example.com" =
      some ⟨"London", "France", alice, 2000, ⟨"A", 1⟩⟩ ∧
    (run NewStore [Op.purchase alice "London" "France" 2000,
        Op.purchase bob "London" "France" 2000]).tickets.lookup "bob@example.com" =
      some ⟨"London", "France", bob, 2000, ⟨"A", 2⟩⟩ ∧
    (ModifySeat (run NewStore [Op.purchase alice "London" "France" 2000,
        Op.purchase bob "London" "France" 2000]) "alice@example.com" "A" 2).1 =
      Result.err Error.ErrSeatAlreadyOccupied ∧
    (ModifySeat (run NewStore [Op.purchase alice "London" "France" 2000,
        Op.purchase bob "London" "France" 2000]) "alice@example.com" "A" 2).2.tickets.lookup
        "bob@example.com" = some ⟨"London", "France", bob, 2000, ⟨"A", 2⟩⟩ ∧
    (ModifySeat (run NewStore [Op.purchase alice "London" "France" 2000,
        Op.purchase bob "London" "France" 2000]) "alice@example.com" "A" 2).2.tickets.lookup
        "alice@example.com" = some ⟨"London", "France", alice, 2000, ⟨"A", 1⟩⟩ ∧
    (ModifySeat (run NewStore [Op.purchase alice "London" "France" 2000,
        Op.purchase bob "London" "France" 2000]) "alice@example.com" "A" 2).2 =
      run NewStore [Op.purchase alice "London" "France" 2000,
        Op.purchase bob "London" "France" 2000] :=
  ⟨by decide, by decide,
    C7_reseat_onto_other [Op.purchase alice "London" "France" 2000,
      Op.purchase bob "London" "France" 2000] "alice@example.com" "bob@example.com"
      ⟨"London", "France", alice, 2000, ⟨"A", 1⟩⟩ ⟨"London", "France", bob, 2000, ⟨"A", 2⟩⟩
      (by decide) (by decide) (by decide)⟩

/-- C8, as the code has it: in every store reachable from the empty store,
`ModifySeat` called with a ticket holder's email and the section and seat number
of the holder's own ticket fails with `ErrSeatAlreadyOccupied`, and the ticket
map and the occupancy map are unchanged. -/
theorem C8_self_reseat_rejected (ops : List Op) (email : String) (t : Ticket)
    (hl : (run NewStore ops).tickets.lookup email = some t) :
    ModifySeat (run NewStore ops) email t.Seat.Section t.Seat.SeatNumber =
      (Result.err Error.ErrSeatAlreadyOccupied, run NewStore ops) :=
  modify_onto_held (inv_reachable ops) hl hl

/-- With alice reseated to B4, reseating alice onto B4 again is refused. -/
theorem C8_self_reseat_rejected_witness :
    (run NewStore [Op.purchase alice "London" "France" 2000,
        Op.modify "alice@example.com" "B" 4]).tickets.lookup "alice@example.com" =
      some ⟨"London", "France", alice, 2000, ⟨"B", 4⟩⟩ ∧
    ModifySeat (run NewStore [Op.purchase alice "London" "France" 2000,
        Op.modify "alice@example.com" "B" 4]) "alice@example.com" "B" 4 =
      (Result.err Error.ErrSeatAlreadyOccupied,
        run NewStore [Op.purchase alice "London" "France" 2000,
          Op.modify "alice@example.com" "B" 4]) :=
  ⟨by decide,
    C8_self_reseat_rejected [Op.purchase alice "London" "France" 2000,
      Op.modify "alice@example.com" "B" 4] "alice@example.com"
      ⟨"London", "France", alice, 2000, ⟨"B", 4⟩⟩ (by decide)⟩

/-- C8 as stated fails: after one purchase from the empty store the holder's
ticket is on seat A1, and `ModifySeat` with the holder's email and seat A1 fails
with `ErrSeatAlreadyOccupied` instead of returning the ticket. -/
theorem C8_self_reseat_counterexample :
    (run NewStore [Op.purchase alice "London" "France" 2000]).tickets.lookup
        "alice@example.com" = some ⟨"London", "France", alice, 2000, ⟨"A", 1⟩⟩ ∧
    (ModifySeat (run NewStore [Op.purchase alice "London" "France" 2000])
        "alice@example.com" "A" 1).1 = Result.err Error.ErrSeatAlreadyOccupied ∧
    ¬ ∃ t, (ModifySeat (run NewStore [Op.purchase alice "London" "France" 2000])
        "alice@example.com" "A" 1).1 = Result.ok t := by
  refine ⟨by decide, by decide, ?_⟩
  rintro ⟨t, ht⟩
  have h : (ModifySeat (run NewStore [Op.purchase alice "London" "France" 2000])
      "alice@example.com" "A" 1).1 = Result.err Error.ErrSeatAlreadyOccupied := by decide
  rw [h] at ht
  cases ht

/-- C9: in every store reachable from the empty store, when `ModifySeat` of an
email to section `s` and seat number `n` succeeds, the returned ticket, which is
also the ticket then stored for the email, has seat `(s, n)` and the `From`, `To`,
`User` and `PricePaid` of the ticket stored before; the old seat is no longer
occupied and `(s, n)` is occupied; every other email's ticket and every other
key's occupancy are unchanged. -/
theorem C9_reseat_frame (ops : List Op) (email newSection : String) (newSeatNumber : Int)
    (t' : Ticket)
    (hok : (ModifySeat (run NewStore ops) email newSection newSeatNumber).1 = Result.ok t') :
    ∃ t, (run NewStore ops).tickets.lookup email = some t ∧
      t'.Seat = ⟨newSection, newSeatNumber⟩ ∧
      t'.From = t.From ∧ t'.To = t.To ∧ t'.User = t.User ∧ t'.PricePaid = t.PricePaid ∧
      (ModifySeat (run NewStore ops) email newSection newSeatNumber).2.tickets.lookup email =
        some t' ∧
      (ModifySeat (run NewStore ops) email newSection newSeatNumber).2.seatAt
        (seatKey t.Seat.Section t.Seat.SeatNumber) = false ∧
      (ModifySeat (run NewStore ops) email newSection newSeatNumber).2.seatAt
        (seatKey newSection newSeatNumber) = true ∧
      (∀ e, e ≠ email →
        (ModifySeat (run NewStore ops) email newSection newSeatNumber).2.tickets.lookup e =
          (run NewStore ops).tickets.lookup e) ∧
      (∀ k, k ≠ seatKey t.Seat.Section t.Seat.SeatNumber → k ≠ seatKey newSection newSeatNumber →
        (ModifySeat (run NewStore ops) email newSection newSeatNumber).2.seatAt k =
          (run NewStore ops).seatAt k) := by
  have hinv := inv_reachable ops
  generalize run NewStore ops = s at hok hinv ⊢
  rcases modify_cases s email newSection newSeatNumber with
    ⟨-, hr⟩ | ⟨-, -, hr⟩ | ⟨-, -, hr⟩ | ⟨-, -, -, hr⟩ | ⟨hv, hfree, t, hl, hr⟩
  · rw [hr] at hok; cases hok
  · rw [hr] at hok; cases hok
  · rw [hr] at hok; cases hok
  · rw [hr] at hok; cases hok
  · rw [hr] at hok ⊢
    cases hok
    have hold : s.seatAt (key t.Seat) = true := (hinv.marked _).2 ⟨email, t, hl, rfl⟩
    have hkeys : key t.Seat ≠ seatKey newSection newSeatNumber := by
      intro hk
      rw [hk, hfree] at hold
      cases hold
    obtain ⟨T, S⟩ := s
    refine ⟨t, hl, rfl, rfl, rfl, rfl, rfl, ?_, ?_, ?_, ?_, ?_⟩
    · exact lookup_insert_some.2 (Or.inl ⟨rfl, rfl⟩)
    · rw [← Bool.not_eq_true, seatAt_insert, seatAt_erase]
      rintro (hk | ⟨hk, -⟩)
      · exact hkeys hk
      · exact hk rfl
    · rw [seatAt_insert]
      exact Or.inl rfl
    · intro e he
      show AList.lookup e (AList.insert email _ T) = AList.lookup e T
      rw [lookup_insert_eq, if_neg he]
    · intro k hk₁ hk₂
      rw [Bool.eq_iff_iff, seatAt_insert, seatAt_erase, seatAt_tickets _ T]
      constructor
      · rintro (hk | ⟨-, hk⟩)
        · exact absurd hk hk₂
        · exact hk
      · intro hk
        exact Or.inr ⟨hk₁, hk⟩

/-- With alice on A1 and bob on A2, reseating alice onto B7 succeeds. -/
theorem C9_reseat_frame_witness :
    (ModifySeat (run NewStore [Op.purchase alice "London" "France" 2000,
        Op.purchase bob "London" "France" 2000]) "alice@example.com" "B" 7).1 =
      Result.ok ⟨"London", "France", alice, 2000, ⟨"B", 7⟩⟩ ∧
    ∃ t, (run NewStore [Op.purchase alice "London" "France" 2000,
        Op.purchase bob "London" "France" 2000]).tickets.lookup "alice@example.com" = some t ∧
      (⟨"London", "France", alice, 2000, ⟨"B", 7⟩⟩ : Ticket).Seat = ⟨"B", 7⟩ ∧
      (⟨"London", "France", alice, 2000, ⟨"B", 7⟩⟩ : Ticket).From = t.From ∧
      (⟨"London", "France", alice, 2000, ⟨"B", 7⟩⟩ : Ticket).To = t.To ∧
      (⟨"London", "France", alice, 2000, ⟨"B", 7⟩⟩ : Ticket).User = t.User ∧
      (⟨"London", "France", alice, 2000, ⟨"B", 7⟩⟩ : Ticket).PricePaid = t.PricePaid ∧
      (ModifySeat (run NewStore [Op.purchase alice "London" "France" 2000,
        Op.purchase bob "London" "France" 2000]) "alice@example.com" "B" 7).2.tickets.lookup
          "alice@example.com" = some ⟨"London", "France", alice, 2000, ⟨"B", 7⟩⟩ ∧
      (ModifySeat (run NewStore [Op.purchase alice "London" "France" 2000,
        Op.purchase bob "London" "France" 2000]) "alice@example.com" "B" 7).2.seatAt
          (seatKey t.Seat.Section t.Seat.SeatNumber) = false ∧
      (ModifySeat (run NewStore [Op.purchase alice "London" "France" 2000,
        Op.purchase bob "London" "France" 2000]) "alice@example.com" "B" 7).2.seatAt
          (seatKey "B" 7) = true ∧
      (∀ e, e ≠ "alice@example.com" →
        (ModifySeat (run NewStore [Op.purchase alice "London" "France" 2000,
          Op.purchase bob "London" "France" 2000]) "alice@example.com" "B" 7).2.tickets.lookup e =
          (run NewStore [Op.purchase alice "London" "France" 2000,
            Op.purchase bob "London" "France" 2000]).tickets.lookup e) ∧
      (∀ k, k ≠ seatKey t.Seat.Section t.Seat.SeatNumber → k ≠ seatKey "B" 7 →
        (ModifySeat (run NewStore [Op.purchase alice "London" "France" 2000,
          Op.purchase bob "London" "France" 2000]) "alice@example.com" "B" 7).2.seatAt k =
          (run NewStore [Op.purchase alice "London" "France" 2000,
            Op.purchase bob "London" "France" 2000]).seatAt k) :=
  ⟨by decide,
    C9_reseat_frame [Op.purchase alice "London" "France" 2000,
      Op.purchase bob "London" "France" 2000] "alice@example.com" "B" 7
      ⟨"London", "France", alice, 2000, ⟨"B", 7⟩⟩ (by decide)⟩

/-- C10: in every store reachable from the empty store and for every email,
`RemoveTicket` fails with `ErrTicketNotFound`, leaving the store as it was, if and
only if the email owns no ticket; when the email owns a ticket it returns no
error, and afterwards the email owns no ticket (`GetTicketByEmail` returns
`ErrTicketNotFound`), the key of the seat the ticket held is unmarked and no live
ticket sits on that seat, and every other email's ticket and every other key's
occupancy are unchanged. -/
theorem C10_remove_ticket (ops : List Op) (email : String) :
    ((RemoveTicket (run NewStore ops) email).1 = some Error.ErrTicketNotFound ↔
      (run NewStore ops).tickets.lookup email = none) ∧
    ((RemoveTicket (run NewStore ops) email).1 = some Error.ErrTicketNotFound →
      (RemoveTicket (run NewStore ops) email).2 = run NewStore ops) ∧
    (∀ t, (run NewStore ops).tickets.lookup email = some t →
      (RemoveTicket (run NewStore ops) email).1 = none ∧
      (RemoveTicket (run NewStore ops) email).2.tickets.lookup email = none ∧
      (GetTicketByEmail (RemoveTicket (run NewStore ops) email).2 email).1 =
        Result.err Error.ErrTicketNotFound ∧
      (RemoveTicket (run NewStore ops) email).2.seatAt
        (seatKey t.Seat.Section t.Seat.SeatNumber) = false ∧
      (∀ e t₂, (RemoveTicket (run NewStore ops) email).2.tickets.lookup e = some t₂ →
        t₂.Seat ≠ t.Seat) ∧
      (∀ e, e ≠ email →
        (RemoveTicket (run NewStore ops) email).2.tickets.lookup e =
          (run NewStore ops).tickets.lookup e) ∧
      (∀ k, k ≠ seatKey t.Seat.Section t.Seat.SeatNumber →
        (RemoveTicket (run NewStore ops) email).2.seatAt k = (run NewStore ops).seatAt k)) := by
  have hinv := inv_reachable ops
  have hinv' := inv_remove hinv email
  generalize run NewStore ops = s at hinv hinv' ⊢
  rcases remove_cases s email with ⟨hl, hr⟩ | ⟨t₀, hl, hr⟩
  · rw [hr]
    refine ⟨⟨fun _ => hl, fun _ => rfl⟩, fun _ => rfl, ?_⟩
    intro t ht
    rw [hl] at ht
    cases ht
  · rw [hr] at hinv' ⊢
    refine ⟨⟨fun h => (by cases h), fun h => (by rw [hl] at h; cases h)⟩,
      fun h => (by cases h), ?_⟩
    intro t ht
    rw [hl] at ht
    cases ht
    obtain ⟨T, S⟩ := s
    have hgone : AList.lookup email (AList.erase email T) = none := by
      rw [lookup_erase_eq, if_pos rfl]
    have hfree : (Store.mk (AList.erase email T) (AList.erase (key t₀.Seat) S)).seatAt
        (key t₀.Seat) = false := by
      rw [← Bool.not_eq_true, seatAt_erase]
      exact fun h => h.1 rfl
    refine ⟨rfl, hgone, ?_, hfree, ?_, ?_, ?_⟩
    · show (GetTicketByEmail (Store.mk (AList.erase email T) _) email).1 = _
      unfold GetTicketByEmail
      simp only [hgone]
    · intro e t₂ h₂ hseat
      have : (Store.mk (AList.erase email T) (AList.erase (key t₀.Seat) S)).seatAt
          (key t₀.Seat) = true := (hinv'.marked _).2 ⟨e, t₂, h₂, by rw [hseat]⟩
      rw [hfree] at this
      cases this
    · intro e he
      show AList.lookup e (AList.erase email T) = AList.lookup e T
      rw [lookup_erase_eq, if_neg he]
    · intro k hk
      rw [Bool.eq_iff_iff, seatAt_erase, seatAt_tickets _ T]
      exact ⟨fun h => h.2, fun h => ⟨hk, h⟩⟩

/-- The removal of one of two tickets: bob's ticket on A2 is removed and alice's
ticket on A1 stays. -/
theorem C10_remove_ticket_witness :
    (run NewStore [Op.purchase alice "London" "France" 2000,
        Op.purchase bob "London" "France" 2000]).tickets.lookup "bob@example.com" =
      some ⟨"London", "France", bob, 2000, ⟨"A", 2⟩⟩ ∧
    (RemoveTicket (run NewStore [Op.purchase alice "London" "France" 2000,
        Op.purchase bob "London" "France" 2000]) "bob@example.com").2 =
      run NewStore [Op.purchase alice "London" "France" 2000] ∧
    (RemoveTicket (run NewStore [Op.purchase alice "London" "France" 2000,
        Op.purchase bob "London" "France" 2000]) "bob@example.com").1 = none ∧
    (RemoveTicket (run NewStore [Op.purchase alice "London" "France" 2000,
        Op.purchase bob "London" "France" 2000]) "bob@example.com").2.tickets.lookup
        "bob@example.com" = none :=
  ⟨by decide, by rfl,
    ((C10_remove_ticket [Op.purchase alice "London" "France" 2000,
      Op.purchase bob "London" "France" 2000] "bob@example.com").2.2
      ⟨"London", "France", bob, 2000, ⟨"A", 2⟩⟩ (by decide)).1,
    ((C10_remove_ticket [Op.purchase alice "London" "France" 2000,
      Op.purchase bob "London" "France" 2000] "bob@example.com").2.2
      ⟨"London", "France", bob, 2000, ⟨"A", 2⟩⟩ (by decide)).2.1⟩

/-- C11: in every store reachable from the empty store in which an email owns a
ticket, `RemoveTicket` of the email succeeds and a `PurchaseTicket` right after
it for a user with that email succeeds too, on a seat no later in the order than
the freed one; and in the store that holds only alice's ticket the new ticket gets
exactly the freed seat. -/
theorem C11_remove_then_purchase :
    (∀ (ops : List Op) (email : String) (t : Ticket) (user : User) (src dst : String)
        (pricePaid : Int),
      (run NewStore ops).tickets.lookup email = some t → user.Email = email →
      (RemoveTicket (run NewStore ops) email).1 = none ∧
      ∃ seat, (PurchaseTicket (RemoveTicket (run NewStore ops) email).2 user src dst
          pricePaid).1 = Result.ok ⟨src, dst, user, pricePaid, seat⟩ ∧
        seat ∈ allSeats ∧ seatRank seat ≤ seatRank t.Seat) ∧
    ((run NewStore [Op.purchase alice "London" "France" 2000]).tickets.lookup
        "alice@example.com" = some ⟨"London", "France", alice, 2000, ⟨"A", 1⟩⟩ ∧
      (PurchaseTicket (RemoveTicket (run NewStore [Op.purchase alice "London" "France" 2000])
          "alice@example.com").2 alice "London" "France" 2000).1 =
        Result.ok ⟨"London", "France", alice, 2000, ⟨"A", 1⟩⟩) := by
  refine ⟨?_, by decide, by decide⟩
  intro ops email t user src dst pricePaid hl hu
  have hinv := inv_reachable ops
  generalize run NewStore ops = s at hl hinv ⊢
  rcases remove_cases s email with ⟨hn, -⟩ | ⟨t₀, hl₀, hr⟩
  · rw [hl] at hn
    cases hn
  · rw [hl] at hl₀
    cases hl₀
    rw [hr]
    refine ⟨rfl, ?_⟩
    obtain ⟨T, S⟩ := s
    have hgone : (Store.mk (AList.erase email T) (AList.erase (key t.Seat) S)).tickets.lookup
        user.Email = none := by
      rw [hu]
      show AList.lookup email (AList.erase email T) = none
      rw [lookup_erase_eq, if_pos rfl]
    have hfree : (Store.mk (AList.erase email T) (AList.erase (key t.Seat) S)).seatAt
        (key t.Seat) = false := by
      rw [← Bool.not_eq_true, seatAt_erase]
      exact fun h => h.1 rfl
    have hmem : t.Seat ∈ allSeats := hinv.valid _ _ hl
    rcases purchase_cases (Store.mk (AList.erase email T) (AList.erase (key t.Seat) S))
        user src dst pricePaid with ⟨hsome, -⟩ | ⟨-, hf, -⟩ | ⟨-, seat, hf, hp⟩
    · rw [hgone] at hsome
      cases hsome
    · rw [(findNext_err hf).2 _ hmem] at hfree
      cases hfree
    · obtain ⟨hm, -, hmin⟩ := findNext_ok hf
      exact ⟨seat, by rw [hp], hm, hmin _ hmem hfree⟩

/-- With alice on A1, bob on A2 and carol on A3, after alice is removed as well,
removing carol and buying again for carol gives carol the lower seat A1. -/
theorem C11_remove_then_purchase_witness :
    (run NewStore [Op.purchase alice "London" "France" 2000,
        Op.purchase bob "London" "France" 2000, Op.purchase carol "London" "France" 2000,
        Op.remove "alice@example.com"]).tickets.lookup "carol@example.com" =
      some ⟨"London", "France", carol, 2000, ⟨"A", 3⟩⟩ ∧
    (PurchaseTicket (RemoveTicket (run NewStore [Op.purchase alice "London" "France" 2000,
        Op.purchase bob "London" "France" 2000, Op.purchase carol "London" "France" 2000,
        Op.remove "alice@example.com"]) "carol@example.com").2 carol "Paris" "Rome" 1).1 =
      Result.ok ⟨"Paris", "Rome", carol, 1, ⟨"A", 1⟩⟩ ∧
    (RemoveTicket (run NewStore [Op.purchase alice "London" "France" 2000,
        Op.purchase bob "London" "France" 2000, Op.purchase carol "London" "France" 2000,
        Op.remove "alice@example.com"]) "carol@example.com").1 = none :=
  ⟨by decide, by decide,
    (C11_remove_then_purchase.1 [Op.purchase alice "London" "France" 2000,
      Op.purchase bob "London" "France" 2000, Op.purchase carol "London" "France" 2000,
      Op.remove "alice@example.com"] "carol@example.com"
      ⟨"London", "France", carol, 2000, ⟨"A", 3⟩⟩ carol "Paris" "Rome" 1
      (by decide) (by decide)).1⟩

/-- C12: in every store reachable from the empty store and for every email,
`GetTicketByEmail` fails with `ErrTicketNotFound` if and only if no live ticket is
owned by the email; otherwise it returns the ticket filed under the email, whose
`User.Email` is the queried email; in both cases the store is unchanged. -/
theorem C12_get_ticket_by_email (ops : List Op) (email : String) :
    ((GetTicketByEmail (run NewStore ops) email).1 = Result.err Error.ErrTicketNotFound ↔
      ¬ ∃ e t, (run NewStore ops).tickets.lookup e = some t ∧ t.User.Email = email) ∧
    (∀ t, (GetTicketByEmail (run NewStore ops) email).1 = Result.ok t ↔
      ∃ e, (run NewStore ops).tickets.lookup e = some t ∧ t.User.Email = email) ∧
    (∀ t, (GetTicketByEmail (run NewStore ops) email).1 = Result.ok t ↔
      (run NewStore ops).tickets.lookup email = some t) ∧
    (GetTicketByEmail (run NewStore ops) email).2 = run NewStore ops := by
  have hinv := inv_reachable ops
  generalize run NewStore ops = s at hinv ⊢
  have hown : ∀ t, (∃ e, s.tickets.lookup e = some t ∧ t.User.Email = email) ↔
      s.tickets.lookup email = some t := by
    intro t
    constructor
    · rintro ⟨e, hl, he⟩
      rw [← he, hinv.owner _ _ hl]
      exact hl
    · intro hl
      exact ⟨email, hl, hinv.owner _ _ hl⟩
  unfold GetTicketByEmail
  cases hl : s.tickets.lookup email with
  | none =>
    refine ⟨⟨fun _ => ?_, fun _ => rfl⟩, fun t => ?_, fun t => ?_, rfl⟩
    · rintro ⟨e, t, h⟩
      have := (hown t).1 ⟨e, h⟩
      rw [hl] at this
      cases this
    · rw [hown t, hl]
      exact ⟨fun h => (by cases h), fun h => (by cases h)⟩
    · exact ⟨fun h => (by cases h), fun h => (by cases h)⟩
  | some t₀ =>
    refine ⟨⟨fun h => (by cases h), fun h => ?_⟩, fun t => ?_, fun t => ?_, rfl⟩
    · exact absurd ⟨email, t₀, hl, hinv.owner _ _ hl⟩ h
    · rw [hown t, hl]
      simp
    · simp

/-- C15: in every store, whenever `PurchaseTicket`, `RemoveTicket` or `ModifySeat`
returns an error, the store after the call (ticket map and occupancy map) is the
store before it, and the error is one of `ErrUserAlreadyHasTicket`, `ErrTrainFull`
for a purchase, `ErrTicketNotFound` for a removal, and `ErrTicketNotFound`,
`ErrSeatAlreadyOccupied` or a wrapped `ErrInvalidSeat` for a reseat. -/
theorem C15_no_partial_success (s : Store) :
    (∀ user src dst pricePaid e,
      (PurchaseTicket s user src dst pricePaid).1 = Result.err e →
      (PurchaseTicket s user src dst pricePaid).2 = s ∧
        (e = Error.ErrUserAlreadyHasTicket ∨ e = Error.ErrTrainFull)) ∧
    (∀ email e, (RemoveTicket s email).1 = some e →
      (RemoveTicket s email).2 = s ∧ e = Error.ErrTicketNotFound) ∧
    (∀ email newSection newSeatNumber e,
      (ModifySeat s email newSection newSeatNumber).1 = Result.err e →
      (ModifySeat s email newSection newSeatNumber).2 = s ∧
        (e = Error.ErrTicketNotFound ∨ e = Error.ErrSeatAlreadyOccupied ∨
          errorsIs e Error.ErrInvalidSeat = true)) := by
  refine ⟨?_, ?_, ?_⟩
  · intro user src dst pricePaid e he
    rcases purchase_cases s user src dst pricePaid with ⟨-, hr⟩ | ⟨-, -, hr⟩ | ⟨-, seat, -, hr⟩
    · rw [hr] at he ⊢
      cases he
      exact ⟨rfl, Or.inl rfl⟩
    · rw [hr] at he ⊢
      cases he
      exact ⟨rfl, Or.inr rfl⟩
    · rw [hr] at he
      cases he
  · intro email e he
    rcases remove_cases s email with ⟨-, hr⟩ | ⟨t, -, hr⟩
    · rw [hr] at he ⊢
      cases he
      exact ⟨rfl, rfl⟩
    · rw [hr] at he
      cases he
  · intro email newSection newSeatNumber e he
    rcases modify_cases s email newSection newSeatNumber with
      ⟨-, hr⟩ | ⟨-, -, hr⟩ | ⟨-, -, hr⟩ | ⟨-, -, -, hr⟩ | ⟨-, -, t, -, hr⟩
    · rw [hr] at he ⊢
      cases he
      exact ⟨rfl, Or.inr (Or.inr (by simp [errorsIs]))⟩
    · rw [hr] at he ⊢
      cases he
      exact ⟨rfl, Or.inr (Or.inr (by simp [errorsIs]))⟩
    · rw [hr] at he ⊢
      cases he
      exact ⟨rfl, Or.inl rfl⟩
    · rw [hr] at he ⊢
      cases he
      exact ⟨rfl, Or.inr (Or.inl rfl)⟩
    · rw [hr] at he
      cases he

theorem mem_allocations_iff (s : Store) (f : String) (t : Ticket) :
    t ∈ (GetAllAllocations s f).1 ↔
      ∃ email, s.tickets.lookup email = some t ∧ (f = "" ∨ t.Seat.Section = f) := by
  simp only [GetAllAllocations, List.mem_filter, List.mem_map, Bool.or_eq_true, beq_iff_eq]
  constructor
  · rintro ⟨⟨⟨e, t'⟩, hmem, rfl⟩, hp⟩
    refine ⟨e, mem_entries_iff.1 hmem, ?_⟩
    rcases hp with hp | hp
    · exact Or.inl hp
    · exact Or.inr hp
  · rintro ⟨e, hl, hp⟩
    refine ⟨⟨⟨e, t⟩, mem_entries_iff.2 hl, rfl⟩, ?_⟩
    rcases hp with hp | hp
    · exact Or.inl hp
    · exact Or.inr hp

theorem allocations_as_entries (s : Store) (f : String) :
    (GetAllAllocations s f).1 =
      (s.tickets.entries.filter
        (fun e => decide (f = "" ∨ e.2.Seat.Section = f))).map (fun e => e.2) := by
  simp only [GetAllAllocations, List.filter_map]
  congr 1
  apply List.filter_congr
  intro x _
  by_cases h₁ : f = "" <;> by_cases h₂ : x.2.Seat.Section = f <;> simp [h₁, h₂]

theorem keys_filter_length (s : Store) (q : String → Bool)
    (p : (Sigma fun _ : String => Ticket) → Bool)
    (h : ∀ x ∈ s.tickets.entries, q x.1 = p x) :
    (s.tickets.keys.filter q).length = (s.tickets.entries.filter p).length := by
  have hk : s.tickets.keys = s.tickets.entries.map Sigma.fst := rfl
  rw [hk, List.filter_map, List.length_map]
  congr 1
  apply List.filter_congr
  intro x hx
  exact h x hx

theorem lookup_of_mem_entries {s : Store} {x : Sigma fun _ : String => Ticket}
    (hx : x ∈ s.tickets.entries) : s.tickets.lookup x.1 = some x.2 := by
  obtain ⟨e, t⟩ := x
  exact mem_entries_iff.1 hx

/-- C13: in every store and for every filter string `f`, `GetAllAllocations`
returns precisely the live tickets whose seat section equals `f`, or all live
tickets when `f` is empty; a ticket occurs in the result as many times as there
are emails that file it, so each live ticket occurs once; the length of the
result is the number of emails whose ticket matches; the result is empty exactly
when no ticket matches; and the store is unchanged. -/
theorem C13_get_all_allocations (s : Store) (f : String) :
    (∀ t, t ∈ (GetAllAllocations s f).1 ↔
      ∃ email, s.tickets.lookup email = some t ∧ (f = "" ∨ t.Seat.Section = f)) ∧
    (∀ t, (GetAllAllocations s f).1.count t =
      (s.tickets.keys.filter (fun e =>
        decide (s.tickets.lookup e = some t ∧ (f = "" ∨ t.Seat.Section = f)))).length) ∧
    ((∀ e t, s.tickets.lookup e = some t → t.User.Email = e) → (GetAllAllocations s f).1.Nodup) ∧
    ((GetAllAllocations s f).1.length =
      (s.tickets.keys.filter (fun e =>
        match s.tickets.lookup e with
        | some t => decide (f = "" ∨ t.Seat.Section = f)
        | none => false)).length) ∧
    ((GetAllAllocations s "").1.length = s.tickets.entries.length) ∧
    ((GetAllAllocations s f).1 = [] ↔
      ¬ ∃ email t, s.tickets.lookup email = some t ∧ (f = "" ∨ t.Seat.Section = f)) ∧
    (GetAllAllocations s f).2 = s := by
  refine ⟨mem_allocations_iff s f, ?_, ?_, ?_, ?_, ?_, rfl⟩
  · intro t
    rw [allocations_as_entries, List.count, List.countP_map, List.countP_filter,
      List.countP_eq_length_filter]
    symm
    apply keys_filter_length
    intro x hx
    rw [lookup_of_mem_entries hx]
    by_cases h₁ : x.2 = t
    · subst h₁
      simp
    · have h₂ : ¬ (some x.2 = some t) := fun h => h₁ (Option.some.inj h)
      simp [h₁, h₂]
  · intro hown
    rw [allocations_as_entries]
    apply List.Nodup.map_on _ (s.tickets.nodupKeys.nodup.filter _)
    intro x hx y hy hxy
    have hx' := lookup_of_mem_entries (List.mem_filter.1 hx).1
    have hy' := lookup_of_mem_entries (List.mem_filter.1 hy).1
    obtain ⟨e₁, t₁⟩ := x
    obtain ⟨e₂, t₂⟩ := y
    simp only at hxy hx' hy'
    subst hxy
    have h₁ := hown _ _ hx'
    have h₂ := hown _ _ hy'
    rw [← h₁, ← h₂]
  · rw [allocations_as_entries, List.length_map]
    symm
    apply keys_filter_length
    intro x hx
    rw [lookup_of_mem_entries hx]
  · rw [allocations_as_entries, List.length_map]
    congr 1
    simp
  · rw [List.eq_nil_iff_forall_not_mem]
    constructor
    · rintro h ⟨e, t, hl, hp⟩
      exact h t ((mem_allocations_iff s f t).2 ⟨e, hl, hp⟩)
    · intro h t ht
      obtain ⟨e, hl, hp⟩ := (mem_allocations_iff s f t).1 ht
      exact h ⟨e, t, hl, hp⟩

/-- In the store that holds only alice's ticket on A1: the listing for section A
has one ticket, the listing for section B is empty, and alice's ticket occurs
once. -/
theorem C13_get_all_allocations_witness :
    (GetAllAllocations (run NewStore [Op.purchase alice "London" "France" 2000]) "A").1 =
      [⟨"London", "France", alice, 2000, ⟨"A", 1⟩⟩] ∧
    (GetAllAllocations (run NewStore [Op.purchase alice "London" "France" 2000]) "B").1 = [] ∧
    (GetAllAllocations (run NewStore [Op.purchase alice "London" "France" 2000]) "A").1.count
        ⟨"London", "France", alice, 2000, ⟨"A", 1⟩⟩ =
      ((run NewStore [Op.purchase alice "London" "France" 2000]).tickets.keys.filter (fun e =>
        decide ((run NewStore [Op.purchase alice "London" "France" 2000]).tickets.lookup e =
          some ⟨"London", "France", alice, 2000, ⟨"A", 1⟩⟩ ∧
          ("A" = "" ∨ (⟨"London", "France", alice, 2000, ⟨"A", 1⟩⟩ : Ticket).Seat.Section =
            "A")))).length :=
  ⟨by decide, by decide,
    (C13_get_all_allocations (run NewStore [Op.purchase alice "London" "France" 2000]) "A").2.1
      ⟨"London", "France", alice, 2000, ⟨"A", 1⟩⟩⟩

/-- The witness of C15: on the full train of the 20 sample purchases, a purchase
for alice, a removal of alice and a reseat of alice to seat C1 all fail and leave
the store as it was. -/
theorem C15_no_partial_success_witness :
    (PurchaseTicket (run NewStore fillOps) alice "London" "France" 2000).1 =
      Result.err Error.ErrTrainFull ∧
    (RemoveTicket (run NewStore fillOps) "alice@example.com").1 =
      some Error.ErrTicketNotFound ∧
    (ModifySeat (run NewStore fillOps) "alice@example.com" "C" 1).1 =
      Result.err (Error.wrapped Error.ErrInvalidSeat "invalid seat: invalid section C") ∧
    (PurchaseTicket (run NewStore fillOps) alice "London" "France" 2000).2 =
      run NewStore fillOps ∧
    (RemoveTicket (run NewStore fillOps) "alice@example.com").2 = run NewStore fillOps ∧
    (ModifySeat (run NewStore fillOps) "alice@example.com" "C" 1).2 = run NewStore fillOps :=
  ⟨by decide, by decide, by decide,
    ((C15_no_partial_success (run NewStore fillOps)).1 alice "London" "France" 2000
      Error.ErrTrainFull (by decide)).1,
    ((C15_no_partial_success (run NewStore fillOps)).2.1 "alice@example.com"
      Error.ErrTicketNotFound (by decide)).1,
    ((C15_no_partial_success (run NewStore fillOps)).2.2 "alice@example.com" "C" 1
      (Error.wrapped Error.ErrInvalidSeat "invalid seat: invalid section C") (by decide)).1⟩

theorem service_purchase_ok {cfg : service.Config} {s : Store}
    {req : service.PurchaseTicketRequest} {r : service.Receipt}
    (h : (service.PurchaseTicket cfg s req).1 = service.Reply.ok r) :
    ∃ seat,
      r = service.convertTicketToReceipt
        ⟨cfg.RouteFrom, cfg.RouteTo, ⟨req.FirstName, req.LastName, req.Email⟩,
          cfg.TicketPriceCents, seat⟩ ∧
      (service.PurchaseTicket cfg s req).2 =
        { tickets := s.tickets.insert req.Email
            ⟨cfg.RouteFrom, cfg.RouteTo, ⟨req.FirstName, req.LastName, req.Email⟩,
              cfg.TicketPriceCents, seat⟩,
          seats := s.seats.insert (key seat) true } := by
  unfold service.PurchaseTicket at h ⊢
  by_cases hg : (req.FirstName == "" || req.LastName == "" || req.Email == "") = true
  · rw [if_pos hg] at h
    cases h
  · rw [if_neg hg] at h ⊢
    rcases purchase_cases s ⟨req.FirstName, req.LastName, req.Email⟩ cfg.RouteFrom cfg.RouteTo
        cfg.TicketPriceCents with ⟨-, hr⟩ | ⟨-, -, hr⟩ | ⟨-, seat, -, hr⟩
    · simp only [hr] at h
      simp at h
    · simp only [hr] at h
      simp at h
    · simp only [hr] at h ⊢
      simp only [service.Reply.ok.injEq] at h
      exact ⟨seat, h.symm, rfl⟩

/-- C14: in every store, when the service's `PurchaseTicket` succeeds with
receipt `r`, a `ViewUserReceipt` issued next under an identity whose email claim
is the email of the purchase returns the receipt `r`, equal in every field,
whatever the name and role claims of the identity. -/
theorem C14_purchase_view_round_trip (cfg : service.Config)
    (parseUnverified : String → Option auth.MapClaims) (s : Store)
    (req : service.PurchaseTicketRequest) (r : service.Receipt) (ctx : auth.Context)
    (claims : auth.UserClaims)
    (hbuy : (service.PurchaseTicket cfg s req).1 = service.Reply.ok r)
    (hid : auth.ExtractUserFromContext parseUnverified ctx = auth.Result.ok claims)
    (hemail : claims.Email = req.Email) :
    (service.ViewUserReceipt parseUnverified (service.PurchaseTicket cfg s req).2 ctx).1 =
      service.Reply.ok r := by
  obtain ⟨seat, hr, hs⟩ := service_purchase_ok hbuy
  rw [hs, hr]
  have hget : ∀ (T : AList (fun _ : String => Ticket)) (S : AList (fun _ : String => Bool))
      (t : Ticket), GetTicketByEmail ⟨T.insert req.Email t, S⟩ claims.Email =
        (Result.ok t, ⟨T.insert req.Email t, S⟩) := by
    intro T S t
    unfold GetTicketByEmail
    rw [hemail]
    simp only [AList.lookup_insert]
  unfold service.ViewUserReceipt
  simp only [hid, hget]

/-- The round trip on the empty store: alice buys, and a caller holding alice's
token views the same receipt. -/
theorem C14_purchase_view_round_trip_witness :
    (service.PurchaseTicket service.sampleConfig NewStore ⟨"Al", "Ames", "alice@example.com"⟩).1 =
      service.Reply.ok ⟨"London", "France", ⟨"Al", "Ames", "alice@example.com"⟩, 2000,
        ⟨"A", 1⟩⟩ ∧
    auth.ExtractUserFromContext service.sampleParse (service.bearer "alice-token") =
      auth.Result.ok ⟨"alice@example.com", "Alice", "Ames", "user"⟩ ∧
    (service.ViewUserReceipt service.sampleParse
      (service.PurchaseTicket service.sampleConfig NewStore
        ⟨"Al", "Ames", "alice@example.com"⟩).2 (service.bearer "alice-token")).1 =
      service.Reply.ok ⟨"London", "France", ⟨"Al", "Ames", "alice@example.com"⟩, 2000,
        ⟨"A", 1⟩⟩ :=
  ⟨by decide, by decide,
    C14_purchase_view_round_trip service.sampleConfig service.sampleParse NewStore
      ⟨"Al", "Ames", "alice@example.com"⟩ _ (service.bearer "alice-token")
      ⟨"alice@example.com", "Alice", "Ames", "user"⟩ (by decide) (by decide) (by decide)⟩

theorem modify_invalid (s : Store) (email newSection : String) (newSeatNumber : Int) :
    (¬ (newSection = "A" ∨ newSection = "B") →
      ModifySeat s email newSection newSeatNumber =
        (Result.err (Error.wrapped Error.ErrInvalidSeat
          ("invalid seat: invalid section " ++ newSection)), s)) ∧
    ((newSection = "A" ∨ newSection = "B") ∧ ¬ (1 ≤ newSeatNumber ∧ newSeatNumber ≤ 10) →
      ModifySeat s email newSection newSeatNumber =
        (Result.err (Error.wrapped Error.ErrInvalidSeat
          ("invalid seat: invalid seat number " ++ toString newSeatNumber)), s)) := by
  refine ⟨?_, ?_⟩
  · intro h
    unfold ModifySeat
    have : IsValidSection newSection = false := by
      rw [not_or] at h
      simp [IsValidSection, h.1, h.2]
    simp [this]
  · rintro ⟨h₁, h₂⟩
    unfold ModifySeat
    have hs : IsValidSection newSection = true := by
      simp [IsValidSection, h₁]
    have hn : IsValidSeatNumber newSeatNumber = false := by
      rw [← Bool.not_eq_true]
      intro hv
      simp only [IsValidSeatNumber, Bool.and_eq_true, decide_eq_true_eq] at hv
      exact h₂ ⟨hv.1, hv.2⟩
    simp [hs, hn]

theorem isAdmin_false {claims : auth.UserClaims} (h : claims.Role ≠ "admin") :
    claims.IsAdmin = false := by
  simp [auth.UserClaims.IsAdmin, h]

theorem isAdmin_true {claims : auth.UserClaims} (h : claims.Role = "admin") :
    claims.IsAdmin = true := by
  simp [auth.UserClaims.IsAdmin, h]

/-- C17: in every store, for every caller identity whose role is not "admin",
`RemoveUserFromTrain` with an explicit target email different from the caller's
own email fails with permission-denied, whether or not the target or the caller
owns a ticket, and the store is unchanged. -/
theorem C17_remove_other_denied (parseUnverified : String → Option auth.MapClaims) (s : Store)
    (ctx : auth.Context) (claims : auth.UserClaims) (req : service.RemoveUserFromTrainRequest)
    (hid : auth.ExtractUserFromContext parseUnverified ctx = auth.Result.ok claims)
    (hrole : claims.Role ≠ "admin") (hexplicit : req.Email ≠ "")
    (_hother : req.Email ≠ claims.Email) :
    service.RemoveUserFromTrain parseUnverified s ctx req =
      (service.Reply.fail service.Code.PermissionDenied "only admin can remove other users",
        s) := by
  unfold service.RemoveUserFromTrain
  simp [hid, hexplicit, isAdmin_false hrole]

/-- With alice on A1 and bob on A2, alice, who is no administrator, asks to remove
bob: permission is denied and both tickets stay. -/
theorem C17_remove_other_denied_witness :
    auth.ExtractUserFromContext service.sampleParse (service.bearer "alice-token") =
      auth.Result.ok ⟨"alice@example.com", "Alice", "Ames", "user"⟩ ∧
    service.twoTickets.tickets.lookup "bob@example.com" =
      some ⟨"London", "France", bob, 2000, ⟨"A", 2⟩⟩ ∧
    service.RemoveUserFromTrain service.sampleParse service.twoTickets
        (service.bearer "alice-token") ⟨"bob@example.com"⟩ =
      (service.Reply.fail service.Code.PermissionDenied "only admin can remove other users",
        service.twoTickets) :=
  ⟨by decide, by decide,
    C17_remove_other_denied service.sampleParse service.twoTickets
      (service.bearer "alice-token") ⟨"alice@example.com", "Alice", "Ames", "user"⟩
      ⟨"bob@example.com"⟩ (by decide) (by decide) (by decide) (by decide)⟩

/-- C18, as the code has it: in every store, for every caller identity whose role
is not "admin", `ModifyUserSeat` with an explicit target email different from the
caller's own email fails with permission-denied when the section is non-empty and
the seat number is not 0, and with invalid-argument when the section is empty or
the seat number is 0; in both cases the store is unchanged. -/
theorem C18_modify_other_denied (parseUnverified : String → Option auth.MapClaims) (s : Store)
    (ctx : auth.Context) (claims : auth.UserClaims) (req : service.ModifyUserSeatRequest)
    (hid : auth.ExtractUserFromContext parseUnverified ctx = auth.Result.ok claims)
    (hrole : claims.Role ≠ "admin") (hexplicit : req.Email ≠ "")
    (_hother : req.Email ≠ claims.Email) :
    service.ModifyUserSeat parseUnverified s ctx req =
      (if req.Section = "" ∨ req.SeatNumber = 0 then
          service.Reply.fail service.Code.InvalidArgument "section and seat_number are required"
        else
          service.Reply.fail service.Code.PermissionDenied
            "only admin can modify other users' seats",
        s) := by
  unfold service.ModifyUserSeat
  by_cases h : req.Section = "" ∨ req.SeatNumber = 0
  · rw [if_pos h]
    rcases h with h | h <;> simp [hid, h]
  · rw [if_neg h]
    rw [not_or] at h
    simp [hid, h.1, h.2, hexplicit, isAdmin_false hrole]

/-- With alice on A1 and bob on A2, alice, who is no administrator, asks to move
bob to B5: permission is denied and the store stays as it was. -/
theorem C18_modify_other_denied_witness :
    auth.ExtractUserFromContext service.sampleParse (service.bearer "alice-token") =
      auth.Result.ok ⟨"alice@example.com", "Alice", "Ames", "user"⟩ ∧
    service.ModifyUserSeat service.sampleParse service.twoTickets
        (service.bearer "alice-token") ⟨"bob@example.com", "B", 5⟩ =
      (if ("B" : String) = "" ∨ (5 : Int) = 0 then
          service.Reply.fail service.Code.InvalidArgument "section and seat_number are required"
        else
          service.Reply.fail service.Code.PermissionDenied
            "only admin can modify other users' seats",
        service.twoTickets) ∧
    (service.ModifyUserSeat service.sampleParse service.twoTickets
        (service.bearer "alice-token") ⟨"bob@example.com", "B", 5⟩).1 =
      service.Reply.fail service.Code.PermissionDenied
        "only admin can modify other users' seats" :=
  ⟨by decide,
    C18_modify_other_denied service.sampleParse service.twoTickets
      (service.bearer "alice-token") ⟨"alice@example.com", "Alice", "Ames", "user"⟩
      ⟨"bob@example.com", "B", 5⟩ (by decide) (by decide) (by decide) (by decide),
    by decide⟩

/-- C18 as stated fails: alice, whose role is "user", calls `ModifyUserSeat` with
the explicit target bob, an empty section and seat number 5; the call fails with
invalid-argument, not with permission-denied. -/
theorem C18_modify_other_counterexample :
    auth.ExtractUserFromContext service.sampleParse (service.bearer "alice-token") =
      auth.Result.ok ⟨"alice@example.com", "Alice", "Ames", "user"⟩ ∧
    (service.ModifyUserSeat service.sampleParse service.twoTickets
        (service.bearer "alice-token") ⟨"bob@example.com", "", 5⟩).1 =
      service.Reply.fail service.Code.InvalidArgument "section and seat_number are required" ∧
    (service.ModifyUserSeat service.sampleParse service.twoTickets
        (service.bearer "alice-token") ⟨"bob@example.com", "B", 0⟩).1 =
      service.Reply.fail service.Code.InvalidArgument "section and seat_number are required" ∧
    ¬ ∃ msg, (service.ModifyUserSeat service.sampleParse service.twoTickets
        (service.bearer "alice-token") ⟨"bob@example.com", "", 5⟩).1 =
      service.Reply.fail service.Code.PermissionDenied msg := by
  refine ⟨by decide, by decide, by decide, ?_⟩
  rintro ⟨msg, h⟩
  have h' : (service.ModifyUserSeat service.sampleParse service.twoTickets
      (service.bearer "alice-token") ⟨"bob@example.com", "", 5⟩).1 =
      service.Reply.fail service.Code.InvalidArgument "section and seat_number are required" := by
    decide
  rw [h'] at h
  cases h

/-- C19: in every store, for every section filter and caller identity,
`ViewAllocations` fails with permission-denied, returning no allocation, when the
identity's role is not "admin"; for an "admin" identity it succeeds and returns one
allocation (section, seat number, owner first name, last name and email) for each
ticket that the store's `GetAllAllocations` returns for the filter, in the same
order; the store is unchanged. -/
theorem C19_view_allocations (parseUnverified : String → Option auth.MapClaims) (s : Store)
    (ctx : auth.Context) (claims : auth.UserClaims) (req : service.ViewAllocationsRequest)
    (hid : auth.ExtractUserFromContext parseUnverified ctx = auth.Result.ok claims) :
    service.ViewAllocations parseUnverified s ctx req =
      (if claims.Role = "admin" then
          service.Reply.ok ((GetAllAllocations s req.Section).1.map fun t =>
            ⟨t.Seat.Section, t.Seat.SeatNumber,
              ⟨t.User.FirstName, t.User.LastName, t.User.Email⟩⟩)
        else service.Reply.fail service.Code.PermissionDenied "admin access required",
        s) := by
  unfold service.ViewAllocations
  by_cases h : claims.Role = "admin"
  · rw [if_pos h]
    simp only [hid, isAdmin_true h]
    rfl
  · rw [if_neg h]
    simp [hid, isAdmin_false h]

/-- With alice on A1 and bob on A2, the administrator lists section A and gets the
two allocations. -/
theorem C19_view_allocations_witness :
    auth.ExtractUserFromContext service.sampleParse (service.bearer "admin-token") =
      auth.Result.ok ⟨"root@example.com", "Ann", "Admin", "admin"⟩ ∧
    (service.ViewAllocations service.sampleParse service.twoTickets
        (service.bearer "admin-token") ⟨"A"⟩).1 =
      service.Reply.ok [⟨"A", 2, ⟨"Bob", "Bell", "bob@example.com"⟩⟩,
        ⟨"A", 1, ⟨"Alice", "Ames", "alice@example.com"⟩⟩] ∧
    (service.ViewAllocations service.sampleParse service.twoTickets
        (service.bearer "alice-token") ⟨"A"⟩).1 =
      service.Reply.fail service.Code.PermissionDenied "admin access required" ∧
    service.ViewAllocations service.sampleParse service.twoTickets
        (service.bearer "admin-token") ⟨"A"⟩ =
      (if ("admin" : String) = "admin" then
          service.Reply.ok ((GetAllAllocations service.twoTickets "A").1.map fun t =>
            ⟨t.Seat.Section, t.Seat.SeatNumber,
              ⟨t.User.FirstName, t.User.LastName, t.User.Email⟩⟩)
        else service.Reply.fail service.Code.PermissionDenied "admin access required",
        service.twoTickets) :=
  ⟨by decide, by decide, by decide,
    C19_view_allocations service.sampleParse service.twoTickets
      (service.bearer "admin-token") ⟨"root@example.com", "Ann", "Admin", "admin"⟩ ⟨"A"⟩
      (by decide)⟩

/-- C20, what the code does: for every authenticated caller who may act on the
target (no explicit target, or role "admin"), `ModifyUserSeat` with a non-empty
section and a non-zero seat number that is out of range fails with the category
internal and the text of the store's wrapped `ErrInvalidSeat`, not with
invalid-argument; the store is unchanged. -/
theorem C20_out_of_range_is_internal (parseUnverified : String → Option auth.MapClaims)
    (s : Store) (ctx : auth.Context) (claims : auth.UserClaims)
    (req : service.ModifyUserSeatRequest)
    (hid : auth.ExtractUserFromContext parseUnverified ctx = auth.Result.ok claims)
    (hsec : req.Section ≠ "") (hnum : req.SeatNumber ≠ 0)
    (hmay : req.Email = "" ∨ claims.Role = "admin")
    (hbad : ¬ (req.Section = "A" ∨ req.Section = "B") ∨
      ¬ (1 ≤ req.SeatNumber ∧ req.SeatNumber ≤ 10)) :
    service.ModifyUserSeat parseUnverified s ctx req =
      (service.Reply.fail service.Code.Internal
        (if req.Section = "A" ∨ req.Section = "B" then
          "invalid seat: invalid seat number " ++ toString req.SeatNumber
        else "invalid seat: invalid section " ++ req.Section), s) := by
  have htarget : ∀ email, service.modifyTarget s email req =
      (service.Reply.fail service.Code.Internal
        (if req.Section = "A" ∨ req.Section = "B" then
          "invalid seat: invalid seat number " ++ toString req.SeatNumber
        else "invalid seat: invalid section " ++ req.Section), s) := by
    intro email
    unfold service.modifyTarget
    have h6 := modify_invalid s email req.Section req.SeatNumber
    by_cases hA : req.Section = "A" ∨ req.Section = "B"
    · rw [if_pos hA]
      have hn : ¬ (1 ≤ req.SeatNumber ∧ req.SeatNumber ≤ 10) := by
        rcases hbad with h | h
        · exact absurd hA h
        · exact h
      rw [h6.2 ⟨hA, hn⟩]
      simp [Error.text]
    · rw [if_neg hA, h6.1 hA]
      simp [Error.text]
  unfold service.ModifyUserSeat
  simp only [hid]
  have hg : (req.Section == "" || req.SeatNumber == 0) = false := by simp [hsec, hnum]
  rw [hg]
  rcases hmay with h | h
  · simp [h, htarget]
  · by_cases he : req.Email = ""
    · simp [he, htarget]
    · simp [he, isAdmin_true h, htarget]

/-- The failing input of C20: alice, who holds the ticket on A1, asks for seat C1
and for seat A11; both calls fail with the category internal. -/
theorem C20_out_of_range_is_internal_witness :
    auth.ExtractUserFromContext service.sampleParse (service.bearer "alice-token") =
      auth.Result.ok ⟨"alice@example.com", "Alice", "Ames", "user"⟩ ∧
    service.twoTickets.tickets.lookup "alice@example.com" =
      some ⟨"London", "France", alice, 2000, ⟨"A", 1⟩⟩ ∧
    (service.ModifyUserSeat service.sampleParse service.twoTickets
        (service.bearer "alice-token") ⟨"", "C", 1⟩).1 =
      service.Reply.fail service.Code.Internal "invalid seat: invalid section C" ∧
    (service.ModifyUserSeat service.sampleParse service.twoTickets
        (service.bearer "alice-token") ⟨"", "A", 11⟩).1 =
      service.Reply.fail service.Code.Internal "invalid seat: invalid seat number 11" ∧
    service.ModifyUserSeat service.sampleParse service.twoTickets
        (service.bearer "alice-token") ⟨"", "C", 1⟩ =
      (service.Reply.fail service.Code.Internal
        (if ("C" : String) = "A" ∨ ("C" : String) = "B" then
          "invalid seat: invalid seat number " ++ toString (1 : Int)
        else "invalid seat: invalid section " ++ "C"), service.twoTickets) :=
  ⟨by decide, by decide, by decide, by decide,
    C20_out_of_range_is_internal service.sampleParse service.twoTickets
      (service.bearer "alice-token") ⟨"alice@example.com", "Alice", "Ames", "user"⟩
      ⟨"", "C", 1⟩ (by decide) (by decide) (by decide) (Or.inl rfl) (Or.inl (by decide))⟩

/-! ## The service methods, case by case -/

theorem removeTarget_cases (s : Store) (email : String) :
    (s.tickets.lookup email = none ∧
      (RemoveTicket s email).1 = some Error.ErrTicketNotFound ∧
      service.removeTarget s email =
        (service.Reply.fail service.Code.NotFound "ticket not found", s)) ∨
    (∃ t, s.tickets.lookup email = some t ∧ (RemoveTicket s email).1 = none ∧
      service.removeTarget s email =
        (service.Reply.ok ⟨true, "user removed from train successfully"⟩,
          (RemoveTicket s email).2)) := by
  unfold service.removeTarget
  rcases remove_cases s email with ⟨hl, hr⟩ | ⟨t, hl, hr⟩
  · left
    refine ⟨hl, by rw [hr], ?_⟩
    rw [hr]
    simp [Error.text]
  · right
    refine ⟨t, hl, by rw [hr], ?_⟩
    rw [hr]

theorem modifyTarget_cases (s : Store) (email : String) (req : service.ModifyUserSeatRequest) :
    (∃ text, (ModifySeat s email req.Section req.SeatNumber).1 =
        Result.err (Error.wrapped Error.ErrInvalidSeat text) ∧
      service.modifyTarget s email req =
        (service.Reply.fail service.Code.Internal text, s)) ∨
    ((ModifySeat s email req.Section req.SeatNumber).1 = Result.err Error.ErrTicketNotFound ∧
      service.modifyTarget s email req =
        (service.Reply.fail service.Code.NotFound "ticket not found", s)) ∨
    ((ModifySeat s email req.Section req.SeatNumber).1 =
        Result.err Error.ErrSeatAlreadyOccupied ∧
      service.modifyTarget s email req =
        (service.Reply.fail service.Code.AlreadyExists "seat is already occupied", s)) ∨
    (∃ t, (ModifySeat s email req.Section req.SeatNumber).1 = Result.ok t ∧
      service.modifyTarget s email req =
        (service.Reply.ok (service.convertTicketToReceipt t),
          (ModifySeat s email req.Section req.SeatNumber).2)) := by
  unfold service.modifyTarget
  rcases modify_cases s email req.Section req.SeatNumber with
    ⟨-, hr⟩ | ⟨-, -, hr⟩ | ⟨-, -, hr⟩ | ⟨-, -, -, hr⟩ | ⟨-, -, t, -, hr⟩
  · left
    refine ⟨_, by rw [hr], ?_⟩
    rw [hr]
    simp [Error.text]
  · left
    refine ⟨_, by rw [hr], ?_⟩
    rw [hr]
    simp [Error.text]
  · right; left
    refine ⟨by rw [hr], ?_⟩
    rw [hr]
    simp [Error.text]
  · right; right; left
    refine ⟨by rw [hr], ?_⟩
    rw [hr]
    simp [Error.text]
  · right; right; right
    refine ⟨_, by rw [hr], ?_⟩
    rw [hr]

theorem remove_resolved {parseUnverified : String → Option auth.MapClaims} {s : Store}
    {ctx : auth.Context} {claims : auth.UserClaims} {req : service.RemoveUserFromTrainRequest}
    (hid : auth.ExtractUserFromContext parseUnverified ctx = auth.Result.ok claims)
    (hmay : req.Email = "" ∨ claims.Role = "admin") :
    service.RemoveUserFromTrain parseUnverified s ctx req =
      service.removeTarget s (if req.Email = "" then claims.Email else req.Email) := by
  unfold service.RemoveUserFromTrain
  simp only [hid]
  by_cases he : req.Email = ""
  · simp [he]
  · rcases hmay with h | h
    · exact absurd h he
    · simp [he, isAdmin_true h]

theorem modify_resolved {parseUnverified : String → Option auth.MapClaims} {s : Store}
    {ctx : auth.Context} {claims : auth.UserClaims} {req : service.ModifyUserSeatRequest}
    (hid : auth.ExtractUserFromContext parseUnverified ctx = auth.Result.ok claims)
    (hsec : req.Section ≠ "") (hnum : req.SeatNumber ≠ 0)
    (hmay : req.Email = "" ∨ claims.Role = "admin") :
    service.ModifyUserSeat parseUnverified s ctx req =
      service.modifyTarget s (if req.Email = "" then claims.Email else req.Email) req := by
  unfold service.ModifyUserSeat
  simp only [hid]
  have hg : (req.Section == "" || req.SeatNumber == 0) = false := by simp [hsec, hnum]
  rw [hg]
  by_cases he : req.Email = ""
  · simp [he]
  · rcases hmay with h | h
    · exact absurd h he
    · simp [he, isAdmin_true h]

theorem service_purchase_cases (cfg : service.Config) (s : Store)
    (req : service.PurchaseTicketRequest) :
    ((req.FirstName = "" ∨ req.LastName = "" ∨ req.Email = "") ∧
      service.PurchaseTicket cfg s req =
        (service.Reply.fail service.Code.InvalidArgument
          "first_name, last_name, and email are required", s)) ∨
    (¬ (req.FirstName = "" ∨ req.LastName = "" ∨ req.Email = "") ∧
      (store.PurchaseTicket s ⟨req.FirstName, req.LastName, req.Email⟩ cfg.RouteFrom
        cfg.RouteTo cfg.TicketPriceCents).1 = Result.err Error.ErrUserAlreadyHasTicket ∧
      service.PurchaseTicket cfg s req =
        (service.Reply.fail service.Code.AlreadyExists "user already has a ticket", s)) ∨
    (¬ (req.FirstName = "" ∨ req.LastName = "" ∨ req.Email = "") ∧
      (store.PurchaseTicket s ⟨req.FirstName, req.LastName, req.Email⟩ cfg.RouteFrom
        cfg.RouteTo cfg.TicketPriceCents).1 = Result.err Error.ErrTrainFull ∧
      service.PurchaseTicket cfg s req =
        (service.Reply.fail service.Code.ResourceExhausted "train is full", s)) ∨
    (¬ (req.FirstName = "" ∨ req.LastName = "" ∨ req.Email = "") ∧
      ∃ t, (store.PurchaseTicket s ⟨req.FirstName, req.LastName, req.Email⟩ cfg.RouteFrom
        cfg.RouteTo cfg.TicketPriceCents).1 = Result.ok t ∧
      service.PurchaseTicket cfg s req =
        (service.Reply.ok (service.convertTicketToReceipt t),
          (store.PurchaseTicket s ⟨req.FirstName, req.LastName, req.Email⟩ cfg.RouteFrom
            cfg.RouteTo cfg.TicketPriceCents).2)) := by
  unfold service.PurchaseTicket
  by_cases hg : req.FirstName = "" ∨ req.LastName = "" ∨ req.Email = ""
  · left
    refine ⟨hg, ?_⟩
    rcases hg with h | h | h <;> simp [h]
  · right
    have hg' : (req.FirstName == "" || req.LastName == "" || req.Email == "") = false := by
      rw [not_or, not_or] at hg
      simp [hg.1, hg.2.1, hg.2.2]
    rw [hg']
    rcases purchase_cases s ⟨req.FirstName, req.LastName, req.Email⟩ cfg.RouteFrom cfg.RouteTo
        cfg.TicketPriceCents with ⟨-, hr⟩ | ⟨-, -, hr⟩ | ⟨-, seat, -, hr⟩
    · left
      refine ⟨hg, by rw [hr], ?_⟩
      simp [hr, Error.text]
    · right; left
      refine ⟨hg, by rw [hr], ?_⟩
      simp [hr, Error.text]
    · right; right
      refine ⟨hg, _, by rw [hr], ?_⟩
      simp [hr]

/-- C21: the service maps the unwrapped store errors as follows: when the store
call returns `ErrTicketNotFound`, `ViewUserReceipt`, `RemoveUserFromTrain` and
`ModifyUserSeat` fail with not-found; when it returns `ErrUserAlreadyHasTicket`
or `ErrTrainFull`, `PurchaseTicket` fails with already-exists or
resource-exhausted; when it returns `ErrSeatAlreadyOccupied`, `ModifyUserSeat`
fails with already-exists; `PurchaseTicket`, `ViewUserReceipt` and
`RemoveUserFromTrain` never fail with internal, and `ModifyUserSeat` fails with
internal only when the store returned none of these errors. -/
theorem C21_store_error_mapping :
    (∀ parseUnverified s ctx claims,
      auth.ExtractUserFromContext parseUnverified ctx = auth.Result.ok claims →
      (GetTicketByEmail s claims.Email).1 = Result.err Error.ErrTicketNotFound →
      service.ViewUserReceipt parseUnverified s ctx =
        (service.Reply.fail service.Code.NotFound "ticket not found", s)) ∧
    (∀ parseUnverified s ctx claims (req : service.RemoveUserFromTrainRequest),
      auth.ExtractUserFromContext parseUnverified ctx = auth.Result.ok claims →
      (req.Email = "" ∨ claims.Role = "admin") →
      (RemoveTicket s (if req.Email = "" then claims.Email else req.Email)).1 =
        some Error.ErrTicketNotFound →
      service.RemoveUserFromTrain parseUnverified s ctx req =
        (service.Reply.fail service.Code.NotFound "ticket not found", s)) ∧
    (∀ parseUnverified s ctx claims (req : service.ModifyUserSeatRequest),
      auth.ExtractUserFromContext parseUnverified ctx = auth.Result.ok claims →
      req.Section ≠ "" → req.SeatNumber ≠ 0 → (req.Email = "" ∨ claims.Role = "admin") →
      ((ModifySeat s (if req.Email = "" then claims.Email else req.Email) req.Section
          req.SeatNumber).1 = Result.err Error.ErrTicketNotFound →
        service.ModifyUserSeat parseUnverified s ctx req =
          (service.Reply.fail service.Code.NotFound "ticket not found", s)) ∧
      ((ModifySeat s (if req.Email = "" then claims.Email else req.Email) req.Section
          req.SeatNumber).1 = Result.err Error.ErrSeatAlreadyOccupied →
        service.ModifyUserSeat parseUnverified s ctx req =
          (service.Reply.fail service.Code.AlreadyExists "seat is already occupied", s)) ∧
      (∀ msg, (service.ModifyUserSeat parseUnverified s ctx req).1 =
          service.Reply.fail service.Code.Internal msg →
        ∃ inner text, (ModifySeat s (if req.Email = "" then claims.Email else req.Email)
          req.Section req.SeatNumber).1 = Result.err (Error.wrapped inner text))) ∧
    (∀ cfg s (req : service.PurchaseTicketRequest),
      req.FirstName ≠ "" → req.LastName ≠ "" → req.Email ≠ "" →
      ((store.PurchaseTicket s ⟨req.FirstName, req.LastName, req.Email⟩ cfg.RouteFrom
          cfg.RouteTo cfg.TicketPriceCents).1 = Result.err Error.ErrUserAlreadyHasTicket →
        service.PurchaseTicket cfg s req =
          (service.Reply.fail service.Code.AlreadyExists "user already has a ticket", s)) ∧
      ((store.PurchaseTicket s ⟨req.FirstName, req.LastName, req.Email⟩ cfg.RouteFrom
          cfg.RouteTo cfg.TicketPriceCents).1 = Result.err Error.ErrTrainFull →
        service.PurchaseTicket cfg s req =
          (service.Reply.fail service.Code.ResourceExhausted "train is full", s))) ∧
    (∀ cfg s req msg,
      (service.PurchaseTicket cfg s req).1 ≠ service.Reply.fail service.Code.Internal msg) ∧
    (∀ parseUnverified s ctx msg,
      (service.ViewUserReceipt parseUnverified s ctx).1 ≠
        service.Reply.fail service.Code.Internal msg) ∧
    (∀ parseUnverified s ctx req msg,
      (service.RemoveUserFromTrain parseUnverified s ctx req).1 ≠
        service.Reply.fail service.Code.Internal msg) := by
  refine ⟨?_, ?_, ?_, ?_, ?_, ?_, ?_⟩
  · intro parseUnverified s ctx claims hid hget
    unfold service.ViewUserReceipt
    simp only [hid]
    unfold GetTicketByEmail at hget ⊢
    cases hl : s.tickets.lookup claims.Email with
    | none => simp
    | some t =>
      rw [hl] at hget
      cases hget
  · intro parseUnverified s ctx claims req hid hmay hrem
    rw [remove_resolved hid hmay]
    rcases removeTarget_cases s (if req.Email = "" then claims.Email else req.Email) with
      ⟨-, -, hr⟩ | ⟨t, -, hnone, -⟩
    · exact hr
    · rw [hnone] at hrem
      cases hrem
  · intro parseUnverified s ctx claims req hid hsec hnum hmay
    rw [modify_resolved hid hsec hnum hmay]
    rcases modifyTarget_cases s (if req.Email = "" then claims.Email else req.Email) req with
      ⟨text, he, hr⟩ | ⟨he, hr⟩ | ⟨he, hr⟩ | ⟨t, he, hr⟩
    · refine ⟨fun h => ?_, fun h => ?_, fun msg _ => ⟨_, _, he⟩⟩
      · rw [he] at h
        cases h
      · rw [he] at h
        cases h
    · refine ⟨fun _ => hr, fun h => ?_, fun msg h => ?_⟩
      · rw [he] at h
        cases h
      · rw [hr] at h
        cases h
    · refine ⟨fun h => ?_, fun _ => hr, fun msg h => ?_⟩
      · rw [he] at h
        cases h
      · rw [hr] at h
        cases h
    · refine ⟨fun h => ?_, fun h => ?_, fun msg h => ?_⟩
      · rw [he] at h
        cases h
      · rw [he] at h
        cases h
      · rw [hr] at h
        cases h
  · intro cfg s req h₁ h₂ h₃
    rcases service_purchase_cases cfg s req with
      ⟨hg, -⟩ | ⟨-, he, hr⟩ | ⟨-, he, hr⟩ | ⟨-, t, he, hr⟩
    · rcases hg with h | h | h
      · exact absurd h h₁
      · exact absurd h h₂
      · exact absurd h h₃
    · refine ⟨fun _ => hr, fun h => ?_⟩
      rw [he] at h
      cases h
    · refine ⟨fun h => ?_, fun _ => hr⟩
      rw [he] at h
      cases h
    · refine ⟨fun h => ?_, fun h => ?_⟩
      · rw [he] at h
        cases h
      · rw [he] at h
        cases h
  · intro cfg s req msg h
    rcases service_purchase_cases cfg s req with
      ⟨-, hr⟩ | ⟨-, -, hr⟩ | ⟨-, -, hr⟩ | ⟨-, t, -, hr⟩ <;>
    · rw [hr] at h
      cases h
  · intro parseUnverified s ctx msg h
    unfold service.ViewUserReceipt at h
    cases hid : auth.ExtractUserFromContext parseUnverified ctx with
    | err e =>
      simp only [hid] at h
      cases h
    | ok claims =>
      simp only [hid] at h
      unfold GetTicketByEmail at h
      cases hl : s.tickets.lookup claims.Email with
      | none =>
        simp only [hl] at h
        simp at h
      | some t =>
        simp only [hl] at h
        cases h
  · intro parseUnverified s ctx req msg h
    unfold service.RemoveUserFromTrain at h
    cases hid : auth.ExtractUserFromContext parseUnverified ctx with
    | err e =>
      simp only [hid] at h
      cases h
    | ok claims =>
      simp only [hid] at h
      have hrt : ∀ email, (service.removeTarget s email).1 ≠
          service.Reply.fail service.Code.Internal msg := by
        intro email h'
        rcases removeTarget_cases s email with ⟨-, -, hr⟩ | ⟨t, -, -, hr⟩ <;>
        · rw [hr] at h'
          cases h'
      split at h
      · split at h
        · cases h
        · exact hrt _ h
      · exact hrt _ h

/-- With alice on A1 and bob on A2: a second purchase for alice's email is
already-exists, and bob's reseat onto alice's seat A1 is already-exists. -/
theorem C21_store_error_mapping_witness :
    (store.PurchaseTicket service.twoTickets ⟨"Al", "Ames", "alice@example.com"⟩ "London"
        "France" 2000).1 = Result.err Error.ErrUserAlreadyHasTicket ∧
    service.PurchaseTicket service.sampleConfig service.twoTickets
        ⟨"Al", "Ames", "alice@example.com"⟩ =
      (service.Reply.fail service.Code.AlreadyExists "user already has a ticket",
        service.twoTickets) ∧
    (ModifySeat service.twoTickets "bob@example.com" "A" 1).1 =
      Result.err Error.ErrSeatAlreadyOccupied ∧
    service.ModifyUserSeat service.sampleParse service.twoTickets (service.bearer "bob-token")
        ⟨"", "A", 1⟩ =
      (service.Reply.fail service.Code.AlreadyExists "seat is already occupied",
        service.twoTickets) :=
  ⟨by decide,
    (C21_store_error_mapping.2.2.2.1 service.sampleConfig service.twoTickets
      ⟨"Al", "Ames", "alice@example.com"⟩ (by decide) (by decide) (by decide)).1 (by decide),
    by decide,
    (C21_store_error_mapping.2.2.1 service.sampleParse service.twoTickets
      (service.bearer "bob-token") ⟨"bob@example.com", "Bob", "Bell", "user"⟩ ⟨"", "A", 1⟩
      (by decide) (by decide) (by decide) (Or.inl rfl)).2.1 (by decide)⟩

/-- C22: in every store, the service's `PurchaseTicket` fails with
invalid-argument if and only if the first name, the last name or the email of the
request is the empty string, and then the store is unchanged. -/
theorem C22_purchase_required_fields (cfg : service.Config) (s : Store)
    (req : service.PurchaseTicketRequest) :
    ((∃ msg, (service.PurchaseTicket cfg s req).1 =
        service.Reply.fail service.Code.InvalidArgument msg) ↔
      (req.FirstName = "" ∨ req.LastName = "" ∨ req.Email = "")) ∧
    (service.PurchaseTicket cfg s req =
        (service.Reply.fail service.Code.InvalidArgument
          "first_name, last_name, and email are required", s) ↔
      (req.FirstName = "" ∨ req.LastName = "" ∨ req.Email = "")) := by
  rcases service_purchase_cases cfg s req with
    ⟨hg, hr⟩ | ⟨hg, -, hr⟩ | ⟨hg, -, hr⟩ | ⟨hg, t, -, hr⟩
  · rw [hr]
    exact ⟨⟨fun _ => hg, fun _ => ⟨_, rfl⟩⟩, ⟨fun _ => hg, fun _ => rfl⟩⟩
  · rw [hr]
    refine ⟨⟨?_, fun h => absurd h hg⟩, ⟨?_, fun h => absurd h hg⟩⟩
    · rintro ⟨msg, h⟩
      cases h
    · intro h
      cases h
  · rw [hr]
    refine ⟨⟨?_, fun h => absurd h hg⟩, ⟨?_, fun h => absurd h hg⟩⟩
    · rintro ⟨msg, h⟩
      cases h
    · intro h
      cases h
  · rw [hr]
    refine ⟨⟨?_, fun h => absurd h hg⟩, ⟨?_, fun h => absurd h hg⟩⟩
    · rintro ⟨msg, h⟩
      cases h
    · intro h
      cases h

/-- A purchase without a last name on the store with alice and bob is rejected and
leaves the store as it was. -/
theorem C22_purchase_required_fields_witness :
    service.PurchaseTicket service.sampleConfig service.twoTickets
        ⟨"Carol", "", "carol@example.com"⟩ =
      (service.Reply.fail service.Code.InvalidArgument
        "first_name, last_name, and email are required", service.twoTickets) ∧
    (service.PurchaseTicket service.sampleConfig service.twoTickets
        ⟨"Carol", "Cole", "carol@example.com"⟩).1 =
      service.Reply.ok ⟨"London", "France", ⟨"Carol", "Cole", "carol@example.com"⟩, 2000,
        ⟨"A", 3⟩⟩ :=
  ⟨(C22_purchase_required_fields service.sampleConfig service.twoTickets
      ⟨"Carol", "", "carol@example.com"⟩).2.2 (Or.inr (Or.inl rfl)),
    by decide⟩

/-! ## The extraction of the identity, case by case -/

theorem extract_cases (parseUnverified : String → Option auth.MapClaims) (ctx : auth.Context) :
    (ctx.md = none ∧
      auth.ExtractUserFromContext parseUnverified ctx =
        auth.Result.err auth.Error.ErrNoMetadata) ∨
    (∃ md, ctx.md = some md ∧ (md.lookup "authorization").getD [] = [] ∧
      auth.ExtractUserFromContext parseUnverified ctx =
        auth.Result.err auth.Error.ErrNoAuthHeader) ∨
    (∃ md h rest, ctx.md = some md ∧ (md.lookup "authorization").getD [] = h :: rest ∧
      auth.TrimSpace (auth.TrimPrefix h "Bearer ") = "" ∧
      auth.ExtractUserFromContext parseUnverified ctx =
        auth.Result.err auth.Error.ErrInvalidTokenFormat) ∨
    (∃ md h rest, ctx.md = some md ∧ (md.lookup "authorization").getD [] = h :: rest ∧
      auth.TrimSpace (auth.TrimPrefix h "Bearer ") ≠ "" ∧
      parseUnverified (auth.TrimSpace (auth.TrimPrefix h "Bearer ")) = none ∧
      auth.ExtractUserFromContext parseUnverified ctx =
        auth.Result.err auth.Error.ErrInvalidToken) ∨
    (∃ md h rest c, ctx.md = some md ∧ (md.lookup "authorization").getD [] = h :: rest ∧
      auth.TrimSpace (auth.TrimPrefix h "Bearer ") ≠ "" ∧
      parseUnverified (auth.TrimSpace (auth.TrimPrefix h "Bearer ")) = some c ∧
      (auth.stringClaim c "email").getD "" = "" ∧
      auth.ExtractUserFromContext parseUnverified ctx =
        auth.Result.err auth.Error.ErrInvalidToken) ∨
    (∃ md h rest c, ctx.md = some md ∧ (md.lookup "authorization").getD [] = h :: rest ∧
      auth.TrimSpace (auth.TrimPrefix h "Bearer ") ≠ "" ∧
      parseUnverified (auth.TrimSpace (auth.TrimPrefix h "Bearer ")) = some c ∧
      (auth.stringClaim c "email").getD "" ≠ "" ∧
      auth.ExtractUserFromContext parseUnverified ctx =
        auth.Result.ok
          ⟨(auth.stringClaim c "email").getD "", (auth.stringClaim c "first_name").getD "",
            (auth.stringClaim c "last_name").getD "", (auth.stringClaim c "role").getD "user"⟩) := by
  unfold auth.ExtractUserFromContext
  cases hmd : ctx.md with
  | none => left; exact ⟨rfl, rfl⟩
  | some md =>
    right
    cases hh : (md.lookup "authorization").getD [] with
    | nil => left; exact ⟨md, rfl, hh, by simp [hh]⟩
    | cons h rest =>
      right
      by_cases ht : auth.TrimSpace (auth.TrimPrefix h "Bearer ") = ""
      · left
        exact ⟨md, h, rest, rfl, hh, ht, by simp [hh, ht]⟩
      · right
        cases hp : parseUnverified (auth.TrimSpace (auth.TrimPrefix h "Bearer ")) with
        | none =>
          left
          exact ⟨md, h, rest, rfl, hh, ht, hp, by simp [hh, ht, hp]⟩
        | some c =>
          right
          by_cases he : (auth.stringClaim c "email").getD "" = ""
          · left
            exact ⟨md, h, rest, c, rfl, hh, ht, hp, he, by simp [hh, ht, hp, he]⟩
          · right
            exact ⟨md, h, rest, c, rfl, hh, ht, hp, he, by simp [hh, ht, hp, he]⟩

/-- C23: in every store and for every request, when the extraction of the identity
fails, each of `ViewUserReceipt`, `ViewAllocations`, `RemoveUserFromTrain` and
`ModifyUserSeat` fails with unauthenticated and the text of the extraction error,
whatever the request holds, and leaves the store unchanged; the service's
`PurchaseTicket`, which takes no context, never fails with unauthenticated; and
the extraction fails for one of these reasons: no metadata, no authorization
header, a token that is empty after trimming, an undecodable token, or no email
claim. -/
theorem C23_unauthenticated_first (parseUnverified : String → Option auth.MapClaims)
    (s : Store) (ctx : auth.Context) (e : auth.Error)
    (hid : auth.ExtractUserFromContext parseUnverified ctx = auth.Result.err e) :
    service.ViewUserReceipt parseUnverified s ctx =
      (service.Reply.fail service.Code.Unauthenticated e.text, s) ∧
    (∀ req, service.ViewAllocations parseUnverified s ctx req =
      (service.Reply.fail service.Code.Unauthenticated e.text, s)) ∧
    (∀ req, service.RemoveUserFromTrain parseUnverified s ctx req =
      (service.Reply.fail service.Code.Unauthenticated e.text, s)) ∧
    (∀ req, service.ModifyUserSeat parseUnverified s ctx req =
      (service.Reply.fail service.Code.Unauthenticated e.text, s)) ∧
    (∀ cfg req msg, (service.PurchaseTicket cfg s req).1 ≠
      service.Reply.fail service.Code.Unauthenticated msg) ∧
    ((ctx.md = none ∧ e = auth.Error.ErrNoMetadata) ∨
      (∃ md, ctx.md = some md ∧ (md.lookup "authorization").getD [] = [] ∧
        e = auth.Error.ErrNoAuthHeader) ∨
      (∃ md h rest, ctx.md = some md ∧ (md.lookup "authorization").getD [] = h :: rest ∧
        auth.TrimSpace (auth.TrimPrefix h "Bearer ") = "" ∧
        e = auth.Error.ErrInvalidTokenFormat) ∨
      (∃ md h rest, ctx.md = some md ∧ (md.lookup "authorization").getD [] = h :: rest ∧
        parseUnverified (auth.TrimSpace (auth.TrimPrefix h "Bearer ")) = none ∧
        e = auth.Error.ErrInvalidToken) ∨
      (∃ md h rest c, ctx.md = some md ∧ (md.lookup "authorization").getD [] = h :: rest ∧
        parseUnverified (auth.TrimSpace (auth.TrimPrefix h "Bearer ")) = some c ∧
        (auth.stringClaim c "email").getD "" = "" ∧ e = auth.Error.ErrInvalidToken)) := by
  refine ⟨?_, ?_, ?_, ?_, ?_, ?_⟩
  · unfold service.ViewUserReceipt
    simp only [hid]
  · intro req
    unfold service.ViewAllocations
    simp only [hid]
  · intro req
    unfold service.RemoveUserFromTrain
    simp only [hid]
  · intro req
    unfold service.ModifyUserSeat
    simp only [hid]
  · intro cfg req msg h
    rcases service_purchase_cases cfg s req with
      ⟨-, hr⟩ | ⟨-, -, hr⟩ | ⟨-, -, hr⟩ | ⟨-, t, -, hr⟩ <;>
    · rw [hr] at h
      cases h
  · rcases extract_cases parseUnverified ctx with
      ⟨hmd, hr⟩ | ⟨md, hmd, hh, hr⟩ | ⟨md, h, rest, hmd, hh, ht, hr⟩ |
      ⟨md, h, rest, hmd, hh, -, hp, hr⟩ | ⟨md, h, rest, c, hmd, hh, -, hp, he, hr⟩ |
      ⟨md, h, rest, c, -, -, -, -, -, hr⟩
    · rw [hr] at hid
      cases hid
      exact Or.inl ⟨hmd, rfl⟩
    · rw [hr] at hid
      cases hid
      exact Or.inr (Or.inl ⟨md, hmd, hh, rfl⟩)
    · rw [hr] at hid
      cases hid
      exact Or.inr (Or.inr (Or.inl ⟨md, h, rest, hmd, hh, ht, rfl⟩))
    · rw [hr] at hid
      cases hid
      exact Or.inr (Or.inr (Or.inr (Or.inl ⟨md, h, rest, hmd, hh, hp, rfl⟩)))
    · rw [hr] at hid
      cases hid
      exact Or.inr (Or.inr (Or.inr (Or.inr ⟨md, h, rest, c, hmd, hh, hp, he, rfl⟩)))
    · rw [hr] at hid
      cases hid

/-- A call without metadata: the extraction fails with `ErrNoMetadata` and a reseat
request with an empty section is answered unauthenticated, not invalid-argument; a
call whose header is `Bearer` followed by blanks fails with unauthenticated too. -/
theorem C23_unauthenticated_first_witness :
    auth.ExtractUserFromContext service.sampleParse ⟨none⟩ =
      auth.Result.err auth.Error.ErrNoMetadata ∧
    auth.ExtractUserFromContext service.sampleParse (service.bearer "  ") =
      auth.Result.err auth.Error.ErrInvalidTokenFormat ∧
    auth.ExtractUserFromContext service.sampleParse (service.bearer "mallory-token") =
      auth.Result.err auth.Error.ErrInvalidToken ∧
    service.ModifyUserSeat service.sampleParse service.twoTickets ⟨none⟩
        ⟨"bob@example.com", "", 0⟩ =
      (service.Reply.fail service.Code.Unauthenticated "no metadata provided",
        service.twoTickets) ∧
    service.ViewUserReceipt service.sampleParse service.twoTickets ⟨none⟩ =
      (service.Reply.fail service.Code.Unauthenticated "no metadata provided",
        service.twoTickets) :=
  ⟨by decide, by decide, by decide,
    (C23_unauthenticated_first service.sampleParse service.twoTickets ⟨none⟩
      auth.Error.ErrNoMetadata (by decide)).2.2.2.1 ⟨"bob@example.com", "", 0⟩,
    (C23_unauthenticated_first service.sampleParse service.twoTickets ⟨none⟩
      auth.Error.ErrNoMetadata (by decide)).1⟩

/-- C24: in every store and for every authenticated caller, admin or not, with or
without an explicit target email, `ModifyUserSeat` with an empty section or a seat
number equal to 0 fails with invalid-argument and leaves the store unchanged. -/
theorem C24_modify_required_fields (parseUnverified : String → Option auth.MapClaims)
    (s : Store) (ctx : auth.Context) (claims : auth.UserClaims)
    (req : service.ModifyUserSeatRequest)
    (hid : auth.ExtractUserFromContext parseUnverified ctx = auth.Result.ok claims)
    (hmissing : req.Section = "" ∨ req.SeatNumber = 0) :
    service.ModifyUserSeat parseUnverified s ctx req =
      (service.Reply.fail service.Code.InvalidArgument "section and seat_number are required",
        s) := by
  unfold service.ModifyUserSeat
  rcases hmissing with h | h <;> simp [hid, h]

/-- The administrator asks to move bob to seat number 0 of section B: the request
is rejected as invalid-argument and the store stays as it was. -/
theorem C24_modify_required_fields_witness :
    auth.ExtractUserFromContext service.sampleParse (service.bearer "admin-token") =
      auth.Result.ok ⟨"root@example.com", "Ann", "Admin", "admin"⟩ ∧
    service.ModifyUserSeat service.sampleParse service.twoTickets
        (service.bearer "admin-token") ⟨"bob@example.com", "B", 0⟩ =
      (service.Reply.fail service.Code.InvalidArgument "section and seat_number are required",
        service.twoTickets) :=
  ⟨by decide,
    C24_modify_required_fields service.sampleParse service.twoTickets
      (service.bearer "admin-token") ⟨"root@example.com", "Ann", "Admin", "admin"⟩
      ⟨"bob@example.com", "B", 0⟩ (by decide) (Or.inr rfl)⟩

theorem trimSpace_empty_iff (x : String) :
    auth.TrimSpace x = "" ↔ ∀ c ∈ x.data, auth.isSpace c = true := by
  have hdrop : ∀ l : List Char,
      (∀ c ∈ l.dropWhile auth.isSpace, auth.isSpace c = true) → l.dropWhile auth.isSpace = [] := by
    intro l
    induction l with
    | nil => intro _; rfl
    | cons a l ih =>
      intro h
      by_cases ha : auth.isSpace a = true
      · rw [List.dropWhile_cons_of_pos ha] at h ⊢
        exact ih h
      · rw [List.dropWhile_cons_of_neg ha] at h
        exact absurd (h a (List.mem_cons_self _ _)) ha
  unfold auth.TrimSpace
  rw [String.ext_iff]
  show ((x.data.dropWhile auth.isSpace).reverse.dropWhile auth.isSpace).reverse = [] ↔ _
  rw [List.reverse_eq_nil_iff, List.dropWhile_eq_nil_iff]
  constructor
  · intro h
    have h₁ : x.data.dropWhile auth.isSpace = [] :=
      hdrop _ (fun c hc => h c (List.mem_reverse.2 hc))
    exact List.dropWhile_eq_nil_iff.1 h₁
  · intro h c hc
    have h₁ : x.data.dropWhile auth.isSpace = [] := List.dropWhile_eq_nil_iff.2 h
    rw [h₁] at hc
    cases hc

theorem extract_of_token (parseUnverified : String → Option auth.MapClaims)
    (ctx : auth.Context) (md : AList (fun _ : String => List String)) (h : String)
    (rest : List String) (token : String)
    (hmd : ctx.md = some md) (hh : (md.lookup "authorization").getD [] = h :: rest)
    (htoken : auth.TrimSpace (auth.TrimPrefix h "Bearer ") = token) :
    auth.ExtractUserFromContext parseUnverified ctx =
      if token = "" then auth.Result.err auth.Error.ErrInvalidTokenFormat
      else
        match parseUnverified token with
        | none => auth.Result.err auth.Error.ErrInvalidToken
        | some c =>
          if (auth.stringClaim c "email").getD "" = "" then
            auth.Result.err auth.Error.ErrInvalidToken
          else
            auth.Result.ok
              ⟨(auth.stringClaim c "email").getD "", (auth.stringClaim c "first_name").getD "",
                (auth.stringClaim c "last_name").getD "",
                (auth.stringClaim c "role").getD "user"⟩ := by
  unfold auth.ExtractUserFromContext
  simp only [hmd, hh, htoken]
  by_cases ht : token = ""
  · simp [ht]
  · simp only [beq_iff_eq, ht, if_false]

/-- C27, as the code has it: `ExtractUserFromContext` fails with
`ErrInvalidTokenFormat` if and only if an authorization value is supplied that,
after removal of a leading "Bearer " when there is one, is empty or white space
only; a value that does not start with "Bearer " is not rejected for that: it is
trimmed of white space and handed whole to the token parser, and the outcome is
`ErrInvalidToken` or the identity according to what the parser decodes from it;
of a value that starts with "Bearer " the rest, trimmed, is handed to the
parser. -/
theorem C27_token_format (parseUnverified : String → Option auth.MapClaims)
    (ctx : auth.Context) :
    (auth.ExtractUserFromContext parseUnverified ctx =
        auth.Result.err auth.Error.ErrInvalidTokenFormat ↔
      ∃ md h rest, ctx.md = some md ∧ (md.lookup "authorization").getD [] = h :: rest ∧
        ∀ c ∈ (auth.TrimPrefix h "Bearer ").data, auth.isSpace c = true) ∧
    (∀ h : String, ("Bearer ".data.isPrefixOf h.data) = false →
      auth.TrimPrefix h "Bearer " = h) ∧
    (∀ t : String, auth.TrimPrefix ("Bearer " ++ t) "Bearer " = t) ∧
    (∀ md h rest, ctx.md = some md → (md.lookup "authorization").getD [] = h :: rest →
      ("Bearer ".data.isPrefixOf h.data) = false →
      auth.ExtractUserFromContext parseUnverified ctx =
        if auth.TrimSpace h = "" then auth.Result.err auth.Error.ErrInvalidTokenFormat
        else
          match parseUnverified (auth.TrimSpace h) with
          | none => auth.Result.err auth.Error.ErrInvalidToken
          | some c =>
            if (auth.stringClaim c "email").getD "" = "" then
              auth.Result.err auth.Error.ErrInvalidToken
            else
              auth.Result.ok
                ⟨(auth.stringClaim c "email").getD "",
                  (auth.stringClaim c "first_name").getD "",
                  (auth.stringClaim c "last_name").getD "",
                  (auth.stringClaim c "role").getD "user"⟩) ∧
    (∀ md t rest, ctx.md = some md →
      (md.lookup "authorization").getD [] = ("Bearer " ++ t) :: rest →
      auth.ExtractUserFromContext parseUnverified ctx =
        if auth.TrimSpace t = "" then auth.Result.err auth.Error.ErrInvalidTokenFormat
        else
          match parseUnverified (auth.TrimSpace t) with
          | none => auth.Result.err auth.Error.ErrInvalidToken
          | some c =>
            if (auth.stringClaim c "email").getD "" = "" then
              auth.Result.err auth.Error.ErrInvalidToken
            else
              auth.Result.ok
                ⟨(auth.stringClaim c "email").getD "",
                  (auth.stringClaim c "first_name").getD "",
                  (auth.stringClaim c "last_name").getD "",
                  (auth.stringClaim c "role").getD "user"⟩) := by
  have hbare : ∀ h : String, ("Bearer ".data.isPrefixOf h.data) = false →
      auth.TrimPrefix h "Bearer " = h := by
    intro h hp
    unfold auth.TrimPrefix
    simp [hp]
  have hpre : ∀ t : String, auth.TrimPrefix ("Bearer " ++ t) "Bearer " = t := by
    intro t
    unfold auth.TrimPrefix
    rw [String.ext_iff]
    simp [String.data_append, List.isPrefixOf]
  refine ⟨?_, hbare, hpre, ?_, ?_⟩
  · rcases extract_cases parseUnverified ctx with
      ⟨hmd, hr⟩ | ⟨md, hmd, hh, hr⟩ | ⟨md, h, rest, hmd, hh, ht, hr⟩ |
      ⟨md, h, rest, hmd, hh, ht, -, hr⟩ | ⟨md, h, rest, c, hmd, hh, ht, -, -, hr⟩ |
      ⟨md, h, rest, c, hmd, hh, ht, -, -, hr⟩
    · rw [hr]
      refine ⟨fun h => (by cases h), ?_⟩
      rintro ⟨md, h, rest, hmd', -⟩
      rw [hmd] at hmd'
      cases hmd'
    · rw [hr]
      refine ⟨fun h => (by cases h), ?_⟩
      rintro ⟨md', h, rest, hmd', hh', -⟩
      rw [hmd] at hmd'
      cases hmd'
      rw [hh] at hh'
      cases hh'
    · rw [hr]
      exact ⟨fun _ => ⟨md, h, rest, hmd, hh, (trimSpace_empty_iff _).1 ht⟩, fun _ => rfl⟩
    · rw [hr]
      refine ⟨fun h => (by cases h), ?_⟩
      rintro ⟨md', h', rest', hmd', hh', hsp⟩
      rw [hmd] at hmd'
      cases hmd'
      rw [hh] at hh'
      cases hh'
      exact absurd ((trimSpace_empty_iff _).2 hsp) ht
    · rw [hr]
      refine ⟨fun h => (by cases h), ?_⟩
      rintro ⟨md', h', rest', hmd', hh', hsp⟩
      rw [hmd] at hmd'
      cases hmd'
      rw [hh] at hh'
      cases hh'
      exact absurd ((trimSpace_empty_iff _).2 hsp) ht
    · rw [hr]
      refine ⟨fun h => (by cases h), ?_⟩
      rintro ⟨md', h', rest', hmd', hh', hsp⟩
      rw [hmd] at hmd'
      cases hmd'
      rw [hh] at hh'
      cases hh'
      exact absurd ((trimSpace_empty_iff _).2 hsp) ht
  · intro md h rest hmd hh hp
    exact extract_of_token parseUnverified ctx md h rest _ hmd hh (by rw [hbare h hp])
  · intro md t rest hmd hh
    exact extract_of_token parseUnverified ctx md _ rest _ hmd hh (by rw [hpre t])

/-- The header `Bearer` followed by blanks is a format error; the bare header
`alice-token` is handed whole to the parser and yields alice's identity, as does
the header `Bearer alice-token`. -/
theorem C27_token_format_witness :
    auth.ExtractUserFromContext service.sampleParse (service.withHeader "Bearer   ") =
      auth.Result.err auth.Error.ErrInvalidTokenFormat ∧
    auth.TrimSpace "alice-token" = "alice-token" ∧
    auth.ExtractUserFromContext service.sampleParse (service.withHeader "alice-token") =
      auth.Result.ok ⟨"alice@example.com", "Alice", "Ames", "user"⟩ ∧
    auth.ExtractUserFromContext service.sampleParse (service.withHeader "Bearer alice-token") =
      auth.Result.ok ⟨"alice@example.com", "Alice", "Ames", "user"⟩ ∧
    auth.ExtractUserFromContext service.sampleParse (service.withHeader "alice-token") =
      (if auth.TrimSpace "alice-token" = "" then
          auth.Result.err auth.Error.ErrInvalidTokenFormat
        else
          match service.sampleParse (auth.TrimSpace "alice-token") with
          | none => auth.Result.err auth.Error.ErrInvalidToken
          | some c =>
            if (auth.stringClaim c "email").getD "" = "" then
              auth.Result.err auth.Error.ErrInvalidToken
            else
              auth.Result.ok
                ⟨(auth.stringClaim c "email").getD "",
                  (auth.stringClaim c "first_name").getD "",
                  (auth.stringClaim c "last_name").getD "",
                  (auth.stringClaim c "role").getD "user"⟩) :=
  ⟨by decide, by decide, by decide, by decide,
    (C27_token_format service.sampleParse (service.withHeader "alice-token")).2.2.2.1
      ((∅ : AList (fun _ : String => List String)).insert "authorization" ["alice-token"])
      "alice-token" [] rfl (by decide) (by decide)⟩

theorem extract_with_header (parseUnverified : String → Option auth.MapClaims) (v : String)
    (h : auth.ExtractUserFromContext parseUnverified (service.withHeader v) =
      auth.Result.err auth.Error.ErrInvalidTokenFormat) :
    auth.TrimSpace (auth.TrimPrefix v "Bearer ") = "" := by
  rcases extract_cases parseUnverified (service.withHeader v) with
    ⟨hmd, -⟩ | ⟨md, hmd, hh, -⟩ | ⟨md, h', rest, hmd, hh, ht, -⟩ |
    ⟨md, h', rest, -, -, -, -, hr⟩ | ⟨md, h', rest, c, -, -, -, -, -, hr⟩ |
    ⟨md, h', rest, c, -, -, -, -, -, hr⟩
  · cases hmd
  · cases hmd
    rw [AList.lookup_insert] at hh
    cases hh
  · cases hmd
    rw [AList.lookup_insert] at hh
    cases hh
    exact ht
  · rw [hr] at h
    cases h
  · rw [hr] at h
    cases h
  · rw [hr] at h
    cases h

/-- C27 as stated fails: the authorization value `alice-token` does not start with
"Bearer ", yet no token parser makes the extraction fail with
`ErrInvalidTokenFormat`, and with the sample parser the extraction returns the
identity of alice. -/
theorem C27_bare_token_counterexample :
    ("Bearer ".data.isPrefixOf "alice-token".data) = false ∧
    auth.ExtractUserFromContext service.sampleParse (service.withHeader "alice-token") =
      auth.Result.ok ⟨"alice@example.com", "Alice", "Ames", "user"⟩ ∧
    ¬ ∃ parseUnverified,
      auth.ExtractUserFromContext parseUnverified (service.withHeader "alice-token") =
        auth.Result.err auth.Error.ErrInvalidTokenFormat := by
  refine ⟨by decide, by decide, ?_⟩
  rintro ⟨parseUnverified, h⟩
  have ht := extract_with_header parseUnverified "alice-token" h
  revert ht
  decide

/-- C28: when the credential's token decodes to a claim set `c`,
`ExtractUserFromContext` succeeds if and only if `c["email"]` is a non-empty
string, and otherwise fails with `ErrInvalidToken`; the identity it returns has
that email, the first and last name of the string claims `first_name` and
`last_name` or the empty string, and the role of the string claim `role` or "user"
when the claim is absent or no string; and every identity that any extraction
returns has a non-empty email. -/
theorem C28_claims_to_identity (parseUnverified : String → Option auth.MapClaims)
    (ctx : auth.Context) (md : AList (fun _ : String => List String)) (h : String)
    (rest : List String) (c : auth.MapClaims)
    (hmd : ctx.md = some md) (hh : (md.lookup "authorization").getD [] = h :: rest)
    (htoken : auth.TrimSpace (auth.TrimPrefix h "Bearer ") ≠ "")
    (hc : parseUnverified (auth.TrimSpace (auth.TrimPrefix h "Bearer ")) = some c) :
    ((∃ id, auth.ExtractUserFromContext parseUnverified ctx = auth.Result.ok id) ↔
      ∃ email, c.lookup "email" = some (auth.ClaimValue.str email) ∧ email ≠ "") ∧
    (auth.ExtractUserFromContext parseUnverified ctx =
        auth.Result.err auth.Error.ErrInvalidToken ↔
      ¬ ∃ email, c.lookup "email" = some (auth.ClaimValue.str email) ∧ email ≠ "") ∧
    (∀ id, auth.ExtractUserFromContext parseUnverified ctx = auth.Result.ok id →
      c.lookup "email" = some (auth.ClaimValue.str id.Email) ∧
      id.FirstName = (match c.lookup "first_name" with
        | some (auth.ClaimValue.str v) => v
        | _ => "") ∧
      id.LastName = (match c.lookup "last_name" with
        | some (auth.ClaimValue.str v) => v
        | _ => "") ∧
      id.Role = (match c.lookup "role" with
        | some (auth.ClaimValue.str v) => v
        | _ => "user")) ∧
    (∀ parseUnverified' ctx' id,
      auth.ExtractUserFromContext parseUnverified' ctx' = auth.Result.ok id → id.Email ≠ "") := by
  have hstr : ∀ (k d : String), (auth.stringClaim c k).getD d =
      (match c.lookup k with
        | some (auth.ClaimValue.str v) => v
        | _ => d) := by
    intro k d
    unfold auth.stringClaim
    cases c.lookup k with
    | none => rfl
    | some v => cases v <;> rfl
  have hemail : (auth.stringClaim c "email").getD "" ≠ "" ↔
      ∃ email, c.lookup "email" = some (auth.ClaimValue.str email) ∧ email ≠ "" := by
    rw [hstr]
    cases c.lookup "email" with
    | none => simp
    | some v =>
      cases v with
      | str e => simp
      | other => simp
  have hget : ∀ {md' h' rest'}, ctx.md = some md' →
      (md'.lookup "authorization").getD [] = h' :: rest' → h' = h := by
    intro md' h' rest' hmd' hh'
    rw [hmd] at hmd'
    cases hmd'
    rw [hh] at hh'
    cases hh'
    rfl
  refine ⟨?_, ?_, ?_, ?_⟩
  · rw [← hemail]
    rcases extract_cases parseUnverified ctx with
      ⟨hmd', -⟩ | ⟨md', hmd', hh', -⟩ | ⟨md', h', rest', hmd', hh', ht, -⟩ |
      ⟨md', h', rest', hmd', hh', -, hp, -⟩ | ⟨md', h', rest', c', hmd', hh', -, hp, he, hr⟩ |
      ⟨md', h', rest', c', hmd', hh', -, hp, he, hr⟩
    · rw [hmd] at hmd'
      cases hmd'
    · rw [hmd] at hmd'
      cases hmd'
      rw [hh] at hh'
      cases hh'
    · rw [hget hmd' hh'] at ht
      exact absurd ht htoken
    · rw [hget hmd' hh', hc] at hp
      cases hp
    · rw [hget hmd' hh', hc] at hp
      cases hp
      rw [hr]
      refine ⟨?_, fun h => absurd he h⟩
      rintro ⟨id, h⟩
      cases h
    · rw [hget hmd' hh', hc] at hp
      cases hp
      rw [hr]
      exact ⟨fun _ => he, fun _ => ⟨_, rfl⟩⟩
  · rw [← hemail]
    rcases extract_cases parseUnverified ctx with
      ⟨hmd', -⟩ | ⟨md', hmd', hh', -⟩ | ⟨md', h', rest', hmd', hh', ht, -⟩ |
      ⟨md', h', rest', hmd', hh', -, hp, -⟩ | ⟨md', h', rest', c', hmd', hh', -, hp, he, hr⟩ |
      ⟨md', h', rest', c', hmd', hh', -, hp, he, hr⟩
    · rw [hmd] at hmd'
      cases hmd'
    · rw [hmd] at hmd'
      cases hmd'
      rw [hh] at hh'
      cases hh'
    · rw [hget hmd' hh'] at ht
      exact absurd ht htoken
    · rw [hget hmd' hh', hc] at hp
      cases hp
    · rw [hget hmd' hh', hc] at hp
      cases hp
      rw [hr]
      exact ⟨fun _ => not_not.2 he, fun _ => rfl⟩
    · rw [hget hmd' hh', hc] at hp
      cases hp
      rw [hr]
      refine ⟨fun h => (by cases h), fun h => absurd he h⟩
  · intro id hid
    rcases extract_cases parseUnverified ctx with
      ⟨-, hr⟩ | ⟨md', -, -, hr⟩ | ⟨md', h', rest', -, -, -, hr⟩ |
      ⟨md', h', rest', -, -, -, -, hr⟩ | ⟨md', h', rest', c', -, -, -, -, -, hr⟩ |
      ⟨md', h', rest', c', hmd', hh', -, hp, he, hr⟩
    · rw [hr] at hid; cases hid
    · rw [hr] at hid; cases hid
    · rw [hr] at hid; cases hid
    · rw [hr] at hid; cases hid
    · rw [hr] at hid; cases hid
    · rw [hget hmd' hh', hc] at hp
      cases hp
      rw [hr] at hid
      cases hid
      refine ⟨?_, hstr _ _, hstr _ _, hstr _ _⟩
      show c.lookup "email" = some (auth.ClaimValue.str ((auth.stringClaim c "email").getD ""))
      obtain ⟨email, hl, -⟩ := hemail.1 he
      rw [hstr, hl]
  · intro parseUnverified' ctx' id hid
    rcases extract_cases parseUnverified' ctx' with
      ⟨-, hr⟩ | ⟨md', -, -, hr⟩ | ⟨md', h', rest', -, -, -, hr⟩ |
      ⟨md', h', rest', -, -, -, -, hr⟩ | ⟨md', h', rest', c', -, -, -, -, -, hr⟩ |
      ⟨md', h', rest', c', -, -, -, -, he, hr⟩
    · rw [hr] at hid; cases hid
    · rw [hr] at hid; cases hid
    · rw [hr] at hid; cases hid
    · rw [hr] at hid; cases hid
    · rw [hr] at hid; cases hid
    · rw [hr] at hid
      cases hid
      exact he

/-- A token whose claim set has the email only: the extraction succeeds with empty
names and the role "user". -/
theorem C28_claims_to_identity_witness :
    auth.ExtractUserFromContext service.emailOnlyParse (service.bearer "some-token") =
      auth.Result.ok ⟨"test@example.com", "", "", "user"⟩ ∧
    ((∃ id, auth.ExtractUserFromContext service.emailOnlyParse (service.bearer "some-token") =
        auth.Result.ok id) ↔
      ∃ email, ((∅ : auth.MapClaims).insert "email"
        (auth.ClaimValue.str "test@example.com")).lookup "email" =
          some (auth.ClaimValue.str email) ∧ email ≠ "") :=
  ⟨by decide,
    (C28_claims_to_identity service.emailOnlyParse (service.bearer "some-token")
      ((∅ : AList (fun _ : String => List String)).insert "authorization"
        ["Bearer " ++ "some-token"])
      "Bearer some-token" [] ((∅ : auth.MapClaims).insert "email"
        (auth.ClaimValue.str "test@example.com"))
      rfl (by decide) (by decide) rfl).1⟩

theorem remove_frame (s : Store) (email e : String) (he : e ≠ email) :
    (RemoveTicket s email).2.tickets.lookup e = s.tickets.lookup e := by
  rcases remove_cases s email with ⟨-, hr⟩ | ⟨t, -, hr⟩
  · rw [hr]
  · rw [hr]
    show AList.lookup e (AList.erase email s.tickets) = _
    rw [lookup_erase_eq, if_neg he]

theorem modify_frame (s : Store) (email newSection : String) (newSeatNumber : Int) (e : String)
    (he : e ≠ email) :
    (ModifySeat s email newSection newSeatNumber).2.tickets.lookup e = s.tickets.lookup e := by
  rcases modify_cases s email newSection newSeatNumber with
    ⟨-, hr⟩ | ⟨-, -, hr⟩ | ⟨-, -, hr⟩ | ⟨-, -, -, hr⟩ | ⟨-, -, t, -, hr⟩
  · rw [hr]
  · rw [hr]
  · rw [hr]
  · rw [hr]
  · rw [hr]
    show AList.lookup e (AList.insert email _ s.tickets) = _
    rw [lookup_insert_eq, if_neg he]

theorem removeTarget_store (s : Store) (email : String) :
    (service.removeTarget s email).2 = (RemoveTicket s email).2 ∧
    ((service.removeTarget s email).1 =
        service.Reply.ok ⟨true, "user removed from train successfully"⟩ ↔
      (RemoveTicket s email).1 = none) := by
  rcases removeTarget_cases s email with ⟨-, he, hr⟩ | ⟨t, -, he, hr⟩
  · rw [hr, he]
    rcases remove_cases s email with ⟨-, hs⟩ | ⟨t, -, hs⟩
    · rw [hs]
      exact ⟨rfl, ⟨fun h => (by cases h), fun h => (by cases h)⟩⟩
    · rw [hs] at he
      cases he
  · rw [hr, he]
    exact ⟨rfl, ⟨fun _ => rfl, fun _ => rfl⟩⟩

theorem modifyTarget_store (s : Store) (email : String) (req : service.ModifyUserSeatRequest) :
    (service.modifyTarget s email req).2 =
      (ModifySeat s email req.Section req.SeatNumber).2 ∧
    (∀ t, (ModifySeat s email req.Section req.SeatNumber).1 = Result.ok t →
      (service.modifyTarget s email req).1 =
        service.Reply.ok (service.convertTicketToReceipt t)) ∧
    ((∃ r, (service.modifyTarget s email req).1 = service.Reply.ok r) ↔
      ∃ t, (ModifySeat s email req.Section req.SeatNumber).1 = Result.ok t) := by
  have hfail : ∀ e, (ModifySeat s email req.Section req.SeatNumber).1 = Result.err e →
      (ModifySeat s email req.Section req.SeatNumber).2 = s := by
    intro e he
    rcases modify_cases s email req.Section req.SeatNumber with
      ⟨-, hr⟩ | ⟨-, -, hr⟩ | ⟨-, -, hr⟩ | ⟨-, -, -, hr⟩ | ⟨-, -, t, -, hr⟩
    · rw [hr]
    · rw [hr]
    · rw [hr]
    · rw [hr]
    · rw [hr] at he
      cases he
  rcases modifyTarget_cases s email req with
    ⟨text, he, hr⟩ | ⟨he, hr⟩ | ⟨he, hr⟩ | ⟨t, he, hr⟩
  · rw [hr, he, hfail _ he]
    refine ⟨rfl, fun t h => (by cases h), ⟨?_, ?_⟩⟩
    · rintro ⟨r, h⟩
      cases h
    · rintro ⟨t, h⟩
      cases h
  · rw [hr, he, hfail _ he]
    refine ⟨rfl, fun t h => (by cases h), ⟨?_, ?_⟩⟩
    · rintro ⟨r, h⟩
      cases h
    · rintro ⟨t, h⟩
      cases h
  · rw [hr, he, hfail _ he]
    refine ⟨rfl, fun t h => (by cases h), ⟨?_, ?_⟩⟩
    · rintro ⟨r, h⟩
      cases h
    · rintro ⟨t, h⟩
      cases h
  · rw [hr, he]
    refine ⟨rfl, ?_, ⟨fun _ => ⟨t, rfl⟩, fun _ => ⟨_, rfl⟩⟩⟩
    intro t' h
    cases h
    rfl

theorem modifySeat_missing (s : Store) (email newSection : String) (newSeatNumber : Int)
    (h : newSection = "" ∨ newSeatNumber = 0) :
    ∃ text, ModifySeat s email newSection newSeatNumber =
      (Result.err (Error.wrapped Error.ErrInvalidSeat text), s) := by
  by_cases hs : newSection = "A" ∨ newSection = "B"
  · have hn : ¬ (1 ≤ newSeatNumber ∧ newSeatNumber ≤ 10) := by
      rcases h with h | h
      · rcases hs with hs | hs <;> rw [hs] at h <;> exact absurd h (by decide)
      · rw [h]
        decide
    exact ⟨_, (modify_invalid s email newSection newSeatNumber).2 ⟨hs, hn⟩⟩
  · exact ⟨_, (modify_invalid s email newSection newSeatNumber).1 hs⟩

theorem modify_applied {parseUnverified : String → Option auth.MapClaims} {s : Store}
    {ctx : auth.Context} {claims : auth.UserClaims}
    (hid : auth.ExtractUserFromContext parseUnverified ctx = auth.Result.ok claims)
    (req : service.ModifyUserSeatRequest) (hmay : req.Email = "" ∨ claims.Role = "admin") :
    (service.ModifyUserSeat parseUnverified s ctx req).2 =
      (ModifySeat s (if req.Email = "" then claims.Email else req.Email) req.Section
        req.SeatNumber).2 ∧
    (∀ t, (ModifySeat s (if req.Email = "" then claims.Email else req.Email) req.Section
        req.SeatNumber).1 = Result.ok t →
      (service.ModifyUserSeat parseUnverified s ctx req).1 =
        service.Reply.ok (service.convertTicketToReceipt t)) ∧
    ((∃ r, (service.ModifyUserSeat parseUnverified s ctx req).1 = service.Reply.ok r) ↔
      ∃ t, (ModifySeat s (if req.Email = "" then claims.Email else req.Email) req.Section
        req.SeatNumber).1 = Result.ok t) := by
  by_cases hmiss : req.Section = "" ∨ req.SeatNumber = 0
  · have hsvc : service.ModifyUserSeat parseUnverified s ctx req =
        (service.Reply.fail service.Code.InvalidArgument
          "section and seat_number are required", s) := by
      unfold service.ModifyUserSeat
      rcases hmiss with h | h <;> simp [hid, h]
    obtain ⟨text, hst⟩ := modifySeat_missing s
      (if req.Email = "" then claims.Email else req.Email) req.Section req.SeatNumber hmiss
    rw [hsvc, hst]
    refine ⟨rfl, fun t h => (by cases h), ⟨?_, ?_⟩⟩
    · rintro ⟨r, h⟩
      cases h
    · rintro ⟨t, h⟩
      cases h
  · rw [not_or] at hmiss
    rw [modify_resolved hid hmiss.1 hmiss.2 hmay]
    exact modifyTarget_store s (if req.Email = "" then claims.Email else req.Email) req

/-- C25, as the code has it: for an authenticated caller, `RemoveUserFromTrain`
and `ModifyUserSeat` apply the store's `RemoveTicket` and `ModifySeat` to the
caller's own email when the request's target email is empty, for admins and
non-admins alike, and to the target email when the caller is "admin" and the
target email is non-empty: the store after the call is the store after that store
call, and the reply is a success exactly when that store call succeeds; the
caller's own ticket, if any, is left unchanged provided the target is not the
caller's own email. -/
theorem C25_target_resolution (parseUnverified : String → Option auth.MapClaims) (s : Store)
    (ctx : auth.Context) (claims : auth.UserClaims)
    (hid : auth.ExtractUserFromContext parseUnverified ctx = auth.Result.ok claims) :
    (∀ req : service.RemoveUserFromTrainRequest, (req.Email = "" ∨ claims.Role = "admin") →
      (service.RemoveUserFromTrain parseUnverified s ctx req).2 =
        (RemoveTicket s (if req.Email = "" then claims.Email else req.Email)).2 ∧
      ((service.RemoveUserFromTrain parseUnverified s ctx req).1 =
          service.Reply.ok ⟨true, "user removed from train successfully"⟩ ↔
        (RemoveTicket s (if req.Email = "" then claims.Email else req.Email)).1 = none) ∧
      ((if req.Email = "" then claims.Email else req.Email) ≠ claims.Email →
        (service.RemoveUserFromTrain parseUnverified s ctx req).2.tickets.lookup claims.Email =
          s.tickets.lookup claims.Email)) ∧
    (∀ req : service.ModifyUserSeatRequest, (req.Email = "" ∨ claims.Role = "admin") →
      (service.ModifyUserSeat parseUnverified s ctx req).2 =
        (ModifySeat s (if req.Email = "" then claims.Email else req.Email) req.Section
          req.SeatNumber).2 ∧
      (∀ t, (ModifySeat s (if req.Email = "" then claims.Email else req.Email) req.Section
          req.SeatNumber).1 = Result.ok t →
        (service.ModifyUserSeat parseUnverified s ctx req).1 =
          service.Reply.ok (service.convertTicketToReceipt t)) ∧
      ((∃ r, (service.ModifyUserSeat parseUnverified s ctx req).1 = service.Reply.ok r) ↔
        ∃ t, (ModifySeat s (if req.Email = "" then claims.Email else req.Email) req.Section
          req.SeatNumber).1 = Result.ok t) ∧
      ((if req.Email = "" then claims.Email else req.Email) ≠ claims.Email →
        (service.ModifyUserSeat parseUnverified s ctx req).2.tickets.lookup claims.Email =
          s.tickets.lookup claims.Email)) := by
  refine ⟨?_, ?_⟩
  · intro req hmay
    rw [remove_resolved hid hmay]
    obtain ⟨h₁, h₂⟩ := removeTarget_store s (if req.Email = "" then claims.Email else req.Email)
    refine ⟨h₁, h₂, fun hne => ?_⟩
    rw [h₁]
    exact remove_frame s _ _ (Ne.symm hne)
  · intro req hmay
    obtain ⟨h₁, h₂, h₃⟩ := modify_applied (s := s) hid req hmay
    refine ⟨h₁, h₂, h₃, fun hne => ?_⟩
    rw [h₁]
    exact modify_frame s _ _ _ _ (Ne.symm hne)

/-- With the administrator ann on A1 and bob on A2, ann removes bob and, on the
same store, moves bob to B4: the store calls go to bob's email, and ann's own
ticket stays. -/
theorem C25_target_resolution_witness :
    auth.ExtractUserFromContext service.sampleParse (service.bearer "admin-token") =
      auth.Result.ok ⟨"root@example.com", "Ann", "Admin", "admin"⟩ ∧
    service.adminTickets.tickets.lookup "root@example.com" =
      some ⟨"London", "France", ann, 2000, ⟨"A", 1⟩⟩ ∧
    (service.RemoveUserFromTrain service.sampleParse service.adminTickets
        (service.bearer "admin-token") ⟨"bob@example.com"⟩).2.tickets.lookup
        "bob@example.com" = none ∧
    (service.ModifyUserSeat service.sampleParse service.adminTickets
        (service.bearer "admin-token") ⟨"bob@example.com", "B", 4⟩).2.tickets.lookup
        "bob@example.com" = some ⟨"London", "France", bob, 2000, ⟨"B", 4⟩⟩ ∧
    (service.RemoveUserFromTrain service.sampleParse service.adminTickets
        (service.bearer "admin-token") ⟨"bob@example.com"⟩).2.tickets.lookup
        "root@example.com" = service.adminTickets.tickets.lookup "root@example.com" ∧
    (service.ModifyUserSeat service.sampleParse service.adminTickets
        (service.bearer "admin-token") ⟨"bob@example.com", "B", 4⟩).2.tickets.lookup
        "root@example.com" = service.adminTickets.tickets.lookup "root@example.com" :=
  ⟨by decide, by decide, by decide, by decide,
    ((C25_target_resolution service.sampleParse service.adminTickets
      (service.bearer "admin-token") ⟨"root@example.com", "Ann", "Admin", "admin"⟩
      (by decide)).1 ⟨"bob@example.com"⟩ (Or.inr rfl)).2.2 (by decide),
    ((C25_target_resolution service.sampleParse service.adminTickets
      (service.bearer "admin-token") ⟨"root@example.com", "Ann", "Admin", "admin"⟩
      (by decide)).2 ⟨"bob@example.com", "B", 4⟩ (Or.inr rfl)).2.2.2 (by decide)⟩

/-- C25 as stated fails: the administrator ann, who holds the ticket on A1, calls
`RemoveUserFromTrain` with her own email as the non-empty target; the call
succeeds and her own ticket is not left unchanged, it is removed. -/
theorem C25_admin_self_target_counterexample :
    auth.ExtractUserFromContext service.sampleParse (service.bearer "admin-token") =
      auth.Result.ok ⟨"root@example.com", "Ann", "Admin", "admin"⟩ ∧
    service.adminTickets.tickets.lookup "root@example.com" =
      some ⟨"London", "France", ann, 2000, ⟨"A", 1⟩⟩ ∧
    (service.RemoveUserFromTrain service.sampleParse service.adminTickets
        (service.bearer "admin-token") ⟨"root@example.com"⟩).1 =
      service.Reply.ok ⟨true, "user removed from train successfully"⟩ ∧
    (service.RemoveUserFromTrain service.sampleParse service.adminTickets
        (service.bearer "admin-token") ⟨"root@example.com"⟩).2.tickets.lookup
        "root@example.com" = none ∧
    (service.ModifyUserSeat service.sampleParse service.adminTickets
        (service.bearer "admin-token") ⟨"root@example.com", "B", 3⟩).2.tickets.lookup
        "root@example.com" = some ⟨"London", "France", ann, 2000, ⟨"B", 3⟩⟩ := by
  refine ⟨by decide, by decide, by decide, by decide, by decide⟩

/-- C26, what the code does: `RemoveUserFromTrain` returns permission-denied if
and only if the caller is authenticated, is no "admin" and supplies a non-empty
target email, and `ModifyUserSeat` if and only if, besides, the section is
non-empty and the seat number is not 0; the target email is not compared with the
caller's own email, so a non-admin who supplies their own email as the explicit
target is denied, with the store unchanged, whereas the same caller with an empty
target email has the store's `RemoveTicket` or `ModifySeat` applied to their own
email. -/
theorem C26_permission_denied_iff (parseUnverified : String → Option auth.MapClaims)
    (s : Store) (ctx : auth.Context) :
    (∀ req : service.RemoveUserFromTrainRequest,
      (∃ msg, (service.RemoveUserFromTrain parseUnverified s ctx req).1 =
          service.Reply.fail service.Code.PermissionDenied msg) ↔
        ∃ claims, auth.ExtractUserFromContext parseUnverified ctx = auth.Result.ok claims ∧
          claims.Role ≠ "admin" ∧ req.Email ≠ "") ∧
    (∀ req : service.ModifyUserSeatRequest,
      (∃ msg, (service.ModifyUserSeat parseUnverified s ctx req).1 =
          service.Reply.fail service.Code.PermissionDenied msg) ↔
        ∃ claims, auth.ExtractUserFromContext parseUnverified ctx = auth.Result.ok claims ∧
          req.Section ≠ "" ∧ req.SeatNumber ≠ 0 ∧ claims.Role ≠ "admin" ∧ req.Email ≠ "") ∧
    (∀ claims (req : service.RemoveUserFromTrainRequest),
      auth.ExtractUserFromContext parseUnverified ctx = auth.Result.ok claims →
      claims.Role ≠ "admin" → req.Email ≠ "" → req.Email = claims.Email →
      service.RemoveUserFromTrain parseUnverified s ctx req =
        (service.Reply.fail service.Code.PermissionDenied "only admin can remove other users",
          s)) ∧
    (∀ claims (req : service.ModifyUserSeatRequest),
      auth.ExtractUserFromContext parseUnverified ctx = auth.Result.ok claims →
      claims.Role ≠ "admin" → req.Section ≠ "" → req.SeatNumber ≠ 0 → req.Email ≠ "" →
      req.Email = claims.Email →
      service.ModifyUserSeat parseUnverified s ctx req =
        (service.Reply.fail service.Code.PermissionDenied
          "only admin can modify other users' seats", s)) ∧
    (∀ claims (req : service.RemoveUserFromTrainRequest),
      auth.ExtractUserFromContext parseUnverified ctx = auth.Result.ok claims →
      req.Email = "" →
      (service.RemoveUserFromTrain parseUnverified s ctx req).2 =
        (RemoveTicket s claims.Email).2 ∧
      ((service.RemoveUserFromTrain parseUnverified s ctx req).1 =
          service.Reply.ok ⟨true, "user removed from train successfully"⟩ ↔
        (RemoveTicket s claims.Email).1 = none)) ∧
    (∀ claims (req : service.ModifyUserSeatRequest),
      auth.ExtractUserFromContext parseUnverified ctx = auth.Result.ok claims →
      req.Email = "" →
      (service.ModifyUserSeat parseUnverified s ctx req).2 =
        (ModifySeat s claims.Email req.Section req.SeatNumber).2 ∧
      (∀ t, (ModifySeat s claims.Email req.Section req.SeatNumber).1 = Result.ok t →
        (service.ModifyUserSeat parseUnverified s ctx req).1 =
          service.Reply.ok (service.convertTicketToReceipt t))) := by
  have hdenyR : ∀ claims (req : service.RemoveUserFromTrainRequest),
      auth.ExtractUserFromContext parseUnverified ctx = auth.Result.ok claims →
      claims.Role ≠ "admin" → req.Email ≠ "" →
      service.RemoveUserFromTrain parseUnverified s ctx req =
        (service.Reply.fail service.Code.PermissionDenied "only admin can remove other users",
          s) := by
    intro claims req hid hrole he
    unfold service.RemoveUserFromTrain
    simp [hid, he, isAdmin_false hrole]
  have hdenyM : ∀ claims (req : service.ModifyUserSeatRequest),
      auth.ExtractUserFromContext parseUnverified ctx = auth.Result.ok claims →
      claims.Role ≠ "admin" → req.Section ≠ "" → req.SeatNumber ≠ 0 → req.Email ≠ "" →
      service.ModifyUserSeat parseUnverified s ctx req =
        (service.Reply.fail service.Code.PermissionDenied
          "only admin can modify other users' seats", s) := by
    intro claims req hid hrole hsec hnum he
    unfold service.ModifyUserSeat
    simp [hid, he, hsec, hnum, isAdmin_false hrole]
  refine ⟨?_, ?_, fun claims req hid hrole he _ => hdenyR claims req hid hrole he,
    fun claims req hid hrole hsec hnum he _ => hdenyM claims req hid hrole hsec hnum he,
    ?_, ?_⟩
  rotate_left 2
  · intro claims req hid he
    have hres := @remove_resolved parseUnverified s ctx claims req hid (Or.inl he)
    rw [if_pos he] at hres
    rw [hres]
    exact removeTarget_store s claims.Email
  · intro claims req hid he
    have hres := modify_applied (s := s) hid req (Or.inl he)
    rw [if_pos he] at hres
    exact ⟨hres.1, hres.2.1⟩
  · intro req
    constructor
    · rintro ⟨msg, h⟩
      cases hid : auth.ExtractUserFromContext parseUnverified ctx with
      | err e =>
        unfold service.RemoveUserFromTrain at h
        simp only [hid] at h
        cases h
      | ok claims =>
        refine ⟨claims, rfl, ?_, ?_⟩
        · intro hrole
          rw [remove_resolved hid (Or.inr hrole)] at h
          rcases removeTarget_cases s (if req.Email = "" then claims.Email else req.Email) with
            ⟨-, -, hr⟩ | ⟨t, -, -, hr⟩ <;>
          · rw [hr] at h
            cases h
        · intro he
          rw [remove_resolved hid (Or.inl he)] at h
          rcases removeTarget_cases s (if req.Email = "" then claims.Email else req.Email) with
            ⟨-, -, hr⟩ | ⟨t, -, -, hr⟩ <;>
          · rw [hr] at h
            cases h
    · rintro ⟨claims, hid, hrole, he⟩
      exact ⟨_, by rw [hdenyR claims req hid hrole he]⟩
  · intro req
    constructor
    · rintro ⟨msg, h⟩
      cases hid : auth.ExtractUserFromContext parseUnverified ctx with
      | err e =>
        unfold service.ModifyUserSeat at h
        simp only [hid] at h
        cases h
      | ok claims =>
        have hsn : req.Section ≠ "" ∧ req.SeatNumber ≠ 0 := by
          by_contra hc
          have hmissing : req.Section = "" ∨ req.SeatNumber = 0 := by
            by_cases h₁ : req.Section = ""
            · exact Or.inl h₁
            · by_cases h₂ : req.SeatNumber = 0
              · exact Or.inr h₂
              · exact absurd ⟨h₁, h₂⟩ hc
          have hr : service.ModifyUserSeat parseUnverified s ctx req =
              (service.Reply.fail service.Code.InvalidArgument
                "section and seat_number are required", s) := by
            unfold service.ModifyUserSeat
            rcases hmissing with h' | h' <;> simp [hid, h']
          rw [hr] at h
          cases h
        refine ⟨claims, rfl, hsn.1, hsn.2, ?_, ?_⟩
        · intro hrole
          rw [modify_resolved hid hsn.1 hsn.2 (Or.inr hrole)] at h
          rcases modifyTarget_cases s (if req.Email = "" then claims.Email else req.Email)
              req with ⟨text, -, hr⟩ | ⟨-, hr⟩ | ⟨-, hr⟩ | ⟨t, -, hr⟩ <;>
          · rw [hr] at h
            cases h
        · intro he
          rw [modify_resolved hid hsn.1 hsn.2 (Or.inl he)] at h
          rcases modifyTarget_cases s (if req.Email = "" then claims.Email else req.Email)
              req with ⟨text, -, hr⟩ | ⟨-, hr⟩ | ⟨-, hr⟩ | ⟨t, -, hr⟩ <;>
          · rw [hr] at h
            cases h
    · rintro ⟨claims, hid, hsec, hnum, hrole, he⟩
      exact ⟨_, by rw [hdenyM claims req hid hrole hsec hnum he]⟩

/-- The failing input of C26: with alice on A1 and bob on A2, alice, whose role is
"user", names her own email as the target; `RemoveUserFromTrain` and
`ModifyUserSeat` answer permission-denied and her ticket stays, while the same
calls with an empty target email remove her ticket and move her to B5. -/
theorem C26_permission_denied_iff_witness :
    auth.ExtractUserFromContext service.sampleParse (service.bearer "alice-token") =
      auth.Result.ok ⟨"alice@example.com", "Alice", "Ames", "user"⟩ ∧
    service.twoTickets.tickets.lookup "alice@example.com" =
      some ⟨"London", "France", alice, 2000, ⟨"A", 1⟩⟩ ∧
    (service.ModifyUserSeat service.sampleParse service.twoTickets
        (service.bearer "alice-token") ⟨"alice@example.com", "B", 5⟩).1 =
      service.Reply.fail service.Code.PermissionDenied
        "only admin can modify other users' seats" ∧
    (service.RemoveUserFromTrain service.sampleParse service.twoTickets
        (service.bearer "alice-token") ⟨""⟩).1 =
      service.Reply.ok ⟨true, "user removed from train successfully"⟩ ∧
    (service.RemoveUserFromTrain service.sampleParse service.twoTickets
        (service.bearer "alice-token") ⟨""⟩).2.tickets.lookup "alice@example.com" = none ∧
    (service.ModifyUserSeat service.sampleParse service.twoTickets
        (service.bearer "alice-token") ⟨"", "B", 5⟩).1 =
      service.Reply.ok ⟨"London", "France", ⟨"Alice", "Ames", "alice@example.com"⟩, 2000,
        ⟨"B", 5⟩⟩ ∧
    service.RemoveUserFromTrain service.sampleParse service.twoTickets
        (service.bearer "alice-token") ⟨"alice@example.com"⟩ =
      (service.Reply.fail service.Code.PermissionDenied "only admin can remove other users",
        service.twoTickets) :=
  ⟨by decide, by decide, by decide, by decide, by decide, by decide,
    (C26_permission_denied_iff service.sampleParse service.twoTickets
      (service.bearer "alice-token")).2.2.1 ⟨"alice@example.com", "Alice", "Ames", "user"⟩
      ⟨"alice@example.com"⟩ (by decide) (by decide) (by decide) (by decide)⟩

/-! ## Successive purchases on any store -/

theorem find_eq_head_filter {α : Type} (p : α → Bool) (l : List α) :
    l.find? p = (l.filter p).head? := by
  induction l with
  | nil => rfl
  | cons a l ih =>
    by_cases h : p a = true
    · rw [List.find?_cons_of_pos _ h, List.filter_cons_of_pos h]
      rfl
    · rw [List.find?_cons_of_neg _ h, List.filter_cons_of_neg h]
      exact ih

theorem findNext_free (s : Store) :
    findNextAvailableSeat s =
      match freeSeats s with
      | [] => Result.err Error.ErrTrainFull
      | t :: _ => Result.ok t := by
  rw [findNext_eq, find_eq_head_filter]
  unfold freeSeats
  cases allSeats.filter (fun seat => !s.seatAt (key seat)) <;> rfl

theorem freeSeats_nodup (s : Store) : (freeSeats s).Nodup :=
  allSeats_nodup.sublist (List.filter_sublist _)

theorem mem_freeSeats {s : Store} {seat : Seat} :
    seat ∈ freeSeats s ↔ seat ∈ allSeats ∧ s.seatAt (key seat) = false := by
  unfold freeSeats
  rw [List.mem_filter, Bool.not_eq_true']

theorem freeSeats_after {T T' : AList (fun _ : String => Ticket)}
    {S : AList (fun _ : String => Bool)} {t : Seat} {rest : List Seat}
    (h : freeSeats ⟨T, S⟩ = t :: rest) :
    freeSeats ⟨T', S.insert (key t) true⟩ = rest := by
  have hnd := freeSeats_nodup ⟨T, S⟩
  have ht : t ∈ allSeats := (mem_freeSeats.1 (by rw [h]; exact List.mem_cons_self _ _)).1
  have hstep : freeSeats ⟨T', S.insert (key t) true⟩ =
      (freeSeats ⟨T, S⟩).filter (fun x => decide (x ≠ t)) := by
    unfold freeSeats
    rw [List.filter_filter]
    apply List.filter_congr
    intro x hx
    have hkey : key x = key t ↔ x = t := ⟨fun hk => key_inj hx ht hk, fun hk => by rw [hk]⟩
    have hiff : (Store.mk T' (S.insert (key t) true)).seatAt (key x) = true ↔
        key x = key t ∨ (Store.mk T S).seatAt (key x) = true :=
      seatAt_insert T' S (key t) (key x)
    by_cases hxt : x = t
    · have : (Store.mk T' (S.insert (key t) true)).seatAt (key x) = true :=
        hiff.2 (Or.inl (hkey.2 hxt))
      rw [this]
      simp [hxt]
    · cases hold : (Store.mk T S).seatAt (key x) with
      | true =>
        have : (Store.mk T' (S.insert (key t) true)).seatAt (key x) = true :=
          hiff.2 (Or.inr hold)
        simp [this]
      | false =>
        have : (Store.mk T' (S.insert (key t) true)).seatAt (key x) = false := by
          rw [← Bool.not_eq_true]
          intro hc
          rcases hiff.1 hc with hk | hk
          · exact hxt (hkey.1 hk)
          · rw [hold] at hk
            cases hk
        simp [this, hxt]
  rw [hstep, h]
  rw [h] at hnd
  have hnot : t ∉ rest := (List.nodup_cons.1 hnd).1
  rw [List.filter_cons]
  simp only [ne_eq, not_true_eq_false, decide_False, Bool.false_eq_true, if_false]
  rw [List.filter_eq_self]
  intro a ha
  simp only [decide_eq_true_eq]
  rintro rfl
  exact hnot ha

theorem purchaseEach_free (reqs : List PurchaseArgs) :
    ∀ s : Store, (∀ a ∈ reqs, s.tickets.lookup a.user.Email = none) →
      (reqs.map (fun a => a.user.Email)).Nodup →
      (purchaseEach s reqs).1 =
        List.zipWith (fun a seat => Result.ok (a.ticketAt seat)) reqs (freeSeats s) ++
          List.replicate (reqs.length - (freeSeats s).length) (Result.err Error.ErrTrainFull) := by
  induction reqs with
  | nil => intro s _ _; simp [purchaseEach]
  | cons a rest ih =>
    intro s hnone hnodup
    have hnone_a := hnone a (List.mem_cons_self _ _)
    rw [List.map_cons, List.nodup_cons] at hnodup
    have hf := findNext_free s
    cases hfree : freeSeats s with
    | nil =>
      rw [hfree] at hf
      have hp : PurchaseTicket s a.user a.src a.dst a.pricePaid =
          (Result.err Error.ErrTrainFull, s) := by
        rcases purchase_cases s a.user a.src a.dst a.pricePaid with
          ⟨hsome, -⟩ | ⟨-, -, hr⟩ | ⟨-, seat, hf', -⟩
        · rw [hnone_a] at hsome
          cases hsome
        · exact hr
        · rw [hf] at hf'
          cases hf'
      have hrest := ih s (fun b hb => hnone b (List.mem_cons_of_mem _ hb)) hnodup.2
      rw [hfree] at hrest
      simp only [purchaseEach, hp, hrest]
      simp [List.replicate_succ]
    | cons t todo =>
      rw [hfree] at hf
      have hp := purchase_at a.user a.src a.dst a.pricePaid hnone_a hf
      obtain ⟨T, S⟩ := s
      have hrest := ih
        { tickets := T.insert a.user.Email ⟨a.src, a.dst, a.user, a.pricePaid, t⟩,
          seats := S.insert (key t) true }
        (by
          intro b hb
          have hne : b.user.Email ≠ a.user.Email := by
            intro he
            exact hnodup.1 (he ▸ List.mem_map_of_mem (fun a => a.user.Email) hb)
          show AList.lookup b.user.Email (AList.insert _ _ T) = none
          rw [lookup_insert_eq, if_neg hne]
          exact hnone b (List.mem_cons_of_mem _ hb))
        hnodup.2
      rw [freeSeats_after hfree] at hrest
      simp only [purchaseEach, hp, hrest]
      simp [PurchaseArgs.ticketAt]

theorem inv_purchaseEach {s : Store} (h : Inv s) (reqs : List PurchaseArgs) :
    Inv (purchaseEach s reqs).2 := by
  induction reqs generalizing s with
  | nil => exact h
  | cons a rest ih => exact ih (inv_purchase h a.user a.src a.dst a.pricePaid)

theorem tickets_le_twenty {s : Store} (h : Inv s) : s.tickets.entries.length ≤ 20 := by
  have hsub : s.tickets.entries.map (fun e => e.2.Seat) ⊆ allSeats := by
    intro seat hmem
    obtain ⟨e, t, hl, rfl⟩ := mem_ticketSeats_iff.1 hmem
    exact h.valid _ _ hl
  have := (List.subperm_of_subset (ticketSeats_nodup h) hsub).length_le
  rw [List.length_map] at this
  exact this

theorem countP_ok_zipWith (reqs : List PurchaseArgs) (seats : List Seat) :
    (List.zipWith (fun a seat => Result.ok (a.ticketAt seat)) reqs seats).countP Result.isOk =
      min reqs.length seats.length := by
  induction reqs generalizing seats with
  | nil => simp
  | cons a rest ih =>
    cases seats with
    | nil => simp
    | cons t seats =>
      simp only [List.zipWith_cons_cons, List.length_cons]
      rw [List.countP_cons_of_pos _ _ (by rfl), ih]
      omega

theorem free_add_tickets {s : Store} (h : Inv s) :
    (freeSeats s).length + s.tickets.entries.length = 20 := by
  have hsplit := List.length_eq_length_filter_add (l := allSeats)
    (fun seat => !s.seatAt (key seat))
  have hperm : (allSeats.filter (fun seat => !(!s.seatAt (key seat)))).Perm
      (s.tickets.entries.map (fun e => e.2.Seat)) := by
    rw [List.perm_ext_iff_of_nodup (allSeats_nodup.filter _) (ticketSeats_nodup h)]
    intro seat
    rw [List.mem_filter, mem_ticketSeats_iff]
    constructor
    · rintro ⟨hm, hk⟩
      simp only [Bool.not_not] at hk
      obtain ⟨e, t, hl, hkey⟩ := (h.marked _).1 hk
      exact ⟨e, t, hl, key_inj (h.valid _ _ hl) hm hkey⟩
    · rintro ⟨e, t, hl, rfl⟩
      refine ⟨h.valid _ _ hl, ?_⟩
      simp only [Bool.not_not]
      exact (h.marked _).2 ⟨e, t, hl, rfl⟩
  have hlen := hperm.length_eq
  rw [List.length_map] at hlen
  have h20 : allSeats.length = 20 := rfl
  unfold freeSeats
  omega

/-- C29: in every store reachable from the empty store, with its free seats taken
in the order A1..B10, successive `PurchaseTicket` calls for pairwise distinct
emails none of which owns a ticket succeed for the first min(N, f) calls, the
k-th of them on the k-th free seat, and fail with `ErrTrainFull` for the
remaining calls; so exactly min(N, f) calls succeed, on pairwise distinct seats
that were unoccupied before; f is 20 less the number of live tickets, and after
every call the number of live tickets is at most 20. -/
theorem C29_sequential_allocation (ops : List Op) (reqs : List PurchaseArgs)
    (hnone : ∀ a ∈ reqs, (run NewStore ops).tickets.lookup a.user.Email = none)
    (hdistinct : (reqs.map (fun a => a.user.Email)).Nodup) :
    (purchaseEach (run NewStore ops) reqs).1 =
      List.zipWith (fun a seat => Result.ok (a.ticketAt seat)) reqs
          (freeSeats (run NewStore ops)) ++
        List.replicate (reqs.length - (freeSeats (run NewStore ops)).length)
          (Result.err Error.ErrTrainFull) ∧
    (purchaseEach (run NewStore ops) reqs).1.countP Result.isOk =
      min reqs.length (freeSeats (run NewStore ops)).length ∧
    (freeSeats (run NewStore ops)).Nodup ∧
    (∀ seat ∈ freeSeats (run NewStore ops),
      seat ∈ allSeats ∧
      (run NewStore ops).seatAt (seatKey seat.Section seat.SeatNumber) = false ∧
      ∀ e t, (run NewStore ops).tickets.lookup e = some t → t.Seat ≠ seat) ∧
    (freeSeats (run NewStore ops)).length + (run NewStore ops).tickets.entries.length = 20 ∧
    (∀ k, (purchaseEach (run NewStore ops) (reqs.take k)).2.tickets.entries.length ≤ 20) := by
  have hinv := inv_reachable ops
  generalize run NewStore ops = s at hnone hinv ⊢
  have hres := purchaseEach_free reqs s hnone hdistinct
  refine ⟨hres, ?_, freeSeats_nodup s, ?_, free_add_tickets hinv, ?_⟩
  · rw [hres, List.countP_append, countP_ok_zipWith, List.countP_replicate]
    simp [Result.isOk]
  · intro seat hmem
    obtain ⟨hm, hfree⟩ := mem_freeSeats.1 hmem
    refine ⟨hm, hfree, ?_⟩
    rintro e t hl rfl
    have : s.seatAt (key t.Seat) = true := (hinv.marked _).2 ⟨e, t, hl, rfl⟩
    rw [hfree] at this
    cases this
  · intro k
    exact tickets_le_twenty (inv_purchaseEach hinv _)

/-- On the train with 18 tickets, where B9 and B10 are free, purchases for alice,
bob and carol give alice B9 and bob B10 and refuse carol with `ErrTrainFull`. -/
theorem C29_sequential_allocation_witness :
    freeSeats (run NewStore (fillOps.take 18)) = [⟨"B", 9⟩, ⟨"B", 10⟩] ∧
    (purchaseEach (run NewStore (fillOps.take 18))
        [⟨alice, "London", "France", 2000⟩, ⟨bob, "London", "France", 2000⟩,
          ⟨carol, "London", "France", 2000⟩]).1 =
      [Result.ok ⟨"London", "France", alice, 2000, ⟨"B", 9⟩⟩,
        Result.ok ⟨"London", "France", bob, 2000, ⟨"B", 10⟩⟩,
        Result.err Error.ErrTrainFull] ∧
    (purchaseEach (run NewStore (fillOps.take 18))
        [⟨alice, "London", "France", 2000⟩, ⟨bob, "London", "France", 2000⟩,
          ⟨carol, "London", "France", 2000⟩]).1.countP Result.isOk =
      min ([⟨alice, "London", "France", 2000⟩, ⟨bob, "London", "France", 2000⟩,
          ⟨carol, "London", "France", 2000⟩] : List PurchaseArgs).length
        (freeSeats (run NewStore (fillOps.take 18))).length :=
  ⟨by decide, by decide,
    (C29_sequential_allocation (fillOps.take 18)
      [⟨alice, "London", "France", 2000⟩, ⟨bob, "London", "France", 2000⟩,
        ⟨carol, "London", "France", 2000⟩] (by decide) (by decide)).2.1⟩

/-- C30: `seatKey` is injective on the valid seats: for sections in {"A", "B"} and
seat numbers in 1..10, equal keys come from equal sections and equal seat
numbers; and in every store reachable from the empty store the seat of every live
ticket is such a valid seat and every marked key of the occupancy map is the key
of such a valid seat. -/
theorem C30_seat_key_injective :
    (∀ (s₁ s₂ : String) (n₁ n₂ : Int), (s₁ = "A" ∨ s₁ = "B") → (s₂ = "A" ∨ s₂ = "B") →
      1 ≤ n₁ → n₁ ≤ 10 → 1 ≤ n₂ → n₂ ≤ 10 →
      seatKey s₁ n₁ = seatKey s₂ n₂ → s₁ = s₂ ∧ n₁ = n₂) ∧
    (∀ (ops : List Op) (email : String) (t : Ticket),
      (run NewStore ops).tickets.lookup email = some t →
      (t.Seat.Section = "A" ∨ t.Seat.Section = "B") ∧
        1 ≤ t.Seat.SeatNumber ∧ t.Seat.SeatNumber ≤ 10) ∧
    (∀ (ops : List Op) (k : String), (run NewStore ops).seatAt k = true →
      ∃ (sec : String) (n : Int), (sec = "A" ∨ sec = "B") ∧ 1 ≤ n ∧ n ≤ 10 ∧
        k = seatKey sec n) := by
  have hvalid : ∀ seat : Seat, seat ∈ allSeats ↔
      (seat.Section = "A" ∨ seat.Section = "B") ∧ 1 ≤ seat.SeatNumber ∧
        seat.SeatNumber ≤ 10 := by
    intro seat
    rw [mem_allSeats_iff]
    simp [validSeat, IsValidSection, IsValidSeatNumber]
  refine ⟨?_, ?_, ?_⟩
  · intro s₁ s₂ n₁ n₂ hs₁ hs₂ h₁ h₁' h₂ h₂' hk
    have ha : (⟨s₁, n₁⟩ : Seat) ∈ allSeats := (hvalid _).2 ⟨hs₁, h₁, h₁'⟩
    have hb : (⟨s₂, n₂⟩ : Seat) ∈ allSeats := (hvalid _).2 ⟨hs₂, h₂, h₂'⟩
    have := key_inj ha hb hk
    simp only [Seat.mk.injEq] at this
    exact this
  · intro ops email t hl
    exact (hvalid _).1 ((inv_reachable ops).valid _ _ hl)
  · intro ops k hk
    obtain ⟨e, t, hl, hkey⟩ := ((inv_reachable ops).marked k).1 hk
    obtain ⟨hs, h₁, h₂⟩ := (hvalid _).1 ((inv_reachable ops).valid _ _ hl)
    exact ⟨t.Seat.Section, t.Seat.SeatNumber, hs, h₁, h₂, hkey.symm⟩

/-- The keys of A1 and A10 differ from each other and from the key of B1, and on
the full train the marked key `B-10` is the key of the valid seat B10. -/
theorem C30_seat_key_injective_witness :
    seatKey "A" 1 = "A-1" ∧ seatKey "A" 10 = "A-10" ∧ seatKey "B" 1 = "B-1" ∧
    (run NewStore fillOps).seatAt "B-10" = true ∧
    (seatKey "A" 1 = seatKey "A" 1 → ("A" : String) = "A" ∧ (1 : Int) = 1) ∧
    ∃ (sec : String) (n : Int), (sec = "A" ∨ sec = "B") ∧ 1 ≤ n ∧ n ≤ 10 ∧
      "B-10" = seatKey sec n :=
  ⟨by decide, by decide, by decide, by decide,
    C30_seat_key_injective.1 "A" "A" 1 1 (Or.inl rfl) (Or.inl rfl) (by decide) (by decide)
      (by decide) (by decide),
    C30_seat_key_injective.2.2 fillOps "B-10" (by decide)⟩
